import Mathlib

/-!
# 9p local backend (`hw/9pfs/9p-local.c`) and worker bridge (`hw/9pfs/codir.c`)

A shallow embedding of the POSIX build of the two C files (the `#else` side of
every `#ifdef _WIN32`).  C strings are `String`s or `List Char`s without the
terminating NUL, machine integers are `Nat`/`Int` with explicit wrap-around,
and the host operating system is an explicit state `Host` that every system
call transforms.
-/

namespace P9

/-! ## Constants of headers that are not part of the excerpt -/

/-- Modelled from the spec: export flag bits of `fsdev/file-op-9p.h` (header
absent); one independent bit per security model, "combined bit-flags for
security model plus unrelated feature flags". -/
def V9FS_IMMEDIATE_WRITEOUT : Nat := 0x1
/-- Modelled from the spec: flag set by `local_init` (header absent). -/
def V9FS_PATHNAME_FSCONTEXT : Nat := 0x2
/-- Modelled from the spec: security model `passthrough` (header absent). -/
def V9FS_SM_PASSTHROUGH : Nat := 0x4
/-- Modelled from the spec: security model `mapped`/`mapped-xattr` (header absent). -/
def V9FS_SM_MAPPED : Nat := 0x8
/-- Modelled from the spec: security model `none` (header absent). -/
def V9FS_SM_NONE : Nat := 0x10
/-- Modelled from the spec: security model `mapped-file` (header absent). -/
def V9FS_SM_MAPPED_FILE : Nat := 0x100
/-- Modelled from the spec: mask used to compare the model with `none`
(header absent); it covers passthrough, mapped and none. -/
def V9FS_SEC_MASK : Nat := 0x1C
/-- The four security-model bits together. -/
def V9FS_SM_ALL : Nat :=
  V9FS_SM_PASSTHROUGH ||| V9FS_SM_MAPPED ||| V9FS_SM_NONE ||| V9FS_SM_MAPPED_FILE

/-- Modelled from the spec: mode of the real file behind a mapped object
(`9p.h` absent). -/
def SM_LOCAL_MODE_BITS : Nat := 0o600
/-- Modelled from the spec: mode of the real directory behind a mapped
directory (`9p.h` absent). -/
def SM_LOCAL_DIR_MODE_BITS : Nat := 0o700

def VIRTFS_META_DIR : String := ".virtfs_metadata"
def ATTR_MAX : Nat := 100

/-- The flag `AT_REMOVEDIR` of `unlinkat` and the fid type `P9_FID_DIR` of `9p.h`. -/
def AT_REMOVEDIR : Nat := 0x200
def P9_FID_DIR : Nat := 2

/-! errno values and open flags of the host (Linux numbering) -/
def EPERM : Int := 1
def ENOENT : Int := 2
def EINTR : Int := 4
def EBADF : Int := 9
def EEXIST : Int := 17
def ENOTDIR : Int := 20
def EISDIR : Int := 21
def ELOOP : Int := 40
def ENODATA : Int := 61
def EOPNOTSUPP : Int := 95
def EINVAL : Int := 22

def O_RDONLY : Nat := 0
def O_WRONLY : Nat := 0o1
def O_RDWR : Nat := 0o2
def O_ACCMODE : Nat := 0o3
def O_CREAT : Nat := 0o100
def O_EXCL : Nat := 0o200
def O_TRUNC : Nat := 0o1000
def O_NOFOLLOW : Nat := 0o400000
/-- The flag `O_BINARY` is defined as 0 on hosts that do not have it. -/
def O_BINARY : Nat := 0

def S_IFMT : Nat := 0o170000
def S_IFREG : Nat := 0o100000
def S_IFDIR : Nat := 0o040000
def S_IFLNK : Nat := 0o120000
def DT_UNKNOWN : Nat := 0

/-! ## Machine integers -/

/-- Conversion of an unsigned value to C `int` (two's complement, 32 bit). -/
def toInt32 (n : Nat) : Int :=
  if n % 2 ^ 32 < 2 ^ 31 then (n % 2 ^ 32 : Nat) else (n % 2 ^ 32 : Nat) - 2 ^ 32

/-- Conversion of an `int` to a 32-bit unsigned type (`uid_t`, `gid_t`, `mode_t`). -/
def toUInt32 (x : Int) : Nat := (x % 2 ^ 32).toNat

/-- Conversion of an `int` to the 64-bit unsigned `dev_t` (sign extension). -/
def toUInt64 (x : Int) : Nat := (x % 2 ^ 64).toNat

/-- The value `-1` in a 32-bit unsigned type: the "unset" sentinel of
`fc_uid`, `fc_gid` and `fc_mode`. -/
def UNSET32 : Nat := 2 ^ 32 - 1
/-- The value `-1` in `dev_t`: the "unset" sentinel of `fc_rdev`. -/
def UNSET64 : Nat := 2 ^ 64 - 1

/-- The test `(int16_t)(mode) != -1` of the source. -/
def int16_ne_minus1 (mode : Nat) : Bool := mode % 2 ^ 16 != 2 ^ 16 - 1

/-! ## `printf("%d")` and `atoi` -/

/-- Decimal digits of `n`, most significant first (`fuel + 1` digits at most). -/
def fmt_u : Nat → Nat → List Char
  | 0, n => [Char.ofNat (48 + n % 10)]
  | fuel + 1, n =>
    if n < 10 then [Char.ofNat (48 + n)]
    else fmt_u fuel (n / 10) ++ [Char.ofNat (48 + n % 10)]

/-- The text `printf("%d", x)` produces for an `int`. -/
def fmt_d (x : Int) : List Char :=
  if x < 0 then '-' :: fmt_u 10 x.natAbs else fmt_u 10 x.natAbs

def isspace (c : Char) : Bool :=
  c = ' ' || c = '\t' || c = '\n' || c = '\x0b' || c = '\x0c' || c = '\r'

def isdigit (c : Char) : Bool := 48 ≤ c.toNat && c.toNat ≤ 57

/-- Value of the leading run of decimal digits, continuing from `acc`. -/
def parse_digits : List Char → Nat → Nat
  | [], acc => acc
  | c :: cs, acc =>
    if isdigit c then parse_digits cs (acc * 10 + (c.toNat - 48)) else acc

/-- Saturation of `strtol` to the range of `long` (64 bit). -/
def clampLong (x : Int) : Int :=
  if x < -(2 ^ 63) then -(2 ^ 63) else if 2 ^ 63 - 1 < x then 2 ^ 63 - 1 else x

/-- Truncation of a `long` to `int`. -/
def wrapInt32 (x : Int) : Int := toInt32 (x % 2 ^ 32).toNat

/-- C library `atoi`, i.e. `(int) strtol(s, NULL, 10)`: skip white space, an
optional sign, then the leading digits. -/
def atoi (s : List Char) : Int :=
  match s.dropWhile isspace with
  | [] => 0
  | c :: cs =>
    if c = '-' then wrapInt32 (clampLong (-(parse_digits cs 0 : Nat)))
    else if c = '+' then wrapInt32 (clampLong (parse_digits cs 0 : Nat))
    else wrapInt32 (clampLong (parse_digits (c :: cs) 0 : Nat))

/-! ## The host operating system

Paths are compared as strings; aliasing of two different strings (through
`.`, `..`, repeated separators or symbolic links in intermediate components)
is outside the model, as are the existence of parent directories, permission
checks and `umask`.  Every failure the model does not decide itself can be
injected through `Host.plan`: the n-th system or library call consumes the n-th
entry, `some e` makes it fail with `errno = e` and no effect, `none` (or an
exhausted plan) lets it behave as described here.  The calls `fprintf` and
`fclose` of a buffered stream are among them: a failing one loses the output it
was to store resp. to write, and a failing `fclose` closes the descriptor all
the same. -/

structure Inode where
  st_mode : Nat
  st_uid : Nat
  st_gid : Nat
  st_rdev : Nat
  /-- File content, or the target of a symbolic link. -/
  data : List Char
  /-- Extended attributes: name to value bytes. -/
  xattrs : String → Option (List Nat)

structure Stat where
  st_mode : Nat
  st_uid : Nat
  st_gid : Nat
  st_rdev : Nat

structure OpenFile where
  path : String
  pos : Nat

structure Host where
  fs : String → Option Inode
  fds : Int → Option OpenFile
  next_fd : Nat
  errno : Int
  euid : Nat
  egid : Nat
  plan : List (Option Int)
  /-- Output that `fprintf` has stored in the buffer of the stream on a descriptor
  and that is not written to the file yet. -/
  wbuf : Int → List Char := fun _ => []
  /-- Bookkeeping, no program state: the number of `fprintf` and `fclose` calls so
  far whose output did not reach the file. -/
  lost : Nat := 0

/-- Consume the plan entry of the next system call. -/
def Host.next (h : Host) : Option Int × Host :=
  match h.plan with
  | [] => (none, h)
  | o :: rest => (o, { h with plan := rest })

/-- A failing call: returns `-1` and sets `errno`. -/
def Host.fail (h : Host) (e : Int) : Int × Host := (-1, { h with errno := e })

def Host.setNode (h : Host) (p : String) (o : Option Inode) : Host :=
  { h with fs := fun q => if q = p then o else h.fs q }

def Host.setFd (h : Host) (fd : Int) (o : Option OpenFile) : Host :=
  { h with fds := fun k => if k = fd then o else h.fds k }

def Host.setBuf (h : Host) (fd : Int) (b : List Char) : Host :=
  { h with wbuf := fun k => if k = fd then b else h.wbuf k }

/-- The same host with no failure scheduled. -/
def Host.calm (h : Host) : Host := { h with plan := [] }

def Inode.isDir (i : Inode) : Bool := i.st_mode &&& S_IFMT == S_IFDIR
def Inode.isLnk (i : Inode) : Bool := i.st_mode &&& S_IFMT == S_IFLNK
def Inode.stat (i : Inode) : Stat := ⟨i.st_mode, i.st_uid, i.st_gid, i.st_rdev⟩

def newInode (h : Host) (mode rdev : Nat) (data : List Char) : Inode :=
  { st_mode := mode, st_uid := h.euid, st_gid := h.egid, st_rdev := rdev,
    data := data, xattrs := fun _ => none }

/-- The call `open(2)`; every caller in this file passes `O_NOFOLLOW`. -/
def host_open (path : String) (flags mode : Nat) (h : Host) : Int × Host :=
  match h.next with
  | (some e, h) => h.fail e
  | (none, h) =>
    match h.fs path with
    | some ino =>
      if flags &&& O_CREAT ≠ 0 ∧ flags &&& O_EXCL ≠ 0 then h.fail EEXIST
      else if ino.isLnk ∧ flags &&& O_NOFOLLOW ≠ 0 then h.fail ELOOP
      else if ino.isDir ∧ flags &&& O_ACCMODE ≠ O_RDONLY then h.fail EISDIR
      else
        let ino := if flags &&& O_TRUNC ≠ 0 ∧ flags &&& O_ACCMODE ≠ O_RDONLY
          then { ino with data := [] } else ino
        let h := (h.setNode path (some ino)).setFd h.next_fd (some ⟨path, 0⟩)
        (h.next_fd, { h with next_fd := h.next_fd + 1 })
    | none =>
      if flags &&& O_CREAT ≠ 0 then
        let ino := newInode h (S_IFREG ||| (mode &&& 0o7777)) 0 []
        let h := (h.setNode path (some ino)).setFd h.next_fd (some ⟨path, 0⟩)
        (h.next_fd, { h with next_fd := h.next_fd + 1 })
      else h.fail ENOENT

def host_close (fd : Int) (h : Host) : Int × Host :=
  match h.next with
  | (some e, h) => h.fail e
  | (none, h) =>
    match h.fds fd with
    | none => h.fail EBADF
    | some _ => (0, h.setFd fd none)

/-- The call `write(2)` of the whole buffer at the offset of the descriptor. -/
def host_write (fd : Int) (buf : List Char) (h : Host) : Int × Host :=
  match h.next with
  | (some e, h) => h.fail e
  | (none, h) =>
    match h.fds fd with
    | none => h.fail EBADF
    | some f =>
      match h.fs f.path with
      | none => h.fail EBADF
      | some ino =>
        let data := ino.data.take f.pos ++ buf ++ ino.data.drop (f.pos + buf.length)
        let h := (h.setNode f.path (some { ino with data := data })).setFd fd
          (some { f with pos := f.pos + buf.length })
        (buf.length, h)

/-- The call `read(2)` of at most `n` bytes at the offset of the descriptor. -/
def host_read (fd : Int) (n : Nat) (h : Host) : Int × List Char × Host :=
  match h.next with
  | (some e, h) => (-1, [], { h with errno := e })
  | (none, h) =>
    match h.fds fd with
    | none => (-1, [], { h with errno := EBADF })
    | some f =>
      match h.fs f.path with
      | none => (-1, [], { h with errno := EBADF })
      | some ino =>
        let got := (ino.data.drop f.pos).take n
        (got.length, got, h.setFd fd (some { f with pos := f.pos + got.length }))

def host_mknod (path : String) (mode dev : Nat) (h : Host) : Int × Host :=
  match h.next with
  | (some e, h) => h.fail e
  | (none, h) =>
    match h.fs path with
    | some _ => h.fail EEXIST
    | none => (0, h.setNode path (some (newInode h mode dev [])))

def host_mkdir (path : String) (mode : Nat) (h : Host) : Int × Host :=
  match h.next with
  | (some e, h) => h.fail e
  | (none, h) =>
    match h.fs path with
    | some _ => h.fail EEXIST
    | none => (0, h.setNode path (some (newInode h (S_IFDIR ||| (mode &&& 0o7777)) 0 [])))

def host_symlink (target : String) (path : String) (h : Host) : Int × Host :=
  match h.next with
  | (some e, h) => h.fail e
  | (none, h) =>
    match h.fs path with
    | some _ => h.fail EEXIST
    | none => (0, h.setNode path (some (newInode h (S_IFLNK ||| 0o777) 0 target.data)))

/-- The call `remove(3)`: `unlink` for files, `rmdir` for directories. -/
def host_remove (path : String) (h : Host) : Int × Host :=
  match h.next with
  | (some e, h) => h.fail e
  | (none, h) =>
    match h.fs path with
    | none => h.fail ENOENT
    | some _ => (0, h.setNode path none)

/-- The call `lchown(2)`; an id of `-1` leaves that id unchanged. -/
def host_lchown (path : String) (uid gid : Nat) (h : Host) : Int × Host :=
  match h.next with
  | (some e, h) => h.fail e
  | (none, h) =>
    match h.fs path with
    | none => h.fail ENOENT
    | some ino =>
      (0, h.setNode path (some { ino with
        st_uid := if uid = UNSET32 then ino.st_uid else uid,
        st_gid := if gid = UNSET32 then ino.st_gid else gid }))

def host_chmod (path : String) (mode : Nat) (h : Host) : Int × Host :=
  match h.next with
  | (some e, h) => h.fail e
  | (none, h) =>
    match h.fs path with
    | none => h.fail ENOENT
    | some ino =>
      (0, h.setNode path (some { ino with
        st_mode := (ino.st_mode &&& S_IFMT) ||| (mode &&& 0o7777) }))

def host_lstat (path : String) (stbuf : Stat) (h : Host) : Int × Stat × Host :=
  match h.next with
  | (some e, h) => (-1, stbuf, { h with errno := e })
  | (none, h) =>
    match h.fs path with
    | none => (-1, stbuf, { h with errno := ENOENT })
    | some ino => (0, ino.stat, h)

def host_setxattr (path name : String) (value : List Nat) (h : Host) : Int × Host :=
  match h.next with
  | (some e, h) => h.fail e
  | (none, h) =>
    match h.fs path with
    | none => h.fail ENOENT
    | some ino =>
      (0, h.setNode path (some { ino with
        xattrs := fun k => if k = name then some value else ino.xattrs k }))

/-- The call `getxattr(2)` into a buffer of `size` bytes: the length of the value and
the bytes stored, or `-1`. -/
def host_getxattr (path name : String) (size : Nat) (h : Host) : Int × List Nat × Host :=
  match h.next with
  | (some e, h) => (-1, [], { h with errno := e })
  | (none, h) =>
    match h.fs path with
    | none => (-1, [], { h with errno := ENOENT })
    | some ino =>
      match ino.xattrs name with
      | none => (-1, [], { h with errno := ENODATA })
      | some v => if size < v.length then (-1, [], { h with errno := 34 })
        else (v.length, v, h)

/-- The call `link(2)`: the new name receives the object of the old one. -/
def host_link (oldpath newpath : String) (h : Host) : Int × Host :=
  match h.next with
  | (some e, h) => h.fail e
  | (none, h) =>
    match h.fs oldpath with
    | none => h.fail ENOENT
    | some ino =>
      match h.fs newpath with
      | some _ => h.fail EEXIST
      | none => (0, h.setNode newpath (some ino))

/-- The call `rename(2)`: the object moves to the new name, replacing what was
there; renaming a name to itself does nothing. -/
def host_rename (oldpath newpath : String) (h : Host) : Int × Host :=
  match h.next with
  | (some e, h) => h.fail e
  | (none, h) =>
    match h.fs oldpath with
    | none => h.fail ENOENT
    | some ino =>
      if oldpath = newpath then (0, h)
      else (0, (h.setNode oldpath none).setNode newpath (some ino))

def host_fstat (fd : Int) (stbuf : Stat) (h : Host) : Int × Stat × Host :=
  match h.next with
  | (some e, h) => (-1, stbuf, { h with errno := e })
  | (none, h) =>
    match h.fds fd with
    | none => (-1, stbuf, { h with errno := EBADF })
    | some f =>
      match h.fs f.path with
      | none => (-1, stbuf, { h with errno := EBADF })
      | some ino => (0, ino.stat, h)

/-- The call `fgetxattr(2)`: `getxattr` on the object behind the descriptor. -/
def host_fgetxattr (fd : Int) (name : String) (size : Nat) (h : Host) :
    Int × List Nat × Host :=
  match h.fds fd with
  | none =>
    match h.next with
    | (some e, h) => (-1, [], { h with errno := e })
    | (none, h) => (-1, [], { h with errno := EBADF })
  | some f => host_getxattr f.path name size h

/-- The call `readlink(2)`: at most `bufsz` bytes of the target, no terminator. -/
def host_readlink (path : String) (bufsz : Nat) (h : Host) : Int × List Char × Host :=
  match h.next with
  | (some e, h) => (-1, [], { h with errno := e })
  | (none, h) =>
    match h.fs path with
    | none => (-1, [], { h with errno := ENOENT })
    | some ino =>
      if ino.isLnk then ((ino.data.take bufsz).length, ino.data.take bufsz, h)
      else (-1, [], { h with errno := EINVAL })

/-- The call `rmdir(2)`; whether the directory is empty is not decided here. -/
def host_rmdir (path : String) (h : Host) : Int × Host :=
  match h.next with
  | (some e, h) => h.fail e
  | (none, h) =>
    match h.fs path with
    | none => h.fail ENOENT
    | some ino => if ino.isDir then (0, h.setNode path none) else h.fail ENOTDIR

/-- The call `statfs(2)`; only its return value is used. -/
def host_statfs (path : String) (h : Host) : Int × Host :=
  match h.next with
  | (some e, h) => h.fail e
  | (none, h) =>
    match h.fs path with
    | none => h.fail ENOENT
    | some _ => (0, h)

/-! ### Buffered streams and directory streams

A stream is fully buffered: `fprintf` stores its output in the buffer of the
stream and `fclose` writes the buffer to the file.  Both calls take an entry of
the plan and can fail, and the output of a failed call does not reach the file;
the source ignores both results.  A read stream holds the unread bytes of the
file. -/

structure FILE where
  fd : Int
  rbuf : List Char

/-- The call `fdopen(fd, mode)`: the new stream starts with an empty buffer. -/
def host_fdopen (fd : Int) (h : Host) : Option FILE × Host :=
  match h.next with
  | (some e, h) => (none, { h with errno := e })
  | (none, h) =>
    match h.fds fd with
    | none => (none, { h with errno := EBADF })
    | some f =>
      match h.fs f.path with
      | none => (some ⟨fd, []⟩, h.setBuf fd [])
      | some ino => (some ⟨fd, ino.data.drop f.pos⟩, h.setBuf fd [])

/-- The bytes one `fgets` call stores: at most `n`, ending after a newline. -/
def takeLine : Nat → List Char → List Char
  | 0, _ => []
  | _, [] => []
  | n + 1, c :: cs => if c = '\n' then [c] else c :: takeLine n cs

/-- The call `fgets(buf, size, fp)`: `none` is the `NULL` returned at end of file. -/
def fgets (size : Nat) (fp : FILE) : Option (List Char) × FILE :=
  match fp.rbuf with
  | [] => (none, fp)
  | _ :: _ =>
    let line := takeLine (size - 1) fp.rbuf
    (some line, { fp with rbuf := fp.rbuf.drop line.length })

/-- The call `fprintf(fp, ...)`: the output is appended to the buffer of the
stream.  A failing call returns a negative value and its output is lost. -/
def host_fprintf (fp : FILE) (text : List Char) (h : Host) : Int × Host :=
  match h.next with
  | (some e, h) => (-1, { h with errno := e, lost := h.lost + 1 })
  | (none, h) => (text.length, h.setBuf fp.fd (h.wbuf fp.fd ++ text))

/-- The call `fclose(fp)`: the buffered output is written at the position of the
descriptor and the descriptor is closed.  When the write fails the result is
`EOF`, the buffered output is lost and the descriptor is closed all the same. -/
def host_fclose (fp : FILE) (h : Host) : Int × Host :=
  match h.next with
  | (some e, h) =>
    (-1, (({ h with errno := e,
                    lost := if h.wbuf fp.fd = [] then h.lost else h.lost + 1 } : Host).setBuf
      fp.fd []).setFd fp.fd none)
  | (none, h) =>
    if h.wbuf fp.fd = [] then (0, h.setFd fp.fd none)
    else
      match (h.fds fp.fd).bind fun f => (h.fs f.path).map fun ino => (f, ino) with
      | none =>
        (-1, (({ h with errno := EBADF, lost := h.lost + 1 } : Host).setBuf fp.fd []).setFd
          fp.fd none)
      | some (f, ino) =>
        let text := h.wbuf fp.fd
        let data := ino.data.take f.pos ++ text ++ ino.data.drop (f.pos + text.length)
        (0, ((h.setNode f.path (some { ino with data := data })).setBuf fp.fd []).setFd
          fp.fd none)

structure Dirent where
  d_name : String
  d_type : Nat

/-- A directory stream: the entries not yet read. -/
abbrev DIR := List Dirent

/-- The call `readdir_r(3)` as in glibc: the error number is returned and left in
`errno`, and `*result` is `NULL` on error and at the end of the stream. -/
def host_readdir_r (dir : DIR) (h : Host) : Int × Option Dirent × DIR × Host :=
  match h.next with
  | (some e, h) => (e, none, dir, { h with errno := e })
  | (none, h) =>
    match dir with
    | [] => (0, none, [], h)
    | d :: rest => (0, some d, rest, h)

/-! ## Data of the backend -/

structure FsContext where
  fs_root : String
  export_flags : Nat

/-- Credentials of a request; `uid_t`, `gid_t` and `mode_t` are 32 bit, `dev_t` 64 bit. -/
structure FsCred where
  fc_uid : Nat
  fc_gid : Nat
  fc_mode : Nat
  fc_rdev : Nat

structure V9fsPath where
  size : Nat
  data : String

structure V9fsFidOpenState where
  fd : Int
  dir : DIR

/-- Modelled from the spec: `rpath` (header absent), "prefixes the export root". -/
def rpath (ctx : FsContext) (path : String) : String := ctx.fs_root ++ "/" ++ path

/-- Modelled from the spec: the format `DELIMITER_IN_PATH` (header absent),
"concatenates with a single separator". -/
def DELIMITER_IN_PATH (dir name : String) : String := dir ++ "/" ++ name

/-- Modelled from the spec: the format `DELIMITER_IN_PATH2` (header absent),
three components joined by single separators. -/
def DELIMITER_IN_PATH2 (a b c : String) : String := a ++ "/" ++ b ++ "/" ++ c

/-- Index of the last occurrence of `c`. -/
def strrchr : List Char → Char → Option Nat
  | [], _ => none
  | x :: xs, c =>
    match strrchr xs c with
    | some i => some (i + 1)
    | none => if x = c then some 0 else none

def stripSlashes (s : List Char) : List Char := (s.reverse.dropWhile (· = '/')).reverse

/-- C library `dirname`. -/
def dirname (p : String) : String :=
  if p.data = [] then "." else
  let s := stripSlashes p.data
  if s = [] then "/" else
  match strrchr s '/' with
  | none => "."
  | some i =>
    let d := stripSlashes (s.take i)
    if d = [] then "/" else String.mk d

def local_mapped_attr_path (ctx : FsContext) (path : String) : String :=
  match strrchr path.data '/' with
  | some i =>
    ctx.fs_root ++ "/" ++ String.mk (path.data.take i) ++ "/" ++ VIRTFS_META_DIR ++ "/"
      ++ String.mk (path.data.drop (i + 1))
  | none =>
    ctx.fs_root ++ "/" ++ String.mk (path.data.take 0) ++ "/" ++ VIRTFS_META_DIR ++ "/" ++ path

def local_fopen (path : String) (mode : String) (h : Host) : Option FILE × Host :=
  let flags := O_NOFOLLOW
  let fo : Option (Nat × Nat) :=
    if mode.data.head? = some 'r' then some (flags ||| O_RDONLY, 0)
    else if mode.data.head? = some 'w' then
      some (flags ||| (O_WRONLY ||| O_TRUNC ||| O_CREAT), 0o666)
    else none
  match fo with
  | none => (none, h)
  | some (flags, o_mode) =>
    let r := host_open path (flags ||| O_BINARY) o_mode h
    if r.1 = -1 then (none, r.2)
    else
      match host_fdopen r.1 r.2 with
      | (none, h) => (none, (host_close r.1 h).2)
      | (some fp, h) => (some fp, h)

/-- The body of the `fgets` loop of `local_mapped_file_attr`. -/
def mapped_file_attr_line (buf : List Char) (stbuf : Stat) : Stat :=
  if buf.take 10 = "virtfs.uid".data then
    { stbuf with st_uid := toUInt32 (atoi (buf.drop 11)) }
  else if buf.take 10 = "virtfs.gid".data then
    { stbuf with st_gid := toUInt32 (atoi (buf.drop 11)) }
  else if buf.take 11 = "virtfs.mode".data then
    { stbuf with st_mode := toUInt32 (atoi (buf.drop 12)) }
  else if buf.take 11 = "virtfs.rdev".data then
    { stbuf with st_rdev := toUInt64 (atoi (buf.drop 12)) }
  else stbuf

/-- The loop `while (fgets(buf, ATTR_MAX, fp))`; the fuel bounds the number of lines. -/
def mapped_file_attr_loop : Nat → FILE → Stat → Stat
  | 0, _, stbuf => stbuf
  | n + 1, fp, stbuf =>
    match fgets ATTR_MAX fp with
    | (none, _) => stbuf
    | (some buf, fp) => mapped_file_attr_loop n fp (mapped_file_attr_line buf stbuf)

def local_mapped_file_attr (ctx : FsContext) (path : String) (stbuf : Stat) (h : Host) :
    Stat × Host :=
  let attr_path := local_mapped_attr_path ctx path
  match local_fopen attr_path "r" h with
  | (none, h) => (stbuf, h)
  | (some fp, h) =>
    (mapped_file_attr_loop (fp.rbuf.length + 1) fp stbuf, (host_fclose fp h).2)

/-- Little-endian bytes of a `w`-byte integer (`cpu_to_le32`, `cpu_to_le64`). -/
def le_bytes (w v : Nat) : List Nat := (List.range w).map fun i => v / 256 ^ i % 256

/-- Value of little-endian bytes (`le32_to_cpu`, `le64_to_cpu`); a value shorter
than the variable leaves the upper bytes at zero. -/
def le_value : List Nat → Nat
  | [] => 0
  | b :: bs => b % 256 + 256 * le_value bs

def local_lstat (fs_ctx : FsContext) (fs_path : V9fsPath) (stbuf : Stat) (h : Host) :
    Int × Stat × Host :=
  let path := fs_path.data
  let buffer := rpath fs_ctx path
  let (err, stbuf, h) := host_lstat buffer stbuf h
  if err ≠ 0 then (err, stbuf, h)
  else if fs_ctx.export_flags &&& V9FS_SM_MAPPED ≠ 0 then
    let (n, v, h) := host_getxattr buffer "user.virtfs.uid" 4 h
    let stbuf := if n > 0 then { stbuf with st_uid := le_value v } else stbuf
    let (n, v, h) := host_getxattr buffer "user.virtfs.gid" 4 h
    let stbuf := if n > 0 then { stbuf with st_gid := le_value v } else stbuf
    let (n, v, h) := host_getxattr buffer "user.virtfs.mode" 4 h
    let stbuf := if n > 0 then { stbuf with st_mode := le_value v } else stbuf
    let (n, v, h) := host_getxattr buffer "user.virtfs.rdev" 8 h
    let stbuf := if n > 0 then { stbuf with st_rdev := le_value v } else stbuf
    (err, stbuf, h)
  else if fs_ctx.export_flags &&& V9FS_SM_MAPPED_FILE ≠ 0 then
    let (stbuf, h) := local_mapped_file_attr fs_ctx path stbuf h
    (err, stbuf, h)
  else (err, stbuf, h)

def local_create_mapped_attr_dir (ctx : FsContext) (path : String) (h : Host) : Int × Host :=
  let attr_dir := DELIMITER_IN_PATH2 ctx.fs_root (dirname path) VIRTFS_META_DIR
  let r := host_mkdir attr_dir 0o700 h
  if r.1 < 0 ∧ r.2.errno = EEXIST then (0, r.2) else r

/-- The four `int` variables of `local_set_mapped_file_attr`. -/
structure MapAttr where
  uid : Int
  gid : Int
  mode : Int
  rdev : Int

/-- The body of the `fgets` loop of `local_set_mapped_file_attr`. -/
def set_mapped_file_attr_line (buf : List Char) (a : MapAttr) : MapAttr :=
  if buf.take 10 = "virtfs.uid".data then { a with uid := atoi (buf.drop 11) }
  else if buf.take 10 = "virtfs.gid".data then { a with gid := atoi (buf.drop 11) }
  else if buf.take 11 = "virtfs.mode".data then { a with mode := atoi (buf.drop 12) }
  else if buf.take 11 = "virtfs.rdev".data then { a with rdev := atoi (buf.drop 12) }
  else a

def set_mapped_file_attr_loop : Nat → FILE → MapAttr → MapAttr
  | 0, _, a => a
  | n + 1, fp, a =>
    match fgets ATTR_MAX fp with
    | (none, _) => a
    | (some buf, fp) => set_mapped_file_attr_loop n fp (set_mapped_file_attr_line buf a)

/-- The values written after merging the request into the values read. -/
def set_mapped_file_attr_merge (credp : FsCred) (a : MapAttr) : MapAttr :=
  { uid := if credp.fc_uid ≠ UNSET32 then toInt32 credp.fc_uid else a.uid,
    gid := if credp.fc_gid ≠ UNSET32 then toInt32 credp.fc_gid else a.gid,
    mode := if int16_ne_minus1 credp.fc_mode then toInt32 credp.fc_mode else a.mode,
    rdev := if credp.fc_rdev ≠ UNSET64 then toInt32 credp.fc_rdev else a.rdev }

/-- The four conditional `fprintf` calls; their results are not looked at. -/
def set_mapped_file_attr_print (fp : FILE) (a : MapAttr) (h : Host) : Host :=
  let h := if a.uid ≠ -1 then
    (host_fprintf fp ("virtfs.uid=".data ++ fmt_d a.uid ++ ['\n']) h).2 else h
  let h := if a.gid ≠ -1 then
    (host_fprintf fp ("virtfs.gid=".data ++ fmt_d a.gid ++ ['\n']) h).2 else h
  let h := if a.mode ≠ -1 then
    (host_fprintf fp ("virtfs.mode=".data ++ fmt_d a.mode ++ ['\n']) h).2 else h
  if a.rdev ≠ -1 then
    (host_fprintf fp ("virtfs.rdev=".data ++ fmt_d a.rdev ++ ['\n']) h).2 else h

/-- The part of `local_set_mapped_file_attr` from the label `update_map_file`. -/
def set_mapped_file_attr_update (attr_path : String) (credp : FsCred) (a : MapAttr)
    (ret : Int) (h : Host) : Int × Host :=
  match local_fopen attr_path "w" h with
  | (none, h) => (-1, h)
  | (some fp, h) =>
    let h := set_mapped_file_attr_print fp (set_mapped_file_attr_merge credp a) h
    (ret, (host_fclose fp h).2)

def local_set_mapped_file_attr (ctx : FsContext) (path : String) (credp : FsCred)
    (h : Host) : Int × Host :=
  let attr_path := local_mapped_attr_path ctx path
  match local_fopen attr_path "r" h with
  | (some fp, h) =>
    let a := set_mapped_file_attr_loop (fp.rbuf.length + 1) fp ⟨-1, -1, -1, -1⟩
    set_mapped_file_attr_update attr_path credp a 0 (host_fclose fp h).2
  | (none, h) =>
    let r := local_create_mapped_attr_dir ctx path h
    if r.1 < 0 then r
    else set_mapped_file_attr_update attr_path credp ⟨-1, -1, -1, -1⟩ r.1 r.2

def local_set_xattr (path : String) (credp : FsCred) (h : Host) : Int × Host :=
  let r1 := if credp.fc_uid ≠ UNSET32 then
      host_setxattr path "user.virtfs.uid" (le_bytes 4 credp.fc_uid) h else (0, h)
  if r1.1 ≠ 0 then r1 else
  let r2 := if credp.fc_gid ≠ UNSET32 then
      host_setxattr path "user.virtfs.gid" (le_bytes 4 credp.fc_gid) r1.2 else (0, r1.2)
  if r2.1 ≠ 0 then r2 else
  let r3 := if int16_ne_minus1 credp.fc_mode then
      host_setxattr path "user.virtfs.mode" (le_bytes 4 credp.fc_mode) r2.2 else (0, r2.2)
  if r3.1 ≠ 0 then r3 else
  let r4 := if credp.fc_rdev ≠ UNSET64 then
      host_setxattr path "user.virtfs.rdev" (le_bytes 8 credp.fc_rdev) r3.2 else (0, r3.2)
  if r4.1 ≠ 0 then r4 else (0, r4.2)

def local_post_create_passthrough (fs_ctx : FsContext) (path : String) (credp : FsCred)
    (h : Host) : Int × Host :=
  let buffer := rpath fs_ctx path
  let r := host_lchown buffer credp.fc_uid credp.fc_gid h
  if r.1 < 0 ∧ fs_ctx.export_flags &&& V9FS_SEC_MASK ≠ V9FS_SM_NONE then (-1, r.2)
  else
    let r := host_chmod buffer (credp.fc_mode &&& 0o7777) r.2
    if r.1 < 0 then (-1, r.2) else (0, r.2)

/-- The label `err_end` of `local_mknod`, `local_mkdir` and `local_symlink`. -/
def err_end (buffer : String) (serrno : Int) (err : Int) (h : Host) : Int × Host :=
  let h := (host_remove buffer h).2
  (err, { h with errno := serrno })

def local_mknod (fs_ctx : FsContext) (dir_path : V9fsPath) (name : String)
    (credp : FsCred) (h : Host) : Int × Host :=
  let path := DELIMITER_IN_PATH dir_path.data name
  let buffer := rpath fs_ctx path
  if fs_ctx.export_flags &&& V9FS_SM_MAPPED ≠ 0 then
    let r := host_mknod buffer (SM_LOCAL_MODE_BITS ||| S_IFREG) 0 h
    if r.1 = -1 then r else
    let r := local_set_xattr buffer credp r.2
    if r.1 = -1 then err_end buffer r.2.errno r.1 r.2 else r
  else if fs_ctx.export_flags &&& V9FS_SM_MAPPED_FILE ≠ 0 then
    let r := host_mknod buffer (SM_LOCAL_MODE_BITS ||| S_IFREG) 0 h
    if r.1 = -1 then r else
    let r := local_set_mapped_file_attr fs_ctx path credp r.2
    if r.1 = -1 then err_end buffer r.2.errno r.1 r.2 else r
  else if fs_ctx.export_flags &&& V9FS_SM_PASSTHROUGH ≠ 0 ∨
      fs_ctx.export_flags &&& V9FS_SM_NONE ≠ 0 then
    let r := host_mknod buffer credp.fc_mode credp.fc_rdev h
    if r.1 = -1 then r else
    let r := local_post_create_passthrough fs_ctx path credp r.2
    if r.1 = -1 then err_end buffer r.2.errno r.1 r.2 else r
  else (-1, h)

def local_mkdir (fs_ctx : FsContext) (dir_path : V9fsPath) (name : String)
    (credp : FsCred) (h : Host) : Int × Host :=
  let path := DELIMITER_IN_PATH dir_path.data name
  let buffer := rpath fs_ctx path
  if fs_ctx.export_flags &&& V9FS_SM_MAPPED ≠ 0 then
    let r := host_mkdir buffer SM_LOCAL_DIR_MODE_BITS h
    if r.1 = -1 then r else
    let credp := { credp with fc_mode := credp.fc_mode ||| S_IFDIR }
    let r := local_set_xattr buffer credp r.2
    if r.1 = -1 then err_end buffer r.2.errno r.1 r.2 else r
  else if fs_ctx.export_flags &&& V9FS_SM_MAPPED_FILE ≠ 0 then
    let r := host_mkdir buffer SM_LOCAL_DIR_MODE_BITS h
    if r.1 = -1 then r else
    let credp := { credp with fc_mode := credp.fc_mode ||| S_IFDIR }
    let r := local_set_mapped_file_attr fs_ctx path credp r.2
    if r.1 = -1 then err_end buffer r.2.errno r.1 r.2 else r
  else if fs_ctx.export_flags &&& V9FS_SM_PASSTHROUGH ≠ 0 ∨
      fs_ctx.export_flags &&& V9FS_SM_NONE ≠ 0 then
    let r := host_mkdir buffer credp.fc_mode h
    if r.1 = -1 then r else
    let r := local_post_create_passthrough fs_ctx path credp r.2
    if r.1 = -1 then err_end buffer r.2.errno r.1 r.2 else r
  else (-1, h)

/-- The label `err_end` of `local_open2`: `close(fd); remove(buffer); errno = serrno`. -/
def open2_err_end (fd : Int) (buffer : String) (serrno : Int) (err : Int) (h : Host) :
    Int × Host :=
  let h := (host_close fd h).2
  let h := (host_remove buffer h).2
  (err, { h with errno := serrno })

/-- The result is the return value, the host, and `fs->fd` when it was assigned. -/
def local_open2 (fs_ctx : FsContext) (dir_path : V9fsPath) (name : String) (flags : Nat)
    (credp : FsCred) (fs : V9fsFidOpenState) (h : Host) : Int × V9fsFidOpenState × Host :=
  let flags := flags ||| O_NOFOLLOW
  let path := DELIMITER_IN_PATH dir_path.data name
  let buffer := rpath fs_ctx path
  if fs_ctx.export_flags &&& V9FS_SM_MAPPED ≠ 0 then
    let o := host_open buffer (flags ||| O_BINARY) SM_LOCAL_MODE_BITS h
    if o.1 = -1 then (o.1, fs, o.2) else
    let credp := { credp with fc_mode := credp.fc_mode ||| S_IFREG }
    let r := local_set_xattr buffer credp o.2
    if r.1 = -1 then
      let e := open2_err_end o.1 buffer r.2.errno r.1 r.2
      (e.1, fs, e.2)
    else (o.1, { fs with fd := o.1 }, r.2)
  else if fs_ctx.export_flags &&& V9FS_SM_MAPPED_FILE ≠ 0 then
    let o := host_open buffer (flags ||| O_BINARY) SM_LOCAL_MODE_BITS h
    if o.1 = -1 then (o.1, fs, o.2) else
    let credp := { credp with fc_mode := credp.fc_mode ||| S_IFREG }
    let r := local_set_mapped_file_attr fs_ctx path credp o.2
    if r.1 = -1 then
      let e := open2_err_end o.1 buffer r.2.errno r.1 r.2
      (e.1, fs, e.2)
    else (o.1, { fs with fd := o.1 }, r.2)
  else if fs_ctx.export_flags &&& V9FS_SM_PASSTHROUGH ≠ 0 ∨
      fs_ctx.export_flags &&& V9FS_SM_NONE ≠ 0 then
    let o := host_open buffer (flags ||| O_BINARY) credp.fc_mode h
    if o.1 = -1 then (o.1, fs, o.2) else
    let r := local_post_create_passthrough fs_ctx path credp o.2
    if r.1 = -1 then
      let e := open2_err_end o.1 buffer r.2.errno r.1 r.2
      (e.1, fs, e.2)
    else (o.1, { fs with fd := o.1 }, r.2)
  else (-1, { fs with fd := -1 }, h)

/-- The loop `do write_size = write(...) while (write_size == -1 && errno == EINTR)`;
the fuel bounds the number of retries. -/
def write_retry : Nat → Int → List Char → Host → Int × Host
  | 0, fd, buf, h => host_write fd buf h
  | n + 1, fd, buf, h =>
    let r := host_write fd buf h
    if r.1 = -1 ∧ r.2.errno = EINTR then write_retry n fd buf r.2 else r

/-- The part of `local_symlink` shared by both mapped models: create the file
exclusively and write the target into it; `tag` is the tagging step. -/
def symlink_mapped (buffer : String) (oldpath : String) (tag : Host → Int × Host)
    (h : Host) : Int × Host :=
  let o := host_open buffer (O_CREAT ||| O_EXCL ||| O_RDWR ||| O_NOFOLLOW ||| O_BINARY)
    SM_LOCAL_MODE_BITS h
  if o.1 = -1 then o else
  let oldpath_size : Int := oldpath.data.length
  let w := write_retry o.2.plan.length o.1 oldpath.data o.2
  if w.1 ≠ oldpath_size then
    let serrno := w.2.errno
    let h := (host_close o.1 w.2).2
    err_end buffer serrno (-1) h
  else
    let h := (host_close o.1 w.2).2
    let r := tag h
    if r.1 = -1 then err_end buffer r.2.errno r.1 r.2 else r

def local_symlink (fs_ctx : FsContext) (oldpath : String) (dir_path : V9fsPath)
    (name : String) (credp : FsCred) (h : Host) : Int × Host :=
  let newpath := DELIMITER_IN_PATH dir_path.data name
  let buffer := rpath fs_ctx newpath
  if fs_ctx.export_flags &&& V9FS_SM_MAPPED ≠ 0 then
    symlink_mapped buffer oldpath
      (local_set_xattr buffer { credp with fc_mode := credp.fc_mode ||| S_IFLNK }) h
  else if fs_ctx.export_flags &&& V9FS_SM_MAPPED_FILE ≠ 0 then
    symlink_mapped buffer oldpath
      (local_set_mapped_file_attr fs_ctx newpath
        { credp with fc_mode := credp.fc_mode ||| S_IFLNK }) h
  else if fs_ctx.export_flags &&& V9FS_SM_PASSTHROUGH ≠ 0 ∨
      fs_ctx.export_flags &&& V9FS_SM_NONE ≠ 0 then
    let r := host_symlink oldpath buffer h
    if r.1 ≠ 0 then r else
    let r := host_lchown buffer credp.fc_uid credp.fc_gid r.2
    if r.1 = -1 then
      if fs_ctx.export_flags &&& V9FS_SEC_MASK ≠ V9FS_SM_NONE then
        err_end buffer r.2.errno r.1 r.2
      else (0, r.2)
    else r
  else (-1, h)

def local_chown (fs_ctx : FsContext) (fs_path : V9fsPath) (credp : FsCred) (h : Host) :
    Int × Host :=
  let path := fs_path.data
  if (credp.fc_uid = UNSET32 ∧ credp.fc_gid = UNSET32) ∨
      fs_ctx.export_flags &&& V9FS_SM_PASSTHROUGH ≠ 0 ∨
      fs_ctx.export_flags &&& V9FS_SM_NONE ≠ 0 then
    host_lchown (rpath fs_ctx path) credp.fc_uid credp.fc_gid h
  else if fs_ctx.export_flags &&& V9FS_SM_MAPPED ≠ 0 then
    local_set_xattr (rpath fs_ctx path) credp h
  else if fs_ctx.export_flags &&& V9FS_SM_MAPPED_FILE ≠ 0 then
    local_set_mapped_file_attr fs_ctx path credp h
  else (-1, h)

/-- The loop from the label `again`; the fuel bounds the number of skipped
entries.  The result is the return value, `*result`, the stream and the host. -/
def local_readdir_r_loop (ctx : FsContext) : Nat → DIR → Host →
    Int × Option Dirent × DIR × Host
  | fuel, dir, h =>
    let r := host_readdir_r dir h
    if ctx.export_flags &&& V9FS_SM_MAPPED ≠ 0 then
      (r.1, r.2.1.map fun e => { e with d_type := DT_UNKNOWN }, r.2.2)
    else if ctx.export_flags &&& V9FS_SM_MAPPED_FILE ≠ 0 then
      if r.1 = 0 ∧ (r.2.1.map fun e => decide (e.d_name = VIRTFS_META_DIR)) = some true then
        match fuel with
        | 0 => (r.1, r.2.1.map fun e => { e with d_type := DT_UNKNOWN }, r.2.2)
        | n + 1 => local_readdir_r_loop ctx n r.2.2.1 r.2.2.2
      else (r.1, r.2.1.map fun e => { e with d_type := DT_UNKNOWN }, r.2.2)
    else r

def local_readdir_r (ctx : FsContext) (fs : V9fsFidOpenState) (h : Host) :
    Int × Option Dirent × V9fsFidOpenState × Host :=
  let r := local_readdir_r_loop ctx fs.dir.length fs.dir h
  (r.1, r.2.1, { fs with dir := r.2.2.1 }, r.2.2.2)

/-- The loop `do tsize = read(...) while (tsize == -1 && errno == EINTR)`; the
fuel bounds the number of retries. -/
def read_retry : Nat → Int → Nat → Host → Int × List Char × Host
  | 0, fd, n, h => host_read fd n h
  | k + 1, fd, n, h =>
    let r := host_read fd n h
    if r.1 = -1 ∧ r.2.2.errno = EINTR then read_retry k fd n r.2.2 else r

/-- The result is the return value, the buffer and the host; the bytes read
replace the beginning of the buffer. -/
def local_readlink (fs_ctx : FsContext) (fs_path : V9fsPath) (buf : List Char)
    (bufsz : Nat) (h : Host) : Int × List Char × Host :=
  let path := fs_path.data
  if fs_ctx.export_flags &&& V9FS_SM_MAPPED ≠ 0 ∨
      fs_ctx.export_flags &&& V9FS_SM_MAPPED_FILE ≠ 0 then
    let buffer := rpath fs_ctx path
    let o := host_open buffer (O_RDONLY ||| O_NOFOLLOW ||| O_BINARY) 0 h
    if o.1 = -1 then (-1, buf, o.2)
    else
      let r := read_retry o.2.plan.length o.1 bufsz o.2
      (r.1, r.2.1 ++ buf.drop r.2.1.length, (host_close o.1 r.2.2).2)
  else if fs_ctx.export_flags &&& V9FS_SM_PASSTHROUGH ≠ 0 ∨
      fs_ctx.export_flags &&& V9FS_SM_NONE ≠ 0 then
    let buffer := rpath fs_ctx path
    let r := host_readlink buffer bufsz h
    (r.1, r.2.1 ++ buf.drop r.2.1.length, r.2.2)
  else (-1, buf, h)

def local_open (ctx : FsContext) (fs_path : V9fsPath) (flags : Nat)
    (fs : V9fsFidOpenState) (h : Host) : Int × V9fsFidOpenState × Host :=
  let path := fs_path.data
  let buffer := rpath ctx path
  let r := host_open buffer (flags ||| O_NOFOLLOW ||| O_BINARY) 0 h
  (r.1, { fs with fd := r.1 }, r.2)

/-- The parameter `dirfd` is the C library function of that name: the
descriptor behind a directory stream. -/
def local_fstat (dirfd : DIR → Int) (fs_ctx : FsContext) (fid_type : Nat)
    (fs : V9fsFidOpenState) (stbuf : Stat) (h : Host) : Int × Stat × Host :=
  let fd := if fid_type = P9_FID_DIR then dirfd fs.dir else fs.fd
  let (err, stbuf, h) := host_fstat fd stbuf h
  if err ≠ 0 then (err, stbuf, h)
  else if fs_ctx.export_flags &&& V9FS_SM_MAPPED ≠ 0 then
    let (n, v, h) := host_fgetxattr fd "user.virtfs.uid" 4 h
    let stbuf := if n > 0 then { stbuf with st_uid := le_value v } else stbuf
    let (n, v, h) := host_fgetxattr fd "user.virtfs.gid" 4 h
    let stbuf := if n > 0 then { stbuf with st_gid := le_value v } else stbuf
    let (n, v, h) := host_fgetxattr fd "user.virtfs.mode" 4 h
    let stbuf := if n > 0 then { stbuf with st_mode := le_value v } else stbuf
    let (n, v, h) := host_fgetxattr fd "user.virtfs.rdev" 8 h
    let stbuf := if n > 0 then { stbuf with st_rdev := le_value v } else stbuf
    (err, stbuf, h)
  else if fs_ctx.export_flags &&& V9FS_SM_MAPPED_FILE ≠ 0 then
    (-1, stbuf, { h with errno := EOPNOTSUPP })
  else (err, stbuf, h)

/-- Both arms of the last test reach the label `err_out`, which returns `ret`. -/
def local_link (ctx : FsContext) (oldpath dirpath : V9fsPath) (name : String)
    (h : Host) : Int × Host :=
  let newpath := DELIMITER_IN_PATH dirpath.data name
  let r := host_link (rpath ctx oldpath.data) (rpath ctx newpath) h
  if r.1 = 0 ∧ ctx.export_flags &&& V9FS_SM_MAPPED_FILE ≠ 0 then
    let r := local_create_mapped_attr_dir ctx newpath r.2
    if r.1 < 0 then r
    else
      let r := host_link (local_mapped_attr_path ctx oldpath.data)
        (local_mapped_attr_path ctx newpath) r.2
      if r.1 < 0 ∧ r.2.errno ≠ ENOENT then r
      else r
  else r

def local_rename (ctx : FsContext) (oldpath newpath : String) (h : Host) : Int × Host :=
  if ctx.export_flags &&& V9FS_SM_MAPPED_FILE ≠ 0 then
    let d := local_create_mapped_attr_dir ctx newpath h
    if d.1 < 0 then d
    else
      let r := host_rename (local_mapped_attr_path ctx oldpath)
        (local_mapped_attr_path ctx newpath) d.2
      if r.1 < 0 ∧ r.2.errno ≠ ENOENT then r
      else host_rename (rpath ctx oldpath) (rpath ctx newpath) r.2
  else host_rename (rpath ctx oldpath) (rpath ctx newpath) h

/-- Modelled from the spec: `v9fs_string_sprintf` (`9p-marshal.c`, absent) stores
the formatted string and its length, the "reported size" before the bump. -/
def v9fs_string_sprintf (s : String) : V9fsPath := ⟨s.length, s⟩

def local_name_to_path (_ctx : FsContext) (dir_path : Option V9fsPath) (name : String)
    (_target : V9fsPath) : Int × V9fsPath :=
  let target :=
    match dir_path with
    | some d => v9fs_string_sprintf (DELIMITER_IN_PATH d.data name)
    | none => v9fs_string_sprintf name
  (0, { target with size := target.size + 1 })

def local_unlinkat (ctx : FsContext) (dir : V9fsPath) (name : String) (flags : Nat)
    (h : Host) : Int × Host :=
  let fullname := DELIMITER_IN_PATH dir.data name
  if ctx.export_flags &&& V9FS_SM_MAPPED_FILE ≠ 0 then
    let r1 := if flags = AT_REMOVEDIR then
        host_remove (DELIMITER_IN_PATH2 ctx.fs_root fullname VIRTFS_META_DIR) h
      else (0, h)
    if r1.1 < 0 ∧ r1.2.errno ≠ ENOENT then r1
    else
      let r2 := host_remove (local_mapped_attr_path ctx fullname) r1.2
      if r2.1 < 0 ∧ r2.2.errno ≠ ENOENT then r2
      else host_remove (rpath ctx fullname) r2.2
  else host_remove (rpath ctx fullname) h

/-- The macro `S_ISDIR`. -/
def S_ISDIR (mode : Nat) : Bool := mode &&& S_IFMT == S_IFDIR

/-- The end of `local_remove`: the choice between `rmdir` and `remove`. -/
def local_remove_final (ctx : FsContext) (path : String) (stbuf : Stat) (h : Host) :
    Int × Host :=
  let buffer := rpath ctx path
  if S_ISDIR stbuf.st_mode then host_rmdir buffer h else host_remove buffer h

/-- The parameter `stbuf` is the content of the local variable `stbuf` at entry,
which the function declares without initialising it. -/
def local_remove (ctx : FsContext) (path : String) (stbuf : Stat) (h : Host) : Int × Host :=
  if ctx.export_flags &&& V9FS_SM_MAPPED_FILE ≠ 0 then
    let l := host_lstat (rpath ctx path) stbuf h
    if l.1 ≠ 0 then (l.1, l.2.2)
    else
      let r1 := if S_ISDIR l.2.1.st_mode then
          host_remove (DELIMITER_IN_PATH2 ctx.fs_root path VIRTFS_META_DIR) l.2.2
        else (l.1, l.2.2)
      if r1.1 < 0 ∧ r1.2.errno ≠ ENOENT then r1
      else
        let r2 := host_remove (local_mapped_attr_path ctx path) r1.2
        if r2.1 < 0 ∧ r2.2.errno ≠ ENOENT then r2
        else local_remove_final ctx path l.2.1 r2.2
  else local_remove_final ctx path stbuf h

/-- The tables of attribute handlers in `9p-xattr.c` (absent) that `local_init`
chooses from; only their identity is used. -/
inductive XattrOps where
  | passthrough_xattr_ops
  | mapped_xattr_ops
  | none_xattr_ops

/-- The structure `FsContext` with its field `xops` (`none` is the null
pointer), which only `local_init` and the attribute operations use. -/
structure FsContextX extends FsContext where
  xops : Option XattrOps

/-- The POSIX build.  The field `exops.get_st_gen`, set after a successful
`statfs` on some file system types, is not part of the model. -/
def local_init (ctx : FsContextX) (h : Host) : Int × FsContextX × Host :=
  let xops :=
    if ctx.export_flags &&& V9FS_SM_PASSTHROUGH ≠ 0 then some XattrOps.passthrough_xattr_ops
    else if ctx.export_flags &&& V9FS_SM_MAPPED ≠ 0 then some XattrOps.mapped_xattr_ops
    else if ctx.export_flags &&& V9FS_SM_NONE ≠ 0 then some XattrOps.none_xattr_ops
    else if ctx.export_flags &&& V9FS_SM_MAPPED_FILE ≠ 0 then
      some XattrOps.passthrough_xattr_ops
    else ctx.xops
  let ctx : FsContextX :=
    { fs_root := ctx.fs_root,
      export_flags := ctx.export_flags ||| V9FS_PATHNAME_FSCONTEXT,
      xops := xops }
  let r := host_statfs ctx.fs_root h
  (r.1, ctx, r.2)

/-- The dispatchers `v9fs_get_xattr`, `v9fs_list_xattr`, `v9fs_set_xattr` and
`v9fs_remove_xattr` of `9p-xattr.c` (absent), which the four attribute
operations take as parameters. -/
structure XattrDispatch where
  v9fs_get_xattr : FsContextX → String → String → Nat → Host → Int × List Nat × Host
  v9fs_list_xattr : FsContextX → String → Nat → Host → Int × List Nat × Host
  v9fs_set_xattr : FsContextX → String → String → List Nat → Int → Host → Int × Host
  v9fs_remove_xattr : FsContextX → String → String → Host → Int × Host

def local_lgetxattr (x : XattrDispatch) (ctx : FsContextX) (fs_path : V9fsPath)
    (name : String) (size : Nat) (h : Host) : Int × List Nat × Host :=
  let path := fs_path.data
  x.v9fs_get_xattr ctx path name size h

def local_llistxattr (x : XattrDispatch) (ctx : FsContextX) (fs_path : V9fsPath)
    (size : Nat) (h : Host) : Int × List Nat × Host :=
  let path := fs_path.data
  x.v9fs_list_xattr ctx path size h

def local_lsetxattr (x : XattrDispatch) (ctx : FsContextX) (fs_path : V9fsPath)
    (name : String) (value : List Nat) (flags : Int) (h : Host) : Int × Host :=
  let path := fs_path.data
  x.v9fs_set_xattr ctx path name value flags h

def local_lremovexattr (x : XattrDispatch) (ctx : FsContextX) (fs_path : V9fsPath)
    (name : String) (h : Host) : Int × Host :=
  let path := fs_path.data
  x.v9fs_remove_xattr ctx path name h

/-! ## `codir.c`: the worker bridge

`v9fs_co_run_in_worker` (header absent) runs its block on a worker thread and
resumes the caller with the result; here the block runs in place.  The fields
`trace` and `lock_taken` record the backend operations invoked and the
acquisitions of the path lock. -/

/-- The entries of the backend table `s->ops` that `codir.c` calls. -/
structure FileOperations where
  readdir_r : FsContext → V9fsFidOpenState → Host →
    Int × Option Dirent × V9fsFidOpenState × Host
  telldir : FsContext → V9fsFidOpenState → Host → Int × Host
  seekdir : FsContext → V9fsFidOpenState → Int → Host → V9fsFidOpenState × Host
  rewinddir : FsContext → V9fsFidOpenState → Host → V9fsFidOpenState × Host
  mkdir : FsContext → V9fsPath → String → FsCred → Host → Int × Host
  lstat : FsContext → V9fsPath → Stat → Host → Int × Stat × Host
  opendir : FsContext → V9fsPath → V9fsFidOpenState → Host →
    Int × V9fsFidOpenState × Host
  closedir : FsContext → V9fsFidOpenState → Host → Int × Host
  name_to_path : FsContext → Option V9fsPath → String → V9fsPath → Int × V9fsPath

structure V9fsState where
  ops : FileOperations
  ctx : FsContext
  host : Host
  /-- The process-wide counter `total_open_fd`. -/
  total_open_fd : Int
  /-- The high-water mark `open_fd_hw`. -/
  open_fd_hw : Int
  /-- Readers holding the path lock. -/
  path_readers : Nat
  /-- Number of acquisitions of the path lock so far. -/
  lock_taken : Nat
  /-- Backend operations invoked so far, latest first. -/
  trace : List String
  /-- Number of reclaim passes started so far. -/
  reclaims : Nat

structure V9fsPDU where
  s : V9fsState
  cancelled : Bool

structure V9fsFidState where
  path : V9fsPath
  fs : V9fsFidOpenState

/-- Modelled from the spec: `v9fs_request_cancelled` (header absent), the
"cancellation query" of the owning request. -/
def v9fs_request_cancelled (pdu : V9fsPDU) : Bool := pdu.cancelled

/-- Modelled from the spec: `v9fs_path_read_lock` (header absent), "takes a
shared lock on the export's path table". -/
def v9fs_path_read_lock (s : V9fsState) : V9fsState :=
  { s with path_readers := s.path_readers + 1, lock_taken := s.lock_taken + 1 }

/-- Modelled from the spec: `v9fs_path_unlock` (header absent). -/
def v9fs_path_unlock (s : V9fsState) : V9fsState :=
  { s with path_readers := s.path_readers - 1 }

def V9fsState.called (s : V9fsState) (op : String) (h : Host) : V9fsState :=
  { s with host := h, trace := op :: s.trace }

def cred_init : FsCred := ⟨UNSET32, UNSET32, UNSET32, UNSET64⟩

def v9fs_co_readdir_r (pdu : V9fsPDU) (fidp : V9fsFidState) (result : Option Dirent) :
    Int × Option Dirent × V9fsFidState × V9fsState :=
  let s := pdu.s
  if v9fs_request_cancelled pdu then (-EINTR, result, fidp, s)
  else
    let h := { s.host with errno := 0 }
    let r := s.ops.readdir_r s.ctx fidp.fs h
    let err : Int := if r.2.1.isNone ∧ r.2.2.2.errno ≠ 0 then -r.2.2.2.errno else 0
    (err, r.2.1, { fidp with fs := r.2.2.1 }, s.called "readdir_r" r.2.2.2)

def v9fs_co_telldir (pdu : V9fsPDU) (fidp : V9fsFidState) : Int × V9fsState :=
  let s := pdu.s
  if v9fs_request_cancelled pdu then (-EINTR, s)
  else
    let r := s.ops.telldir s.ctx fidp.fs s.host
    let err := if r.1 < 0 then -r.2.errno else r.1
    (err, s.called "telldir" r.2)

def v9fs_co_seekdir (pdu : V9fsPDU) (fidp : V9fsFidState) (offset : Int) :
    V9fsFidState × V9fsState :=
  let s := pdu.s
  if v9fs_request_cancelled pdu then (fidp, s)
  else
    let r := s.ops.seekdir s.ctx fidp.fs offset s.host
    ({ fidp with fs := r.1 }, s.called "seekdir" r.2)

def v9fs_co_rewinddir (pdu : V9fsPDU) (fidp : V9fsFidState) : V9fsFidState × V9fsState :=
  let s := pdu.s
  if v9fs_request_cancelled pdu then (fidp, s)
  else
    let r := s.ops.rewinddir s.ctx fidp.fs s.host
    ({ fidp with fs := r.1 }, s.called "rewinddir" r.2)

def v9fs_co_mkdir (pdu : V9fsPDU) (fidp : V9fsFidState) (name : String)
    (mode uid gid : Nat) (stbuf : Stat) : Int × Stat × V9fsState :=
  let s := pdu.s
  if v9fs_request_cancelled pdu then (-EINTR, stbuf, s)
  else
    let cred := { cred_init with fc_mode := mode, fc_uid := uid, fc_gid := gid }
    let s := v9fs_path_read_lock s
    let r := s.ops.mkdir s.ctx fidp.path name cred s.host
    let s := s.called "mkdir" r.2
    if r.1 < 0 then (-r.2.errno, stbuf, v9fs_path_unlock s)
    else
      let p := s.ops.name_to_path s.ctx (some fidp.path) name ⟨0, ""⟩
      let s := s.called "name_to_path" s.host
      if p.1 ≠ 0 then (p.1, stbuf, v9fs_path_unlock s)
      else
        let l := s.ops.lstat s.ctx p.2 stbuf s.host
        let s := s.called "lstat" l.2.2
        let err := if l.1 < 0 then -l.2.2.errno else l.1
        (err, l.2.1, v9fs_path_unlock s)

/-- The parameter `v9fs_reclaim_fd` is the reclaim pass of `9p.c` (absent). -/
def v9fs_co_opendir (v9fs_reclaim_fd : V9fsState → V9fsState) (pdu : V9fsPDU)
    (fidp : V9fsFidState) : Int × V9fsFidState × V9fsState :=
  let s := pdu.s
  if v9fs_request_cancelled pdu then (-EINTR, fidp, s)
  else
    let s := v9fs_path_read_lock s
    let r := s.ops.opendir s.ctx fidp.path fidp.fs s.host
    let err : Int := if r.1 < 0 then -r.2.2.errno else 0
    let s := v9fs_path_unlock (s.called "opendir" r.2.2)
    let s :=
      if err = 0 then
        let s := { s with total_open_fd := s.total_open_fd + 1 }
        if s.total_open_fd > s.open_fd_hw then
          v9fs_reclaim_fd { s with reclaims := s.reclaims + 1 }
        else s
      else s
    (err, { fidp with fs := r.2.1 }, s)

def v9fs_co_closedir (pdu : V9fsPDU) (fs : V9fsFidOpenState) : Int × V9fsState :=
  let s := pdu.s
  if v9fs_request_cancelled pdu then (-EINTR, s)
  else
    let r := s.ops.closedir s.ctx fs s.host
    let err := if r.1 < 0 then -r.2.errno else r.1
    let s := s.called "closedir" r.2
    (err, if err = 0 then { s with total_open_fd := s.total_open_fd - 1 } else s)

/-! ## `local_parse_opts` -/

/-- The two option values `qemu_opt_get` looks up (`NULL` is `none`). -/
structure QemuOpts where
  security_model : Option String
  path : Option String

structure FsDriverEntry where
  export_flags : Nat
  path : Option String

def local_parse_opts (opts : QemuOpts) (fse : FsDriverEntry) : Int × FsDriverEntry :=
  let sec_model := opts.security_model
  let path := opts.path
  match sec_model with
  | none => (-1, fse)
  | some sec_model =>
    let flagged : Option FsDriverEntry :=
      if sec_model = "passthrough" then
        some { fse with export_flags := fse.export_flags ||| V9FS_SM_PASSTHROUGH }
      else if sec_model = "mapped" ∨ sec_model = "mapped-xattr" then
        some { fse with export_flags := fse.export_flags ||| V9FS_SM_MAPPED }
      else if sec_model = "none" then
        some { fse with export_flags := fse.export_flags ||| V9FS_SM_NONE }
      else if sec_model = "mapped-file" then
        some { fse with export_flags := fse.export_flags ||| V9FS_SM_MAPPED_FILE }
      else none
    match flagged with
    | none => (-1, fse)
    | some fse =>
      match path with
      | none => (-1, fse)
      | some path => (0, { fse with path := some path })

/-! ## Reading aids for the statements -/

/-- The keyword table of the mount configuration: the flag each recognised
`security_model` keyword stands for. -/
def security_model_flag (m : String) : Option Nat :=
  if m = "passthrough" then some V9FS_SM_PASSTHROUGH
  else if m = "mapped" then some V9FS_SM_MAPPED
  else if m = "mapped-xattr" then some V9FS_SM_MAPPED
  else if m = "none" then some V9FS_SM_NONE
  else if m = "mapped-file" then some V9FS_SM_MAPPED_FILE
  else none

inductive SecModel where
  | passthrough
  | mapped
  | none
  | mapped_file

def SecModel.flag : SecModel → Nat
  | .passthrough => V9FS_SM_PASSTHROUGH
  | .mapped => V9FS_SM_MAPPED
  | .none => V9FS_SM_NONE
  | .mapped_file => V9FS_SM_MAPPED_FILE

/-- The export runs under exactly the security model `m`: of the four model
bits only the one of `m` is set. -/
abbrev sm_is (ctx : FsContext) (m : SecModel) : Prop :=
  ctx.export_flags &&& V9FS_SM_ALL = m.flag

/-- The entry carries the reserved name of the shadow metadata directory. -/
def is_meta (e : Dirent) : Bool := decide (e.d_name = VIRTFS_META_DIR)

/-- The entry as the mapped models report it: its type forced to "unknown". -/
def as_unknown (e : Dirent) : Dirent := { e with d_type := DT_UNKNOWN }

/-- A listing consumer: call `local_readdir_r` until it reports an error or the
end of the stream, collecting the entries (at most `fuel` of them). -/
def readdir_all (ctx : FsContext) : Nat → V9fsFidOpenState → Host → List Dirent
  | 0, _, _ => []
  | n + 1, fs, h =>
    let r := local_readdir_r ctx fs h
    match r.2.1 with
    | none => []
    | some e => if r.1 ≠ 0 then [] else e :: readdir_all ctx n r.2.2.1 r.2.2.2

/-- The four operations that create an object and then tag its credentials. -/
inductive CreateOp where
  | mknod
  | mkdir
  | open2 (flags : Nat) (fs : V9fsFidOpenState)
  | symlink (oldpath : String)

/-- The operation as the backend runs it: return value and host. -/
def CreateOp.run (op : CreateOp) (ctx : FsContext) (dir_path : V9fsPath) (name : String)
    (credp : FsCred) (h : Host) : Int × Host :=
  match op with
  | .mknod => local_mknod ctx dir_path name credp h
  | .mkdir => local_mkdir ctx dir_path name credp h
  | .open2 flags fs => ((local_open2 ctx dir_path name flags credp fs h).1,
      (local_open2 ctx dir_path name flags credp fs h).2.2)
  | .symlink oldpath => local_symlink ctx oldpath dir_path name credp h

/-- The create step of a mapped symbolic link: the exclusive `open`, the write
of the whole target, and the `close`; `-1` when the open or the write fails. -/
def symlink_create (buffer oldpath : String) (h : Host) : Int × Host :=
  let o := host_open buffer (O_CREAT ||| O_EXCL ||| O_RDWR ||| O_NOFOLLOW ||| O_BINARY)
    SM_LOCAL_MODE_BITS h
  if o.1 = -1 then o
  else
    let w := write_retry o.2.plan.length o.1 oldpath.data o.2
    if w.1 ≠ (oldpath.data.length : Int) then (-1, w.2) else (0, (host_close o.1 w.2).2)

/-- The real create step of an operation under a security model. -/
def CreateOp.create (op : CreateOp) (m : SecModel) (buffer : String) (credp : FsCred)
    (h : Host) : Int × Host :=
  match op, m with
  | .mknod, .mapped => host_mknod buffer (SM_LOCAL_MODE_BITS ||| S_IFREG) 0 h
  | .mknod, .mapped_file => host_mknod buffer (SM_LOCAL_MODE_BITS ||| S_IFREG) 0 h
  | .mknod, _ => host_mknod buffer credp.fc_mode credp.fc_rdev h
  | .mkdir, .mapped => host_mkdir buffer SM_LOCAL_DIR_MODE_BITS h
  | .mkdir, .mapped_file => host_mkdir buffer SM_LOCAL_DIR_MODE_BITS h
  | .mkdir, _ => host_mkdir buffer credp.fc_mode h
  | .open2 flags _, .mapped =>
    host_open buffer (flags ||| O_NOFOLLOW ||| O_BINARY) SM_LOCAL_MODE_BITS h
  | .open2 flags _, .mapped_file =>
    host_open buffer (flags ||| O_NOFOLLOW ||| O_BINARY) SM_LOCAL_MODE_BITS h
  | .open2 flags _, _ => host_open buffer (flags ||| O_NOFOLLOW ||| O_BINARY) credp.fc_mode h
  | .symlink oldpath, .mapped => symlink_create buffer oldpath h
  | .symlink oldpath, .mapped_file => symlink_create buffer oldpath h
  | .symlink oldpath, _ => host_symlink oldpath buffer h

/-- The credentials the mapped models persist: the requested ones with the
file type of the created object added to the mode. -/
def CreateOp.tagged_cred (op : CreateOp) (credp : FsCred) : FsCred :=
  match op with
  | .mknod => credp
  | .mkdir => { credp with fc_mode := credp.fc_mode ||| S_IFDIR }
  | .open2 _ _ => { credp with fc_mode := credp.fc_mode ||| S_IFREG }
  | .symlink _ => { credp with fc_mode := credp.fc_mode ||| S_IFLNK }

/-- The credential-tagging step that follows the create step: `local_set_xattr`,
`local_set_mapped_file_attr`, `local_post_create_passthrough`, or the `lchown`
of a real symbolic link (whose failure is ignored under `none`). -/
def CreateOp.tag (op : CreateOp) (m : SecModel) (ctx : FsContext) (path buffer : String)
    (credp : FsCred) (h : Host) : Int × Host :=
  match m, op with
  | .mapped, _ => local_set_xattr buffer (op.tagged_cred credp) h
  | .mapped_file, _ => local_set_mapped_file_attr ctx path (op.tagged_cred credp) h
  | _, .symlink _ =>
    if (host_lchown buffer credp.fc_uid credp.fc_gid h).1 = -1 ∧
        ctx.export_flags &&& V9FS_SEC_MASK = V9FS_SM_NONE then
      (0, (host_lchown buffer credp.fc_uid credp.fc_gid h).2)
    else host_lchown buffer credp.fc_uid credp.fc_gid h
  | _, _ => local_post_create_passthrough ctx path credp h

/-- The value the digits of `fmt_u fuel n` add to an accumulator. -/
def digits_value : Nat → Nat → Nat → Nat
  | 0, n, acc => acc * 10 + n % 10
  | fuel + 1, n, acc =>
    if n < 10 then acc * 10 + n else digits_value fuel (n / 10) acc * 10 + n % 10

/-- The common shape of the two `fgets` loops over a shadow file. -/
def attr_fold {α : Type} (f : List Char → α → α) : Nat → FILE → α → α
  | 0, _, a => a
  | n + 1, fp, a =>
    match fgets ATTR_MAX fp with
    | (none, _) => a
    | (some buf, fp) => attr_fold f n fp (f buf a)

/-- The text the four conditional `fprintf` calls produce. -/
def attr_text (a : MapAttr) : List Char :=
  (if a.uid ≠ -1 then "virtfs.uid=".data ++ fmt_d a.uid ++ ['\n'] else []) ++
  ((if a.gid ≠ -1 then "virtfs.gid=".data ++ fmt_d a.gid ++ ['\n'] else []) ++
  ((if a.mode ≠ -1 then "virtfs.mode=".data ++ fmt_d a.mode ++ ['\n'] else []) ++
  (if a.rdev ≠ -1 then "virtfs.rdev=".data ++ fmt_d a.rdev ++ ['\n'] else [])))

/-- Every field is in the range of `int`. -/
def MapAttr.inRange (a : MapAttr) : Prop :=
  (-2 ^ 31 ≤ a.uid ∧ a.uid < 2 ^ 31) ∧ (-2 ^ 31 ≤ a.gid ∧ a.gid < 2 ^ 31) ∧
  (-2 ^ 31 ≤ a.mode ∧ a.mode < 2 ^ 31) ∧ (-2 ^ 31 ≤ a.rdev ∧ a.rdev < 2 ^ 31)

/-- The stat buffer after overlaying the fields present in `a` (those not `-1`). -/
def overlay (a : MapAttr) (st : Stat) : Stat :=
  { st_uid := if a.uid ≠ -1 then toUInt32 a.uid else st.st_uid,
    st_gid := if a.gid ≠ -1 then toUInt32 a.gid else st.st_gid,
    st_mode := if a.mode ≠ -1 then toUInt32 a.mode else st.st_mode,
    st_rdev := if a.rdev ≠ -1 then toUInt64 a.rdev else st.st_rdev }

/-- The values the read phase of an update obtains from the shadow file (all
`-1` when the file cannot be opened). -/
def old_attr (attr_path : String) (h : Host) : MapAttr :=
  match local_fopen attr_path "r" h with
  | (some fp, _) => set_mapped_file_attr_loop (fp.rbuf.length + 1) fp ⟨-1, -1, -1, -1⟩
  | (none, _) => ⟨-1, -1, -1, -1⟩

/-- Relation between the four `int`s of the update's read loop and the stat
buffer of the stat's read loop while both read the same file: a field of the
stat buffer is the stored value, or still the original one when no line for it
has been read. -/
def attr_agree (st0 : Stat) (a : MapAttr) (s : Stat) : Prop :=
  (s.st_uid = toUInt32 a.uid ∨ (a.uid = -1 ∧ s.st_uid = st0.st_uid)) ∧
  (s.st_gid = toUInt32 a.gid ∨ (a.gid = -1 ∧ s.st_gid = st0.st_gid)) ∧
  (s.st_mode = toUInt32 a.mode ∨ (a.mode = -1 ∧ s.st_mode = st0.st_mode)) ∧
  (s.st_rdev = toUInt64 a.rdev ∨ (a.rdev = -1 ∧ s.st_rdev = st0.st_rdev))


/-- Lexical effect of one path segment on the depth below the export root:
empty and `.` keep the depth, `..` goes up one directory (`none` when that
leaves the root), any other segment goes down one. -/
def path_step (d : Nat) (seg : List Char) : Option Nat :=
  if seg = [] ∨ seg = ['.'] then some d
  else if seg = ['.', '.'] then (if d = 0 then none else some (d - 1))
  else some (d + 1)

/-- Resolve a path segment by segment, starting `d` directories below the export
root with the characters `seg` of the current segment already read: the depth
reached, or `none` as soon as a segment steps above the root. -/
def path_resolve : List Char → List Char → Nat → Option Nat
  | [], seg, d => path_step d seg
  | c :: cs, seg, d =>
    if c = '/' then (path_step d seg).bind (path_resolve cs [])
    else path_resolve cs (seg ++ [c]) d

/-- The logical path, resolved against the export root, never leaves the root. -/
def inside_root (p : String) : Prop := (path_resolve p.data [] 0).isSome

instance (p : String) : Decidable (inside_root p) := by
  unfold inside_root; infer_instance

/-- The value `local_lstat` reports for one field under mapped-xattr: the
attribute decoded when the object carries it with a length the buffer of
`size` bytes accepts (and not empty), the real value otherwise. -/
def xattr_field (ino : Inode) (name : String) (size : Nat) (real : Nat) : Nat :=
  match ino.xattrs name with
  | some v => if size < v.length ∨ v.length = 0 then real else le_value v
  | none => real

/-- The stat `local_lstat` reports for an object under mapped-xattr. -/
def xattr_stat (ino : Inode) : Stat :=
  { st_mode := xattr_field ino "user.virtfs.mode" 4 ino.st_mode,
    st_uid := xattr_field ino "user.virtfs.uid" 4 ino.st_uid,
    st_gid := xattr_field ino "user.virtfs.gid" 4 ino.st_gid,
    st_rdev := xattr_field ino "user.virtfs.rdev" 8 ino.st_rdev }

/-- The object after a conditional `setxattr(name, v)`. -/
def xattr_upd (c : Prop) [Decidable c] (name : String) (v : List Nat) (ino : Inode) : Inode :=
  if c then { ino with xattrs := fun k => if k = name then some v else ino.xattrs k } else ino

/-- The first shadow step of `local_unlinkat` under mapped-file: with
`AT_REMOVEDIR`, the removal of the `.virtfs_metadata` of the directory itself. -/
def unlinkat_dir_step (ctx : FsContext) (fullname : String) (flags : Nat) (h : Host) :
    Int × Host :=
  if flags = AT_REMOVEDIR then
    host_remove (DELIMITER_IN_PATH2 ctx.fs_root fullname VIRTFS_META_DIR) h
  else (0, h)

/-- The second shadow step: the removal of the shadow file of the name in the
`.virtfs_metadata` of its parent. -/
def unlinkat_shadow_step (ctx : FsContext) (fullname : String) (flags : Nat) (h : Host) :
    Int × Host :=
  host_remove (local_mapped_attr_path ctx fullname) (unlinkat_dir_step ctx fullname flags h).2

/-- A step failed with an error other than `ENOENT`. -/
def failed_not_enoent (r : Int × Host) : Prop := r.1 < 0 ∧ r.2.errno ≠ ENOENT

instance (r : Int × Host) : Decidable (failed_not_enoent r) := by
  unfold failed_not_enoent; infer_instance

/-- The stat `local_mapped_file_attr` produces, on a host with no failure
scheduled, from what it finds at the shadow path: nothing or a symbolic link
leave the buffer as it is, any other object is read line by line. -/
def shadow_stat (o : Option Inode) (st : Stat) : Stat :=
  match o with
  | none => st
  | some ino =>
    if ino.isLnk then st else mapped_file_attr_loop (ino.data.length + 1) ⟨0, ino.data⟩ st

/-- The two steps of `local_rename` under mapped-file that precede the real
rename: the creation of the metadata directory of the new name, and the rename
of the shadow file. -/
def rename_dir_step (ctx : FsContext) (newpath : String) (h : Host) : Int × Host :=
  local_create_mapped_attr_dir ctx newpath h

def rename_shadow_step (ctx : FsContext) (oldpath newpath : String) (h : Host) : Int × Host :=
  host_rename (local_mapped_attr_path ctx oldpath) (local_mapped_attr_path ctx newpath)
    (rename_dir_step ctx newpath h).2

/-- The table `local_init` selects under each security model. -/
def xattr_table : SecModel → XattrOps
  | .passthrough => .passthrough_xattr_ops
  | .mapped => .mapped_xattr_ops
  | .none => .none_xattr_ops
  | .mapped_file => .passthrough_xattr_ops

/-- The call `lremovexattr(2)`. -/
def host_removexattr (path name : String) (h : Host) : Int × Host :=
  match h.next with
  | (some e, h) => h.fail e
  | (none, h) =>
    match h.fs path with
    | none => h.fail ENOENT
    | some ino =>
      match ino.xattrs name with
      | none => h.fail ENODATA
      | some _ =>
        (0, h.setNode path (some { ino with
          xattrs := fun k => if k = name then none else ino.xattrs k }))

/-- The handlers of one table of `9p-xattr.c` (absent): the attribute backend
behind the table.  The modelled dispatchers take the backends as a parameter. -/
structure XattrBackend where
  getxattr : FsContext → String → String → Nat → Host → Int × List Nat × Host
  listxattr : FsContext → String → Nat → Host → Int × List Nat × Host
  setxattr : FsContext → String → String → List Nat → Int → Host → Int × Host
  removexattr : FsContext → String → String → Host → Int × Host

/-- Modelled from the spec: the dispatchers of `9p-xattr.c` (absent),
"`get/list/set/remove`-extended-attribute: delegated to the platform attribute
backend, or fail with "not supported" when the backend/model does not provide
it (always mapped-file)".  Under mapped-file, and when no table is selected,
the result is the fixed error `EOPNOTSUPP` and no backend is called; otherwise
it is what the backend behind the selected table returns. -/
def xattr_dispatch_model (backend : XattrOps → XattrBackend) : XattrDispatch :=
  { v9fs_get_xattr := fun ctx path name size h =>
      if ctx.export_flags &&& V9FS_SM_MAPPED_FILE ≠ 0 then
        (-1, [], { h with errno := EOPNOTSUPP })
      else
        match ctx.xops with
        | none => (-1, [], { h with errno := EOPNOTSUPP })
        | some t => (backend t).getxattr ctx.toFsContext path name size h,
    v9fs_list_xattr := fun ctx path size h =>
      if ctx.export_flags &&& V9FS_SM_MAPPED_FILE ≠ 0 then
        (-1, [], { h with errno := EOPNOTSUPP })
      else
        match ctx.xops with
        | none => (-1, [], { h with errno := EOPNOTSUPP })
        | some t => (backend t).listxattr ctx.toFsContext path size h,
    v9fs_set_xattr := fun ctx path name value flags h =>
      if ctx.export_flags &&& V9FS_SM_MAPPED_FILE ≠ 0 then h.fail EOPNOTSUPP
      else
        match ctx.xops with
        | none => h.fail EOPNOTSUPP
        | some t => (backend t).setxattr ctx.toFsContext path name value flags h,
    v9fs_remove_xattr := fun ctx path name h =>
      if ctx.export_flags &&& V9FS_SM_MAPPED_FILE ≠ 0 then h.fail EOPNOTSUPP
      else
        match ctx.xops with
        | none => h.fail EOPNOTSUPP
        | some t => (backend t).removexattr ctx.toFsContext path name h }

/-- The line begins with one of the four key strings the two read loops
compare against (`strncmp` over 10 resp. 11 bytes). -/
def is_field_line (buf : List Char) : Bool :=
  decide (buf.take 10 = "virtfs.uid".data) || decide (buf.take 10 = "virtfs.gid".data) ||
  decide (buf.take 11 = "virtfs.mode".data) || decide (buf.take 11 = "virtfs.rdev".data)

/-- The first shadow step of `local_remove` under mapped-file after a
successful `lstat`: for a directory, the removal of its own `.virtfs_metadata`. -/
def remove_dir_step (ctx : FsContext) (path : String) (stbuf : Stat) (h : Host) :
    Int × Host :=
  if S_ISDIR (host_lstat (rpath ctx path) stbuf h).2.1.st_mode then
    host_remove (DELIMITER_IN_PATH2 ctx.fs_root path VIRTFS_META_DIR)
      (host_lstat (rpath ctx path) stbuf h).2.2
  else ((host_lstat (rpath ctx path) stbuf h).1, (host_lstat (rpath ctx path) stbuf h).2.2)

/-- The second shadow step of `local_remove`: the removal of the shadow file
of the name. -/
def remove_shadow_step (ctx : FsContext) (path : String) (stbuf : Stat) (h : Host) :
    Int × Host :=
  host_remove (local_mapped_attr_path ctx path) (remove_dir_step ctx path stbuf h).2

/-! ## Example data -/

/-- An export under security model `none` rooted at `/export`. -/
def ctx_none : FsContext := ⟨"/export", V9FS_SM_NONE⟩
def ctx_passthrough : FsContext := ⟨"/export", V9FS_SM_PASSTHROUGH⟩
def ctx_mapped : FsContext := ⟨"/export", V9FS_SM_MAPPED⟩
def ctx_mapped_file : FsContext := ⟨"/export", V9FS_SM_MAPPED_FILE⟩

/-- A regular file owned by uid 1000, gid 1000. -/
def file_1000 (data : List Char) : Inode :=
  { st_mode := S_IFREG ||| 0o644, st_uid := 1000, st_gid := 1000, st_rdev := 0,
    data := data, xattrs := fun _ => Option.none }

/-- A host whose only object is the file `/export/f`, run by uid 1000. -/
def host_f (plan : List (Option Int)) : Host :=
  { fs := fun p => if p = "/export/f" then some (file_1000 []) else Option.none,
    fds := fun _ => Option.none, next_fd := 3, errno := 0, euid := 1000, egid := 1000,
    plan := plan }

/-- A host with an empty export, run by uid 1000. -/
def host_empty (plan : List (Option Int)) : Host :=
  { fs := fun _ => Option.none, fds := fun _ => Option.none, next_fd := 3, errno := 0,
    euid := 1000, egid := 1000, plan := plan }

def dir_d : V9fsPath := ⟨2, "d"⟩
def cred_644 : FsCred := ⟨0, 0, 0o644, UNSET64⟩

/-- A backend whose every operation fails with `EOPNOTSUPP`. -/
def ops_failing : FileOperations :=
  { readdir_r := fun _ fs h => (EOPNOTSUPP, Option.none, fs, { h with errno := EOPNOTSUPP }),
    telldir := fun _ _ h => (-1, { h with errno := EOPNOTSUPP }),
    seekdir := fun _ fs _ h => (fs, h),
    rewinddir := fun _ fs h => (fs, h),
    mkdir := fun _ _ _ _ h => (-1, { h with errno := EOPNOTSUPP }),
    lstat := fun _ _ st h => (-1, st, { h with errno := EOPNOTSUPP }),
    opendir := fun _ _ fs h => (-1, fs, { h with errno := EOPNOTSUPP }),
    closedir := fun _ _ h => (-1, { h with errno := EOPNOTSUPP }),
    name_to_path := fun _ _ _ p => (0, p) }

/-- A cancelled request on an export with 7 open descriptors. -/
def pdu_cancelled : V9fsPDU :=
  { s := { ops := ops_failing, ctx := ctx_mapped_file, host := host_empty [],
           total_open_fd := 7, open_fd_hw := 100, path_readers := 0, lock_taken := 0,
           trace := [], reclaims := 0 },
    cancelled := true }

def fid_d : V9fsFidState := ⟨dir_d, ⟨-1, []⟩⟩

/-- A directory owned by uid 1000. -/
def dir_1000 (mode : Nat) : Inode :=
  { st_mode := S_IFDIR ||| mode, st_uid := 1000, st_gid := 1000, st_rdev := 0,
    data := [], xattrs := fun _ => Option.none }

/-- A host whose export holds the directory `d`, the file `d/f`, and the shadow
metadata directory of `d` with a shadow file for `f` of the given content. -/
def host_shadow (content : String) (plan : List (Option Int)) : Host :=
  { fs := fun p =>
      if p = "/export/d" then some (dir_1000 0o755)
      else if p = "/export/d/f" then some (file_1000 [])
      else if p = "/export/d/.virtfs_metadata" then some (dir_1000 0o700)
      else if p = "/export/d/.virtfs_metadata/f" then some (file_1000 content.data)
      else Option.none,
    fds := fun _ => Option.none, next_fd := 3, errno := 0, euid := 1000, egid := 1000,
    plan := plan }

def stat_1000 : Stat := ⟨S_IFREG ||| 0o600, 1000, 1000, 0⟩

/-- A host whose export holds the directory `d` and the file `d/f`, with no
shadow metadata at all (objects that predate the use of mapped-file). -/
def host_plain (plan : List (Option Int)) : Host :=
  { fs := fun p =>
      if p = "/export/d" then some (dir_1000 0o755)
      else if p = "/export/d/f" then some (file_1000 [])
      else Option.none,
    fds := fun _ => Option.none, next_fd := 3, errno := 0, euid := 1000, egid := 1000,
    plan := plan }

def path_d_f : V9fsPath := ⟨4, "d/f"⟩

def path_f : V9fsPath := ⟨2, "f"⟩

/-- A host as `host_shadow` where `d` also holds the empty directory `e` with a
shadow file and a `.virtfs_metadata` of its own. -/
def host_shadow_dir (plan : List (Option Int)) : Host :=
  { fs := fun p =>
      if p = "/export/d" then some (dir_1000 0o755)
      else if p = "/export/d/e" then some (dir_1000 0o700)
      else if p = "/export/d/e/.virtfs_metadata" then some (dir_1000 0o700)
      else if p = "/export/d/.virtfs_metadata" then some (dir_1000 0o700)
      else if p = "/export/d/.virtfs_metadata/e" then some (file_1000 "virtfs.mode=16877\n".data)
      else Option.none,
    fds := fun _ => Option.none, next_fd := 3, errno := 0, euid := 1000, egid := 1000,
    plan := plan }

/-- A host whose export holds the directory `d` with the file `d/a`, which has
no shadow file, and a shadow file for the name `b` that stores uid 500. -/
def host_stale (plan : List (Option Int)) : Host :=
  { fs := fun p =>
      if p = "/export/d" then some (dir_1000 0o755)
      else if p = "/export/d/a" then some (file_1000 [])
      else if p = "/export/d/.virtfs_metadata" then some (dir_1000 0o700)
      else if p = "/export/d/.virtfs_metadata/b" then some (file_1000 "virtfs.uid=500\n".data)
      else Option.none,
    fds := fun _ => Option.none, next_fd := 3, errno := 0, euid := 1000, egid := 1000,
    plan := plan }

/-- A symbolic link owned by uid 1000. -/
def link_1000 (target : String) : Inode :=
  { st_mode := S_IFLNK ||| 0o777, st_uid := 1000, st_gid := 1000, st_rdev := 0,
    data := target.data, xattrs := fun _ => Option.none }

/-- A host whose export holds the directory `d` and the symbolic link `d/f`
to `/etc/passwd`. -/
def host_symlink_f (plan : List (Option Int)) : Host :=
  { fs := fun p =>
      if p = "/export/d" then some (dir_1000 0o755)
      else if p = "/export/d/f" then some (link_1000 "/etc/passwd")
      else Option.none,
    fds := fun _ => Option.none, next_fd := 3, errno := 0, euid := 1000, egid := 1000,
    plan := plan }

/-- A host whose only object is the file `/export/f`, which carries the
attribute `user.comment` with the bytes 104, 105. -/
def host_comment (plan : List (Option Int)) : Host :=
  { fs := fun p =>
      if p = "/export/f" then
        some { file_1000 [] with
          xattrs := fun k => if k = "user.comment" then some [104, 105] else Option.none }
      else if p = "/export" then some (dir_1000 0o755)
      else Option.none,
    fds := fun _ => Option.none, next_fd := 3, errno := 0, euid := 1000, egid := 1000,
    plan := plan }

/-- The context of an export before `local_init`: no attribute table yet. -/
def ctx_before_init (ctx : FsContext) : FsContextX := { ctx with xops := Option.none }

/-- Backends that run the attribute calls of the host on the real path, the
same for every table.  The host model cannot enumerate attribute names, so a
listing reports no name. -/
def host_backend (_ : XattrOps) : XattrBackend :=
  { getxattr := fun ctx path name size h => host_getxattr (rpath ctx path) name size h,
    listxattr := fun _ _ _ h => (0, [], h),
    setxattr := fun ctx path name value _ h => host_setxattr (rpath ctx path) name value h,
    removexattr := fun ctx path name h => host_removexattr (rpath ctx path) name h }

/-- A shadow file content of one line of 112 bytes: 99 filler bytes followed by
`virtfs.uid=0` and the newline. -/
def long_line : String := String.mk (List.replicate 99 'x') ++ "virtfs.uid=0\n"

/-- A host whose export holds the directory `d` and the file `d/f` with the
content `data`, and no shadow metadata. -/
def host_data (plan : List (Option Int)) : Host :=
  { fs := fun p =>
      if p = "/export/d" then some (dir_1000 0o755)
      else if p = "/export/d/f" then some (file_1000 "data".data)
      else Option.none,
    fds := fun _ => Option.none, next_fd := 3, errno := 0, euid := 1000, egid := 1000,
    plan := plan }

/-! ## Theorems -/

theorem sm_and {f m : Nat} (h : f &&& V9FS_SM_ALL = m) (k : Nat)
    (hk : V9FS_SM_ALL &&& k = k) : f &&& k = m &&& k := by
  rw [← h, Nat.and_assoc, hk]

theorem local_parse_opts_eq (opts : QemuOpts) (fse : FsDriverEntry) :
    local_parse_opts opts fse =
      match opts.security_model with
      | none => (-1, fse)
      | some m =>
        match security_model_flag m with
        | none => (-1, fse)
        | some f =>
          match opts.path with
          | none => (-1, { fse with export_flags := fse.export_flags ||| f })
          | some p => (0, { export_flags := fse.export_flags ||| f, path := some p }) := by
  unfold local_parse_opts security_model_flag
  cases hm : opts.security_model with
  | none => rfl
  | some m =>
    cases hp : opts.path <;> simp only [] <;> split_ifs <;> simp_all

/-- C6: `local_parse_opts` returns 0 or -1; it returns 0 exactly when the
`security_model` option is one of the five keywords and the `path` option is
present, and then the entry holds the previous flags OR the flag of that
keyword and a copy of the path; in every other case it returns -1. -/
theorem local_parse_opts_success (opts : QemuOpts) (fse : FsDriverEntry) :
    ((local_parse_opts opts fse).1 = 0 ∨ (local_parse_opts opts fse).1 = -1) ∧
    ((local_parse_opts opts fse).1 = 0 ↔
      ∃ m f p, opts.security_model = some m ∧ security_model_flag m = some f ∧
        opts.path = some p ∧
        (local_parse_opts opts fse).2 =
          { export_flags := fse.export_flags ||| f, path := some p }) := by
  rw [local_parse_opts_eq]
  cases hm : opts.security_model with
  | none => simp
  | some m =>
    cases hf : security_model_flag m with
    | none => simp [hf]
    | some f =>
      cases hp : opts.path with
      | none => simp [hf]
      | some p => simp [hf]

/-- C7 fails on the code: with a recognised security model, an empty `path`
option is accepted and `local_parse_opts` returns 0. -/
theorem local_parse_opts_empty_path_accepted :
    (local_parse_opts ⟨some "none", some ""⟩ ⟨0, none⟩).1 = 0 ∧
    ¬ (local_parse_opts ⟨some "none", some ""⟩ ⟨0, none⟩).1 = -1 := by
  decide

/-- C7 as amended: when the `path` option is present but empty,
`local_parse_opts` fails exactly when the `security_model` option is missing
or not a keyword; with a keyword it returns 0 and stores the empty path. -/
theorem local_parse_opts_empty_path (opts : QemuOpts) (fse : FsDriverEntry)
    (hp : opts.path = some "") :
    ((local_parse_opts opts fse).1 = -1 ↔
      opts.security_model.bind security_model_flag = none) ∧
    (∀ m f, opts.security_model = some m → security_model_flag m = some f →
      local_parse_opts opts fse =
        (0, { export_flags := fse.export_flags ||| f, path := some "" })) := by
  rw [local_parse_opts_eq]
  cases hm : opts.security_model with
  | none => simp
  | some m =>
    cases hf : security_model_flag m with
    | none => simp [hf]; intro m' f' e hf'; subst e; simp_all
    | some f => simp [hf, hp]; intro m' f' e hf'; subst e; simp_all

theorem local_parse_opts_empty_path_witness :
    (⟨some "mapped-file", some ""⟩ : QemuOpts).path = some "" ∧
    (((local_parse_opts ⟨some "mapped-file", some ""⟩ ⟨0, none⟩).1 = -1 ↔
      (⟨some "mapped-file", some ""⟩ : QemuOpts).security_model.bind security_model_flag
        = none) ∧
    (∀ m f, (⟨some "mapped-file", some ""⟩ : QemuOpts).security_model = some m →
      security_model_flag m = some f →
      local_parse_opts ⟨some "mapped-file", some ""⟩ ⟨0, none⟩ =
        (0, { export_flags := (⟨0, none⟩ : FsDriverEntry).export_flags ||| f,
              path := some "" }))) :=
  ⟨rfl, local_parse_opts_empty_path ⟨some "mapped-file", some ""⟩ ⟨0, none⟩ rfl⟩

/-- C8 fails on the code: with a valid security model and no `path` option the
call fails, yet the entry's `export_flags` has already received the model flag. -/
theorem local_parse_opts_partial_state :
    (local_parse_opts ⟨some "none", none⟩ ⟨0, none⟩).1 = -1 ∧
    (local_parse_opts ⟨some "none", none⟩ ⟨0, none⟩).2.export_flags ≠
      (⟨0, none⟩ : FsDriverEntry).export_flags := by
  decide

/-- C8 as amended: whenever `local_parse_opts` fails, the entry's `path` is
unchanged; the whole entry is unchanged when the `security_model` option is
missing or not a keyword; when it is a keyword (so the `path` option is the
missing one), `export_flags` is the previous flags OR the flag of the keyword. -/
theorem local_parse_opts_failure (opts : QemuOpts) (fse : FsDriverEntry)
    (hfail : (local_parse_opts opts fse).1 = -1) :
    (local_parse_opts opts fse).2.path = fse.path ∧
    (opts.security_model.bind security_model_flag = none →
      (local_parse_opts opts fse).2 = fse) ∧
    (∀ m f, opts.security_model = some m → security_model_flag m = some f →
      opts.path = none ∧
      (local_parse_opts opts fse).2.export_flags = fse.export_flags ||| f) := by
  rw [local_parse_opts_eq] at hfail ⊢
  cases hm : opts.security_model with
  | none => simp
  | some m =>
    cases hf : security_model_flag m with
    | none => simp [hf]; intro m' f' e hf'; subst e; simp_all
    | some f =>
      cases hp : opts.path with
      | none => simp [hf]; intro m' f' e hf'; subst e; simp_all
      | some p => simp [hm, hf, hp] at hfail

theorem local_parse_opts_failure_witness :
    (local_parse_opts ⟨some "mapped", none⟩ ⟨1, none⟩).1 = -1 ∧
    ((local_parse_opts ⟨some "mapped", none⟩ ⟨1, none⟩).2.path =
        (⟨1, none⟩ : FsDriverEntry).path ∧
    ((⟨some "mapped", none⟩ : QemuOpts).security_model.bind security_model_flag = none →
      (local_parse_opts ⟨some "mapped", none⟩ ⟨1, none⟩).2 = ⟨1, none⟩) ∧
    (∀ m f, (⟨some "mapped", none⟩ : QemuOpts).security_model = some m →
      security_model_flag m = some f →
      (⟨some "mapped", none⟩ : QemuOpts).path = none ∧
      (local_parse_opts ⟨some "mapped", none⟩ ⟨1, none⟩).2.export_flags =
        (⟨1, none⟩ : FsDriverEntry).export_flags ||| f)) :=
  ⟨by decide, local_parse_opts_failure ⟨some "mapped", none⟩ ⟨1, none⟩ (by decide)⟩

/-- A failing `lchown` leaves the file system as it was. -/
theorem host_lchown_fail_fs (path : String) (uid gid : Nat) (h : Host)
    (hf : (host_lchown path uid gid h).1 = -1) : (host_lchown path uid gid h).2.fs = h.fs := by
  unfold host_lchown Host.next Host.fail at *
  cases hp : h.plan with
  | nil =>
    simp only [hp] at hf ⊢
    cases hn : h.fs path with
    | none => simp [hn]
    | some ino => simp [hn] at hf
  | cons o rest =>
    cases o with
    | none =>
      simp only [hp] at hf ⊢
      cases hn : h.fs path with
      | none => simp [hn]
      | some ino => simp [hn] at hf
    | some e => simp [hp]

/-- C9 fails on the code: under `none`, a `chown` whose `lchown` fails with
`EPERM` returns -1, not 0. -/
theorem local_chown_none_reports_failure :
    sm_is ctx_none .none ∧
    (local_chown ctx_none ⟨2, "f"⟩ ⟨0, 0, UNSET32, UNSET64⟩ (host_f [some EPERM])).1 = -1 ∧
    ¬ (local_chown ctx_none ⟨2, "f"⟩ ⟨0, 0, UNSET32, UNSET64⟩ (host_f [some EPERM])).1 = 0 := by
  decide

/-- C9 as amended: under `none`, `local_chown` is exactly the `lchown` of the
real path; when that `lchown` fails, `local_chown` returns -1 with the `errno`
of `lchown`, and the file system (so the real ownership) is unchanged. -/
theorem local_chown_none (ctx : FsContext) (fs_path : V9fsPath) (credp : FsCred)
    (h : Host) (hm : sm_is ctx .none) :
    local_chown ctx fs_path credp h =
      host_lchown (rpath ctx fs_path.data) credp.fc_uid credp.fc_gid h ∧
    ((host_lchown (rpath ctx fs_path.data) credp.fc_uid credp.fc_gid h).1 = -1 →
      (local_chown ctx fs_path credp h).1 = -1 ∧
      (local_chown ctx fs_path credp h).2.fs = h.fs) := by
  have h1 : ctx.export_flags &&& V9FS_SM_NONE ≠ 0 := by
    rw [sm_and hm V9FS_SM_NONE (by decide)]; decide
  have e : local_chown ctx fs_path credp h =
      host_lchown (rpath ctx fs_path.data) credp.fc_uid credp.fc_gid h := by
    unfold local_chown
    simp [h1]
  refine ⟨e, fun hf => ?_⟩
  rw [e]
  exact ⟨hf, host_lchown_fail_fs _ _ _ _ hf⟩

theorem local_chown_none_witness :
    sm_is ctx_none .none ∧
    (local_chown ctx_none ⟨2, "f"⟩ ⟨0, 0, UNSET32, UNSET64⟩ (host_f [some EPERM]) =
      host_lchown (rpath ctx_none "f") 0 0 (host_f [some EPERM]) ∧
    ((host_lchown (rpath ctx_none "f") 0 0 (host_f [some EPERM])).1 = -1 →
      (local_chown ctx_none ⟨2, "f"⟩ ⟨0, 0, UNSET32, UNSET64⟩ (host_f [some EPERM])).1 = -1 ∧
      (local_chown ctx_none ⟨2, "f"⟩ ⟨0, 0, UNSET32, UNSET64⟩ (host_f [some EPERM])).2.fs =
        (host_f [some EPERM]).fs)) :=
  ⟨by decide, local_chown_none ctx_none ⟨2, "f"⟩ ⟨0, 0, UNSET32, UNSET64⟩
    (host_f [some EPERM]) (by decide)⟩

/-- C5: when the owning request is already cancelled, `v9fs_co_readdir_r`,
`v9fs_co_telldir`, `v9fs_co_mkdir`, `v9fs_co_opendir` and `v9fs_co_closedir`
return `-EINTR` and leave the whole state as it was (no backend operation in
the trace, no acquisition of the path lock, the open-descriptor counter
unchanged, no reclaim pass, the host untouched); `v9fs_co_seekdir` and
`v9fs_co_rewinddir` return with the state and the fid unchanged. -/
theorem v9fs_co_cancelled (pdu : V9fsPDU) (fidp : V9fsFidState) (result : Option Dirent)
    (name : String) (mode uid gid : Nat) (stbuf : Stat) (offset : Int)
    (reclaim : V9fsState → V9fsState) (fs : V9fsFidOpenState)
    (hc : v9fs_request_cancelled pdu = true) :
    v9fs_co_readdir_r pdu fidp result = (-EINTR, result, fidp, pdu.s) ∧
    v9fs_co_telldir pdu fidp = (-EINTR, pdu.s) ∧
    v9fs_co_mkdir pdu fidp name mode uid gid stbuf = (-EINTR, stbuf, pdu.s) ∧
    v9fs_co_opendir reclaim pdu fidp = (-EINTR, fidp, pdu.s) ∧
    v9fs_co_closedir pdu fs = (-EINTR, pdu.s) ∧
    v9fs_co_seekdir pdu fidp offset = (fidp, pdu.s) ∧
    v9fs_co_rewinddir pdu fidp = (fidp, pdu.s) := by
  simp [v9fs_co_readdir_r, v9fs_co_telldir, v9fs_co_mkdir, v9fs_co_opendir,
    v9fs_co_closedir, v9fs_co_seekdir, v9fs_co_rewinddir, hc]

theorem mapped_file_bits {ctx : FsContext} (hm : sm_is ctx .mapped_file) :
    ctx.export_flags &&& V9FS_SM_MAPPED = 0 ∧ ctx.export_flags &&& V9FS_SM_MAPPED_FILE ≠ 0 := by
  constructor
  · rw [sm_and hm V9FS_SM_MAPPED (by decide)]; decide
  · rw [sm_and hm V9FS_SM_MAPPED_FILE (by decide)]; decide

theorem readdir_loop_not_meta (ctx : FsContext) (hm : sm_is ctx .mapped_file) :
    ∀ (fuel : Nat) (dir : DIR) (h : Host), dir.length ≤ fuel → ∀ e,
      (local_readdir_r_loop ctx fuel dir h).2.1 = some e → e.d_name ≠ VIRTFS_META_DIR := by
  obtain ⟨h0, h1⟩ := mapped_file_bits hm
  intro fuel
  induction fuel with
  | zero =>
    intro dir h hl e he
    have : dir = [] := List.length_eq_zero.mp (Nat.le_zero.mp hl)
    subst this
    rw [local_readdir_r_loop] at he
    simp only [h0, h1, host_readdir_r, Host.next] at he
    rcases hp : h.plan with _ | ⟨o, rest⟩
    · simp [hp] at he
    · cases o <;> simp [hp] at he
  | succ n ih =>
    intro dir h hl e he
    rw [local_readdir_r_loop] at he
    simp only [h0, h1, host_readdir_r, Host.next] at he
    rcases hp : h.plan with _ | ⟨o, rest⟩
    · cases dir with
      | nil => simp [hp] at he
      | cons d ds =>
        simp only [hp] at he
        by_cases hd : d.d_name = VIRTFS_META_DIR
        · simp [hd, h1] at he
          exact ih ds _ (by simpa using hl) e he
        · simp [hd, h1] at he
          rw [← he]; exact hd
    · cases o with
      | some x => simp [hp] at he
      | none =>
        cases dir with
        | nil => simp [hp] at he
        | cons d ds =>
          simp only [hp] at he
          by_cases hd : d.d_name = VIRTFS_META_DIR
          · simp [hd, h1] at he
            exact ih ds _ (by simpa using hl) e he
          · simp [hd, h1] at he
            rw [← he]; exact hd

theorem readdir_loop_calm (ctx : FsContext) (hm : sm_is ctx .mapped_file) :
    ∀ (fuel : Nat) (dir : DIR) (h : Host), dir.length ≤ fuel → h.plan = [] →
      local_readdir_r_loop ctx fuel dir h =
        (0, ((dir.dropWhile is_meta).head?).map as_unknown, (dir.dropWhile is_meta).tail, h) := by
  obtain ⟨h0, h1⟩ := mapped_file_bits hm
  intro fuel
  induction fuel with
  | zero =>
    intro dir h hl hp
    have : dir = [] := List.length_eq_zero.mp (Nat.le_zero.mp hl)
    subst this
    rw [local_readdir_r_loop]
    simp [h0, h1, host_readdir_r, Host.next, hp]
  | succ n ih =>
    intro dir h hl hp
    rw [local_readdir_r_loop]
    cases dir with
    | nil => simp [h0, h1, host_readdir_r, Host.next, hp]
    | cons d ds =>
      by_cases hd : d.d_name = VIRTFS_META_DIR
      · simp [h0, h1, host_readdir_r, Host.next, hp, hd, is_meta]
        rw [ih ds h (by simpa using hl) hp]
      · simp [h0, h1, host_readdir_r, Host.next, hp, hd, is_meta, as_unknown]

theorem filter_dropWhile_meta (l : List Dirent) :
    (l.dropWhile is_meta).filter (fun e => !is_meta e) = l.filter (fun e => !is_meta e) := by
  induction l with
  | nil => rfl
  | cons d ds ih =>
    by_cases hd : is_meta d = true
    · simp [List.dropWhile, hd, ih]
    · simp [List.dropWhile, hd]

theorem readdir_all_calm (ctx : FsContext) (hm : sm_is ctx .mapped_file) :
    ∀ (fuel : Nat) (fs : V9fsFidOpenState) (h : Host), fs.dir.length < fuel → h.plan = [] →
      readdir_all ctx fuel fs h = (fs.dir.filter (fun e => !is_meta e)).map as_unknown := by
  intro fuel
  induction fuel with
  | zero => intro fs h hl; omega
  | succ n ih =>
    intro fs h hl hp
    rw [readdir_all]
    simp only [local_readdir_r, readdir_loop_calm ctx hm _ _ h (le_refl _) hp]
    rw [← filter_dropWhile_meta]
    cases hdw : fs.dir.dropWhile is_meta with
    | nil => simp
    | cons e rest =>
      have hlen : rest.length < fs.dir.length := by
        have := (List.dropWhile_sublist is_meta (l := fs.dir)).length_le
        rw [hdw] at this
        simp at this
        omega
      have hne : is_meta e = false := by
        have := List.head_dropWhile_not is_meta fs.dir (by rw [hdw]; simp)
        simpa [hdw] using this
      simp only [List.head?_cons, Option.map_some', ne_eq, not_true_eq_false, if_false,
        List.tail_cons]
      rw [ih ⟨fs.fd, rest⟩ h (by simp; omega) hp]
      simp [List.filter, hne]

/-- C4: under mapped-file, `local_readdir_r` never returns an entry named
`.virtfs_metadata`; on a host where no call fails it returns 0 with the first
remaining entry whose name is not the reserved one (its type forced to
"unknown"), leaving the stream just behind that entry, or with no entry when
none remains; and a consumer that keeps calling it receives exactly the
entries of the stream with another name, in stream order. -/
theorem local_readdir_r_hides_metadata (ctx : FsContext) (fs : V9fsFidOpenState) (h : Host)
    (hm : sm_is ctx .mapped_file) :
    (∀ e, (local_readdir_r ctx fs h).2.1 = some e → e.d_name ≠ VIRTFS_META_DIR) ∧
    (h.plan = [] →
      local_readdir_r ctx fs h =
        (0, ((fs.dir.dropWhile is_meta).head?).map as_unknown,
          { fs with dir := (fs.dir.dropWhile is_meta).tail }, h)) ∧
    (h.plan = [] → ∀ fuel, fs.dir.length < fuel →
      readdir_all ctx fuel fs h = (fs.dir.filter (fun e => !is_meta e)).map as_unknown) := by
  refine ⟨fun e he => ?_, fun hp => ?_, fun hp fuel hl => ?_⟩
  · exact readdir_loop_not_meta ctx hm _ _ h (le_refl _) e he
  · simp only [local_readdir_r, readdir_loop_calm ctx hm _ _ h (le_refl _) hp]
  · exact readdir_all_calm ctx hm fuel fs h hl hp

theorem sm_bits_mapped {ctx : FsContext} (hm : sm_is ctx .mapped) :
    ctx.export_flags &&& V9FS_SM_MAPPED ≠ 0 := by
  rw [sm_and hm V9FS_SM_MAPPED (by decide)]; decide

theorem sm_bits_passthrough {ctx : FsContext} (hm : sm_is ctx .passthrough) :
    ctx.export_flags &&& V9FS_SM_MAPPED = 0 ∧ ctx.export_flags &&& V9FS_SM_MAPPED_FILE = 0 ∧
    ctx.export_flags &&& V9FS_SM_PASSTHROUGH ≠ 0 ∧
    ctx.export_flags &&& V9FS_SEC_MASK ≠ V9FS_SM_NONE := by
  refine ⟨?_, ?_, ?_, ?_⟩
  · rw [sm_and hm V9FS_SM_MAPPED (by decide)]; decide
  · rw [sm_and hm V9FS_SM_MAPPED_FILE (by decide)]; decide
  · rw [sm_and hm V9FS_SM_PASSTHROUGH (by decide)]; decide
  · rw [sm_and hm V9FS_SEC_MASK (by decide)]; decide

theorem sm_bits_none {ctx : FsContext} (hm : sm_is ctx .none) :
    ctx.export_flags &&& V9FS_SM_MAPPED = 0 ∧ ctx.export_flags &&& V9FS_SM_MAPPED_FILE = 0 ∧
    ctx.export_flags &&& V9FS_SM_NONE ≠ 0 ∧
    ctx.export_flags &&& V9FS_SEC_MASK = V9FS_SM_NONE := by
  refine ⟨?_, ?_, ?_, ?_⟩
  · rw [sm_and hm V9FS_SM_MAPPED (by decide)]; decide
  · rw [sm_and hm V9FS_SM_MAPPED_FILE (by decide)]; decide
  · rw [sm_and hm V9FS_SM_NONE (by decide)]; decide
  · rw [sm_and hm V9FS_SEC_MASK (by decide)]; decide

theorem host_remove_calm (buffer : String) (h : Host) (hp : h.plan = []) :
    (host_remove buffer h).2.fs buffer = none ∧ (host_remove buffer h).2.plan = [] := by
  unfold host_remove Host.next
  simp only [hp]
  cases hn : h.fs buffer <;> simp [Host.fail, Host.setNode, hn, hp]

theorem host_close_calm (fd : Int) (h : Host) (hp : h.plan = []) :
    (host_close fd h).2.fs = h.fs ∧ (host_close fd h).2.plan = [] := by
  unfold host_close Host.next
  simp only [hp]
  cases hn : h.fds fd <;> simp [Host.fail, Host.setFd, hp]

theorem err_end_spec (buffer : String) (se err : Int) (h : Host) :
    (err_end buffer se err h).1 = err ∧ (err_end buffer se err h).2.errno = se ∧
    (h.plan = [] → (err_end buffer se err h).2.fs buffer = none) := by
  refine ⟨rfl, rfl, fun hp => ?_⟩
  exact (host_remove_calm buffer h hp).1

theorem open2_err_end_spec (fd : Int) (buffer : String) (se err : Int) (h : Host) :
    (open2_err_end fd buffer se err h).1 = err ∧
    (open2_err_end fd buffer se err h).2.errno = se ∧
    (h.plan = [] → (open2_err_end fd buffer se err h).2.fs buffer = none) := by
  refine ⟨rfl, rfl, fun hp => ?_⟩
  exact (host_remove_calm buffer _ (host_close_calm fd h hp).2).1

theorem host_symlink_ret (target path : String) (h : Host) :
    (host_symlink target path h).1 = 0 ∨ (host_symlink target path h).1 = -1 := by
  unfold host_symlink Host.next Host.fail
  rcases hp : h.plan with _ | ⟨o, rest⟩
  · cases hn : h.fs path <;> simp [hn]
  · cases o <;> cases hn : h.fs path <;> simp [hn]

theorem host_mknod_ret (path : String) (mode dev : Nat) (h : Host) :
    (host_mknod path mode dev h).1 = 0 ∨ (host_mknod path mode dev h).1 = -1 := by
  unfold host_mknod Host.next Host.fail
  rcases hp : h.plan with _ | ⟨o, rest⟩
  · cases hn : h.fs path <;> simp [hn]
  · cases o <;> cases hn : h.fs path <;> simp [hn]

theorem host_mkdir_ret (path : String) (mode : Nat) (h : Host) :
    (host_mkdir path mode h).1 = 0 ∨ (host_mkdir path mode h).1 = -1 := by
  unfold host_mkdir Host.next Host.fail
  rcases hp : h.plan with _ | ⟨o, rest⟩
  · cases hn : h.fs path <;> simp [hn]
  · cases o <;> cases hn : h.fs path <;> simp [hn]

theorem host_open_ret (path : String) (flags mode : Nat) (h : Host) :
    (host_open path flags mode h).1 = -1 ∨ 0 ≤ (host_open path flags mode h).1 := by
  unfold host_open Host.next Host.fail
  rcases hp : h.plan with _ | ⟨o, rest⟩
  · cases hn : h.fs path <;> simp only [hn] <;> split_ifs <;> simp
  · cases o <;> cases hn : h.fs path <;> simp only [hn] <;> (try split_ifs) <;> simp

theorem host_chmod_ok (path : String) (mode : Nat) (h : Host)
    (hs : (host_chmod path mode h).1 = 0) : ((host_chmod path mode h).2.fs path).isSome := by
  revert hs
  unfold host_chmod Host.next Host.fail
  rcases hp : h.plan with _ | ⟨o, rest⟩
  · cases hn : h.fs path <;> simp [hn, Host.setNode]
  · cases o <;> cases hn : h.fs path <;> simp [hn, Host.setNode]

theorem create_passthrough_ok (op : CreateOp) (buffer : String) (credp : FsCred) (h : Host)
    (hc : (op.create .passthrough buffer credp h).1 ≠ -1) :
    0 ≤ (op.create .passthrough buffer credp h).1 ∧
    ((op.create .passthrough buffer credp h).2.fs buffer).isSome ∧
    ((op.create .passthrough buffer credp h).1 = 0 ∨ ∃ flags fs, op = .open2 flags fs) := by
  cases op with
  | mknod =>
    simp only [CreateOp.create] at hc ⊢
    have h0 := (host_mknod_ret buffer credp.fc_mode credp.fc_rdev h).resolve_right hc
    refine ⟨by omega, ?_, Or.inl h0⟩
    revert hc
    unfold host_mknod Host.next Host.fail
    rcases hp : h.plan with _ | ⟨o, rest⟩
    · cases hn : h.fs buffer <;> simp [hn, Host.setNode]
    · cases o <;> cases hn : h.fs buffer <;> simp [hn, Host.setNode]
  | mkdir =>
    simp only [CreateOp.create] at hc ⊢
    have h0 := (host_mkdir_ret buffer credp.fc_mode h).resolve_right hc
    refine ⟨by omega, ?_, Or.inl h0⟩
    revert hc
    unfold host_mkdir Host.next Host.fail
    rcases hp : h.plan with _ | ⟨o, rest⟩
    · cases hn : h.fs buffer <;> simp [hn, Host.setNode]
    · cases o <;> cases hn : h.fs buffer <;> simp [hn, Host.setNode]
  | symlink oldpath =>
    simp only [CreateOp.create] at hc ⊢
    have h0 := (host_symlink_ret oldpath buffer h).resolve_right hc
    refine ⟨by omega, ?_, Or.inl h0⟩
    revert hc
    unfold host_symlink Host.next Host.fail
    rcases hp : h.plan with _ | ⟨o, rest⟩
    · cases hn : h.fs buffer <;> simp [hn, Host.setNode]
    · cases o <;> cases hn : h.fs buffer <;> simp [hn, Host.setNode]
  | open2 flags fs =>
    simp only [CreateOp.create] at hc ⊢
    refine ⟨(host_open_ret _ _ _ h).resolve_left hc, ?_, Or.inr ⟨flags, fs, rfl⟩⟩
    · revert hc
      unfold host_open Host.next Host.fail
      rcases hp : h.plan with _ | ⟨o, rest⟩
      · cases hn : h.fs buffer <;> simp only [hn] <;> split_ifs <;>
          simp [Host.setNode, Host.setFd]
      · cases o <;> cases hn : h.fs buffer <;> simp only [hn] <;> (try split_ifs) <;>
          simp [Host.setNode, Host.setFd]

theorem post_create_none {ctx : FsContext} (hm : sm_is ctx .none) (path : String)
    (credp : FsCred) (h : Host)
    (hch : (host_chmod (rpath ctx path) (credp.fc_mode &&& 0o7777)
      (host_lchown (rpath ctx path) credp.fc_uid credp.fc_gid h).2).1 = 0) :
    local_post_create_passthrough ctx path credp h =
      (0, (host_chmod (rpath ctx path) (credp.fc_mode &&& 0o7777)
        (host_lchown (rpath ctx path) credp.fc_uid credp.fc_gid h).2).2) := by
  obtain ⟨b0, b1, b2, b3⟩ := sm_bits_none hm
  simp [local_post_create_passthrough, b3, hch]

theorem post_create_passthrough_fail {ctx : FsContext} (hm : sm_is ctx .passthrough)
    (path : String) (credp : FsCred) (h : Host)
    (hl : (host_lchown (rpath ctx path) credp.fc_uid credp.fc_gid h).1 = -1) :
    local_post_create_passthrough ctx path credp h =
      (-1, (host_lchown (rpath ctx path) credp.fc_uid credp.fc_gid h).2) := by
  obtain ⟨b0, b1, b2, b3⟩ := sm_bits_passthrough hm
  simp [local_post_create_passthrough, b3, hl]

/-- C10: let the create step of `local_mknod`, `local_mkdir`, `local_open2` or
`local_symlink` succeed (it is the same call under `none` and `passthrough`) and
the `lchown` after it fail.  Under `none` the operation returns the success
value of the create step and the object exists afterwards, provided the
`chmod` that follows (there is none for a symbolic link) succeeds.  Under
`passthrough` the operation returns -1 with the `errno` of `lchown`, and the
object is removed (provided no failure is scheduled for the cleanup calls). -/
theorem lchown_failure_none_passthrough (op : CreateOp) (ctx : FsContext) (dir_path : V9fsPath)
    (name : String) (credp : FsCred) (h : Host)
    (hc : (op.create .passthrough (rpath ctx (DELIMITER_IN_PATH dir_path.data name))
      credp h).1 ≠ -1)
    (hl : (host_lchown (rpath ctx (DELIMITER_IN_PATH dir_path.data name)) credp.fc_uid
      credp.fc_gid (op.create .passthrough (rpath ctx (DELIMITER_IN_PATH dir_path.data name))
        credp h).2).1 = -1) :
    (sm_is ctx .none →
      ((∃ oldpath, op = .symlink oldpath) ∨
        (host_chmod (rpath ctx (DELIMITER_IN_PATH dir_path.data name)) (credp.fc_mode &&& 0o7777)
          (host_lchown (rpath ctx (DELIMITER_IN_PATH dir_path.data name)) credp.fc_uid
            credp.fc_gid (op.create .passthrough
              (rpath ctx (DELIMITER_IN_PATH dir_path.data name)) credp h).2).2).1 = 0) →
      (op.run ctx dir_path name credp h).1 =
        (op.create .none (rpath ctx (DELIMITER_IN_PATH dir_path.data name)) credp h).1 ∧
      0 ≤ (op.run ctx dir_path name credp h).1 ∧
      ((op.run ctx dir_path name credp h).2.fs
        (rpath ctx (DELIMITER_IN_PATH dir_path.data name))).isSome) ∧
    (sm_is ctx .passthrough →
      (op.run ctx dir_path name credp h).1 = -1 ∧
      (op.run ctx dir_path name credp h).2.errno =
        (host_lchown (rpath ctx (DELIMITER_IN_PATH dir_path.data name)) credp.fc_uid
          credp.fc_gid (op.create .passthrough
            (rpath ctx (DELIMITER_IN_PATH dir_path.data name)) credp h).2).2.errno ∧
      ((host_lchown (rpath ctx (DELIMITER_IN_PATH dir_path.data name)) credp.fc_uid
          credp.fc_gid (op.create .passthrough
            (rpath ctx (DELIMITER_IN_PATH dir_path.data name)) credp h).2).2.plan = [] →
        (op.run ctx dir_path name credp h).2.fs
          (rpath ctx (DELIMITER_IN_PATH dir_path.data name)) = none)) := by
  obtain ⟨hge, hsome, hz⟩ := create_passthrough_ok op _ credp h hc
  have hfs := host_lchown_fail_fs _ _ _ _ hl
  constructor
  · intro hm hch
    obtain ⟨b0, b1, b2, b3⟩ := sm_bits_none hm
    cases op with
    | mknod =>
      simp only [CreateOp.create] at hc hl hge hsome hz hfs hch ⊢
      have hch' := hch.resolve_left (by simp)
      have hz' := hz.resolve_right (by simp)
      have hp := post_create_none hm (DELIMITER_IN_PATH dir_path.data name) credp _ hch'
      simp only [CreateOp.run, local_mknod, b0, b1, b2, ne_eq, not_true_eq_false,
        not_false_eq_true, or_true, if_true, hc, if_false, hp]
      simp [hz', host_chmod_ok _ _ _ hch']
    | mkdir =>
      simp only [CreateOp.create] at hc hl hge hsome hz hfs hch ⊢
      have hch' := hch.resolve_left (by simp)
      have hz' := hz.resolve_right (by simp)
      have hp := post_create_none hm (DELIMITER_IN_PATH dir_path.data name) credp _ hch'
      simp only [CreateOp.run, local_mkdir, b0, b1, b2, ne_eq, not_true_eq_false,
        not_false_eq_true, or_true, if_true, hc, if_false, hp]
      simp [hz', host_chmod_ok _ _ _ hch']
    | open2 flags fs =>
      simp only [CreateOp.create] at hc hl hge hsome hz hfs hch ⊢
      have hch' := hch.resolve_left (by simp)
      have hp := post_create_none hm (DELIMITER_IN_PATH dir_path.data name) credp _ hch'
      simp only [CreateOp.run, local_open2, b0, b1, b2, ne_eq, not_true_eq_false,
        not_false_eq_true, or_true, if_true, hc, if_false, hp]
      simp [hge, host_chmod_ok _ _ _ hch']
    | symlink oldpath =>
      simp only [CreateOp.create] at hc hl hge hsome hz hfs hch ⊢
      have hz' := hz.resolve_right (by simp)
      simp only [CreateOp.run, local_symlink, b0, b1, b2, b3, ne_eq, not_true_eq_false,
        not_false_eq_true, or_true, if_true, hz', if_false, hl]
      simp [hfs, hsome]
  · intro hm
    obtain ⟨b0, b1, b2, b3⟩ := sm_bits_passthrough hm
    cases op with
    | mknod =>
      simp only [CreateOp.create] at hc hl hge hsome hz hfs ⊢
      have hp := post_create_passthrough_fail hm (DELIMITER_IN_PATH dir_path.data name) credp _ hl
      simp only [CreateOp.run, local_mknod, b0, b1, b2, ne_eq, not_true_eq_false,
        not_false_eq_true, true_or, if_true, hc, if_false, hp]
      exact err_end_spec _ _ _ _
    | mkdir =>
      simp only [CreateOp.create] at hc hl hge hsome hz hfs ⊢
      have hp := post_create_passthrough_fail hm (DELIMITER_IN_PATH dir_path.data name) credp _ hl
      simp only [CreateOp.run, local_mkdir, b0, b1, b2, ne_eq, not_true_eq_false,
        not_false_eq_true, true_or, if_true, hc, if_false, hp]
      exact err_end_spec _ _ _ _
    | open2 flags fs =>
      simp only [CreateOp.create] at hc hl hge hsome hz hfs ⊢
      have hp := post_create_passthrough_fail hm (DELIMITER_IN_PATH dir_path.data name) credp _ hl
      simp only [CreateOp.run, local_open2, b0, b1, b2, ne_eq, not_true_eq_false,
        not_false_eq_true, true_or, if_true, hc, if_false, hp]
      exact open2_err_end_spec _ _ _ _ _
    | symlink oldpath =>
      simp only [CreateOp.create] at hc hl hge hsome hz hfs ⊢
      have hz' := hz.resolve_right (by simp)
      simp only [CreateOp.run, local_symlink, b0, b1, b2, b3, ne_eq, not_true_eq_false,
        not_false_eq_true, true_or, if_true, hz', if_false, hl]
      exact err_end_spec _ _ _ _

theorem lchown_failure_none_passthrough_witness :
    (CreateOp.mkdir.create .passthrough (rpath ctx_none (DELIMITER_IN_PATH dir_d.data "f"))
      cred_644 (host_empty [none, some EPERM])).1 ≠ -1 ∧
    (host_lchown (rpath ctx_none (DELIMITER_IN_PATH dir_d.data "f")) cred_644.fc_uid
      cred_644.fc_gid (CreateOp.mkdir.create .passthrough
        (rpath ctx_none (DELIMITER_IN_PATH dir_d.data "f")) cred_644
        (host_empty [none, some EPERM])).2).1 = -1 ∧
    ((sm_is ctx_none .none →
      ((∃ oldpath, CreateOp.mkdir = .symlink oldpath) ∨
        (host_chmod (rpath ctx_none (DELIMITER_IN_PATH dir_d.data "f"))
          (cred_644.fc_mode &&& 0o7777)
          (host_lchown (rpath ctx_none (DELIMITER_IN_PATH dir_d.data "f")) cred_644.fc_uid
            cred_644.fc_gid (CreateOp.mkdir.create .passthrough
              (rpath ctx_none (DELIMITER_IN_PATH dir_d.data "f")) cred_644
              (host_empty [none, some EPERM])).2).2).1 = 0) →
      (CreateOp.mkdir.run ctx_none dir_d "f" cred_644 (host_empty [none, some EPERM])).1 =
        (CreateOp.mkdir.create .none (rpath ctx_none (DELIMITER_IN_PATH dir_d.data "f"))
          cred_644 (host_empty [none, some EPERM])).1 ∧
      0 ≤ (CreateOp.mkdir.run ctx_none dir_d "f" cred_644 (host_empty [none, some EPERM])).1 ∧
      ((CreateOp.mkdir.run ctx_none dir_d "f" cred_644 (host_empty [none, some EPERM])).2.fs
        (rpath ctx_none (DELIMITER_IN_PATH dir_d.data "f"))).isSome) ∧
    (sm_is ctx_none .passthrough →
      (CreateOp.mkdir.run ctx_none dir_d "f" cred_644 (host_empty [none, some EPERM])).1 = -1 ∧
      (CreateOp.mkdir.run ctx_none dir_d "f" cred_644
          (host_empty [none, some EPERM])).2.errno =
        (host_lchown (rpath ctx_none (DELIMITER_IN_PATH dir_d.data "f")) cred_644.fc_uid
          cred_644.fc_gid (CreateOp.mkdir.create .passthrough
            (rpath ctx_none (DELIMITER_IN_PATH dir_d.data "f")) cred_644
            (host_empty [none, some EPERM])).2).2.errno ∧
      ((host_lchown (rpath ctx_none (DELIMITER_IN_PATH dir_d.data "f")) cred_644.fc_uid
          cred_644.fc_gid (CreateOp.mkdir.create .passthrough
            (rpath ctx_none (DELIMITER_IN_PATH dir_d.data "f")) cred_644
            (host_empty [none, some EPERM])).2).2.plan = [] →
        (CreateOp.mkdir.run ctx_none dir_d "f" cred_644 (host_empty [none, some EPERM])).2.fs
          (rpath ctx_none (DELIMITER_IN_PATH dir_d.data "f")) = none))) :=
  ⟨by decide, by decide,
    lchown_failure_none_passthrough .mkdir ctx_none dir_d "f" cred_644
      (host_empty [none, some EPERM]) (by decide) (by decide)⟩

theorem v9fs_co_cancelled_witness :
    v9fs_request_cancelled pdu_cancelled = true ∧
    (v9fs_co_readdir_r pdu_cancelled fid_d none = (-EINTR, none, fid_d, pdu_cancelled.s) ∧
    v9fs_co_telldir pdu_cancelled fid_d = (-EINTR, pdu_cancelled.s) ∧
    v9fs_co_mkdir pdu_cancelled fid_d "f" 0o755 0 0 ⟨0, 0, 0, 0⟩ =
      (-EINTR, ⟨0, 0, 0, 0⟩, pdu_cancelled.s) ∧
    v9fs_co_opendir id pdu_cancelled fid_d = (-EINTR, fid_d, pdu_cancelled.s) ∧
    v9fs_co_closedir pdu_cancelled fid_d.fs = (-EINTR, pdu_cancelled.s) ∧
    v9fs_co_seekdir pdu_cancelled fid_d 0 = (fid_d, pdu_cancelled.s) ∧
    v9fs_co_rewinddir pdu_cancelled fid_d = (fid_d, pdu_cancelled.s)) :=
  ⟨rfl, v9fs_co_cancelled pdu_cancelled fid_d none "f" 0o755 0 0 ⟨0, 0, 0, 0⟩ 0 id fid_d.fs rfl⟩

theorem local_readdir_r_hides_metadata_witness :
    sm_is ctx_mapped_file .mapped_file ∧
    ((∀ e, (local_readdir_r ctx_mapped_file ⟨-1, [⟨".virtfs_metadata", 4⟩, ⟨"a", 8⟩]⟩
        (host_empty [])).2.1 = some e → e.d_name ≠ VIRTFS_META_DIR) ∧
    ((host_empty []).plan = [] →
      local_readdir_r ctx_mapped_file ⟨-1, [⟨".virtfs_metadata", 4⟩, ⟨"a", 8⟩]⟩ (host_empty []) =
        (0, (((⟨-1, [⟨".virtfs_metadata", 4⟩, ⟨"a", 8⟩]⟩ : V9fsFidOpenState).dir.dropWhile
            is_meta).head?).map as_unknown,
          { (⟨-1, [⟨".virtfs_metadata", 4⟩, ⟨"a", 8⟩]⟩ : V9fsFidOpenState) with
            dir := ((⟨-1, [⟨".virtfs_metadata", 4⟩, ⟨"a", 8⟩]⟩ : V9fsFidOpenState).dir.dropWhile
              is_meta).tail }, host_empty [])) ∧
    ((host_empty []).plan = [] → ∀ fuel,
      (⟨-1, [⟨".virtfs_metadata", 4⟩, ⟨"a", 8⟩]⟩ : V9fsFidOpenState).dir.length < fuel →
      readdir_all ctx_mapped_file fuel ⟨-1, [⟨".virtfs_metadata", 4⟩, ⟨"a", 8⟩]⟩ (host_empty []) =
        ((⟨-1, [⟨".virtfs_metadata", 4⟩, ⟨"a", 8⟩]⟩ : V9fsFidOpenState).dir.filter
          (fun e => !is_meta e)).map as_unknown)) :=
  ⟨by decide, local_readdir_r_hides_metadata ctx_mapped_file
    ⟨-1, [⟨".virtfs_metadata", 4⟩, ⟨"a", 8⟩]⟩ (host_empty []) (by decide)⟩

/-! ### `atoi` reads back what `%d` printed -/

theorem isdigit_ofNat (d : Nat) (hd : d < 10) :
    isdigit (Char.ofNat (48 + d)) = true ∧ (Char.ofNat (48 + d)).toNat - 48 = d ∧
    isspace (Char.ofNat (48 + d)) = false ∧ Char.ofNat (48 + d) ≠ '-' ∧
    Char.ofNat (48 + d) ≠ '+' ∧ Char.ofNat (48 + d) ≠ '\n' := by
  interval_cases d <;> decide

theorem parse_digits_fmt_u (fuel : Nat) :
    ∀ (n acc : Nat) (rest : List Char),
      parse_digits (fmt_u fuel n ++ rest) acc = parse_digits rest (digits_value fuel n acc) := by
  induction fuel with
  | zero =>
    intro n acc rest
    obtain ⟨h1, h2, -⟩ := isdigit_ofNat (n % 10) (Nat.mod_lt _ (by decide))
    simp [fmt_u, digits_value, parse_digits, h1, h2]
  | succ k ih =>
    intro n acc rest
    by_cases hn : n < 10
    · obtain ⟨h1, h2, -⟩ := isdigit_ofNat n hn
      simp [fmt_u, digits_value, parse_digits, hn, h1, h2]
    · obtain ⟨h1, h2, -⟩ := isdigit_ofNat (n % 10) (Nat.mod_lt _ (by decide))
      simp only [fmt_u, digits_value, hn, if_false, List.append_assoc, ih]
      simp [parse_digits, h1, h2]

theorem digits_value_zero (fuel : Nat) :
    ∀ n, n < 10 ^ (fuel + 1) → digits_value fuel n 0 = n := by
  induction fuel with
  | zero => intro n hn; simp [digits_value]; omega
  | succ k ih =>
    intro n hn
    by_cases h10 : n < 10
    · simp [digits_value, h10]
    · have : n / 10 < 10 ^ (k + 1) := by
        rw [Nat.div_lt_iff_lt_mul (by decide)]
        calc n < 10 ^ (k + 1 + 1) := hn
          _ = 10 ^ (k + 1) * 10 := by ring
      simp only [digits_value, h10, if_false, ih _ this]
      omega

theorem fmt_u_head (fuel n : Nat) :
    ∃ c cs, fmt_u fuel n = c :: cs ∧ isspace c = false ∧ c ≠ '-' ∧ c ≠ '+' ∧
      (∀ x ∈ c :: cs, x ≠ '\n') ∧ (c :: cs).length ≤ fuel + 1 := by
  induction fuel generalizing n with
  | zero =>
    obtain ⟨-, -, h3, h4, h5, h6⟩ := isdigit_ofNat (n % 10) (Nat.mod_lt _ (by decide))
    exact ⟨_, [], rfl, h3, h4, h5, by simpa using h6, by simp⟩
  | succ k ih =>
    by_cases hn : n < 10
    · obtain ⟨-, -, h3, h4, h5, h6⟩ := isdigit_ofNat n hn
      exact ⟨_, [], by simp [fmt_u, hn], h3, h4, h5, by simpa using h6, by simp⟩
    · obtain ⟨c, cs, he, h3, h4, h5, h6, h7⟩ := ih (n / 10)
      obtain ⟨-, -, -, -, -, g6⟩ := isdigit_ofNat (n % 10) (Nat.mod_lt _ (by decide))
      refine ⟨c, cs ++ [Char.ofNat (48 + n % 10)], by simp [fmt_u, hn, he], h3, h4, h5, ?_, ?_⟩
      · intro x hx
        rw [← List.cons_append, List.mem_append] at hx
        rcases hx with hx | hx
        · exact h6 x hx
        · simp at hx; rw [hx]; exact g6
      · simp at h7 ⊢; omega

theorem atoi_fmt_d (x : Int) (rest : List Char) (hlo : -2 ^ 31 ≤ x) (hhi : x < 2 ^ 31) :
    atoi (fmt_d x ++ '\n' :: rest) = x := by
  have hv : x.natAbs < 10 ^ (10 + 1) := by omega
  obtain ⟨c, cs, he, h3, h4, h5, -, -⟩ := fmt_u_head 10 x.natAbs
  have hp : ∀ acc, parse_digits ('\n' :: rest) acc = acc := by
    intro acc
    have hnl : isdigit '\n' = false := by decide
    simp [parse_digits, hnl]
  by_cases hneg : x < 0
  · have e1 : fmt_d x ++ '\n' :: rest = '-' :: (fmt_u 10 x.natAbs ++ '\n' :: rest) := by
      simp [fmt_d, hneg]
    have hs : isspace '-' = false := by decide
    rw [e1, atoi, List.dropWhile_cons_of_neg (by simp [hs])]
    simp only [if_true, parse_digits_fmt_u, hp, digits_value_zero 10 _ hv]
    simp only [clampLong, wrapInt32, toInt32]
    have : ((x.natAbs : Nat) : Int) = -x := by omega
    rw [this]
    split_ifs <;> omega
  · have e1 : fmt_d x ++ '\n' :: rest = c :: (cs ++ '\n' :: rest) := by
      simp [fmt_d, hneg, he]
    have e2 : c :: (cs ++ '\n' :: rest) = fmt_u 10 x.natAbs ++ '\n' :: rest := by
      simp [he]
    rw [e1, atoi, List.dropWhile_cons_of_neg (by simp [h3])]
    simp only [h4, h5, if_false, e2, parse_digits_fmt_u, hp, digits_value_zero 10 _ hv]
    simp only [clampLong, wrapInt32, toInt32]
    have : ((x.natAbs : Nat) : Int) = x := by omega
    rw [this]
    split_ifs <;> omega

theorem mapped_file_attr_loop_eq (n : Nat) : ∀ (fp : FILE) (st : Stat),
    mapped_file_attr_loop n fp st = attr_fold mapped_file_attr_line n fp st := by
  induction n with
  | zero => intro fp st; rfl
  | succ k ih =>
    intro fp st
    simp only [mapped_file_attr_loop, attr_fold]
    split <;> simp_all

theorem set_mapped_file_attr_loop_eq (n : Nat) : ∀ (fp : FILE) (a : MapAttr),
    set_mapped_file_attr_loop n fp a = attr_fold set_mapped_file_attr_line n fp a := by
  induction n with
  | zero => intro fp a; rfl
  | succ k ih =>
    intro fp a
    simp only [set_mapped_file_attr_loop, attr_fold]
    split <;> simp_all

theorem takeLine_line (n : Nat) : ∀ (pre rest : List Char), (∀ x ∈ pre, x ≠ '\n') →
    pre.length < n → takeLine n (pre ++ '\n' :: rest) = pre ++ ['\n'] := by
  induction n with
  | zero => intro pre rest _ hl; omega
  | succ k ih =>
    intro pre rest hx hl
    cases pre with
    | nil => simp [takeLine]
    | cons c cs =>
      have hc : c ≠ '\n' := hx c (by simp)
      have := ih cs rest (fun x hx' => hx x (by simp [hx'])) (by simpa using hl)
      simp only [List.cons_append, takeLine, hc, if_false]
      exact congrArg (c :: ·) this

theorem takeLine_length (n : Nat) : ∀ (l : List Char), 0 < n → l ≠ [] →
    0 < (takeLine n l).length := by
  intro l hn hl
  cases n with
  | zero => omega
  | succ k =>
    cases l with
    | nil => exact absurd rfl hl
    | cons c cs =>
      simp only [takeLine]
      split_ifs <;> simp

theorem fgets_line (fd : Int) (pre rest : List Char) (hx : ∀ x ∈ pre, x ≠ '\n')
    (hl : pre.length < 99) :
    fgets ATTR_MAX ⟨fd, pre ++ '\n' :: rest⟩ = (some (pre ++ ['\n']), ⟨fd, rest⟩) := by
  unfold fgets
  have e : takeLine (ATTR_MAX - 1) (pre ++ '\n' :: rest) = pre ++ ['\n'] :=
    takeLine_line _ pre rest hx (by simpa [ATTR_MAX] using hl)
  cases hp : pre ++ '\n' :: rest with
  | nil => simp at hp
  | cons c cs =>
    simp only
    rw [← hp, e]
    simp

theorem attr_fold_stable {α : Type} (f : List Char → α → α) (n : Nat) :
    ∀ (m : Nat) (fp : FILE) (a : α), fp.rbuf.length < n → fp.rbuf.length < m →
      attr_fold f n fp a = attr_fold f m fp a := by
  induction n with
  | zero => intro m fp a hn; omega
  | succ k ih =>
    intro m fp a hn hm
    cases m with
    | zero => omega
    | succ j =>
      simp only [attr_fold, fgets]
      cases hr : fp.rbuf with
      | nil => rfl
      | cons c cs =>
        simp only
        have hpos := takeLine_length (ATTR_MAX - 1) (c :: cs) (by decide) (by simp)
        apply ih
        · simp only [List.length_drop]; rw [hr] at hn; simp at hn ⊢; omega
        · simp only [List.length_drop]; rw [hr] at hm; simp at hm ⊢; omega

theorem attr_fold_nil {α : Type} (f : List Char → α → α) (n : Nat) (fd : Int) (a : α) :
    attr_fold f n ⟨fd, []⟩ a = a := by
  cases n <;> simp [attr_fold, fgets]

theorem attr_fold_line {α : Type} (f : List Char → α → α) (fd : Int) (pre rest : List Char)
    (a : α) (hx : ∀ x ∈ pre, x ≠ '\n') (hl : pre.length < 99) (n : Nat)
    (hn : (pre ++ '\n' :: rest).length < n) :
    attr_fold f n ⟨fd, pre ++ '\n' :: rest⟩ a =
      attr_fold f (rest.length + 1) ⟨fd, rest⟩ (f (pre ++ ['\n']) a) := by
  cases n with
  | zero => omega
  | succ k =>
    rw [attr_fold]
    simp only [fgets_line fd pre rest hx hl]
    apply attr_fold_stable
    · simp at hn ⊢; omega
    · simp

theorem fmt_d_props (x : Int) : (∀ c ∈ fmt_d x, c ≠ '\n') ∧ (fmt_d x).length ≤ 12 := by
  obtain ⟨c, cs, he, -, -, -, h6, h7⟩ := fmt_u_head 10 x.natAbs
  unfold fmt_d
  split_ifs
  · rw [he]
    refine ⟨fun y hy => ?_, by simp at h7 ⊢; omega⟩
    rcases List.mem_cons.mp hy with hy | hy
    · rw [hy]; decide
    · exact h6 y hy
  · rw [he]
    exact ⟨h6, by simp at h7 ⊢; omega⟩

theorem attr_fold_opt_line {α : Type} (f : List Char → α → α) (fd : Int) (key : List Char)
    (v : Int) (rest : List Char) (a : α) (cond : Prop) [Decidable cond]
    (hk : ∀ x ∈ key, x ≠ '\n') (hkl : key.length ≤ 12) (n : Nat)
    (hn : ((if cond then key ++ fmt_d v ++ ['\n'] else []) ++ rest).length < n) :
    attr_fold f n ⟨fd, (if cond then key ++ fmt_d v ++ ['\n'] else []) ++ rest⟩ a =
      attr_fold f (rest.length + 1) ⟨fd, rest⟩
        (if cond then f (key ++ fmt_d v ++ ['\n']) a else a) := by
  obtain ⟨h1, h2⟩ := fmt_d_props v
  by_cases hc : cond
  · simp only [hc, if_true] at hn ⊢
    have e : key ++ fmt_d v ++ ['\n'] ++ rest = (key ++ fmt_d v) ++ '\n' :: rest := by simp
    rw [e] at hn ⊢
    exact attr_fold_line f fd (key ++ fmt_d v) rest a
      (fun x hx => by
        rcases List.mem_append.mp hx with hx | hx
        · exact hk x hx
        · exact h1 x hx)
      (by simp; omega) n hn
  · simp only [hc, if_false, List.nil_append] at hn ⊢
    exact attr_fold_stable f n _ _ a hn (by simp)

theorem attr_fold_text {α : Type} (f : List Char → α → α) (fd : Int) (x : MapAttr) (a : α) :
    attr_fold f ((attr_text x).length + 1) ⟨fd, attr_text x⟩ a =
      (if x.rdev ≠ -1 then f ("virtfs.rdev=".data ++ fmt_d x.rdev ++ ['\n']) else id)
      ((if x.mode ≠ -1 then f ("virtfs.mode=".data ++ fmt_d x.mode ++ ['\n']) else id)
      ((if x.gid ≠ -1 then f ("virtfs.gid=".data ++ fmt_d x.gid ++ ['\n']) else id)
      ((if x.uid ≠ -1 then f ("virtfs.uid=".data ++ fmt_d x.uid ++ ['\n']) else id) a))) := by
  have e : attr_text x =
      (if x.uid ≠ -1 then "virtfs.uid=".data ++ fmt_d x.uid ++ ['\n'] else []) ++
      ((if x.gid ≠ -1 then "virtfs.gid=".data ++ fmt_d x.gid ++ ['\n'] else []) ++
      ((if x.mode ≠ -1 then "virtfs.mode=".data ++ fmt_d x.mode ++ ['\n'] else []) ++
      ((if x.rdev ≠ -1 then "virtfs.rdev=".data ++ fmt_d x.rdev ++ ['\n'] else []) ++ []))) := by
    simp [attr_text]
  rw [e]
  rw [attr_fold_opt_line f fd _ _ _ a _ (by decide) (by decide) _ (by omega)]
  rw [attr_fold_opt_line f fd _ _ _ _ _ (by decide) (by decide) _ (by omega)]
  rw [attr_fold_opt_line f fd _ _ _ _ _ (by decide) (by decide) _ (by omega)]
  rw [attr_fold_opt_line f fd _ _ _ _ _ (by decide) (by decide) _ (by omega)]
  rw [attr_fold_nil]
  by_cases h1 : x.uid = -1 <;> by_cases h2 : x.gid = -1 <;> by_cases h3 : x.mode = -1 <;>
    by_cases h4 : x.rdev = -1 <;> simp [h1, h2, h3, h4]

theorem stat_line_uid (v : Int) (st : Stat) (hlo : -2 ^ 31 ≤ v) (hhi : v < 2 ^ 31) :
    mapped_file_attr_line ("virtfs.uid=".data ++ fmt_d v ++ ['\n']) st =
      { st with st_uid := toUInt32 v } := by
  have e : "virtfs.uid=".data ++ fmt_d v ++ ['\n'] =
      'v' :: 'i' :: 'r' :: 't' :: 'f' :: 's' :: '.' :: 'u' :: 'i' :: 'd' :: '=' ::
        (fmt_d v ++ '\n' :: []) := by simp
  rw [e]
  simp only [mapped_file_attr_line, List.take, List.drop]
  rw [if_pos (by decide), atoi_fmt_d v [] hlo hhi]

theorem stat_line_gid (v : Int) (st : Stat) (hlo : -2 ^ 31 ≤ v) (hhi : v < 2 ^ 31) :
    mapped_file_attr_line ("virtfs.gid=".data ++ fmt_d v ++ ['\n']) st =
      { st with st_gid := toUInt32 v } := by
  have e : "virtfs.gid=".data ++ fmt_d v ++ ['\n'] =
      'v' :: 'i' :: 'r' :: 't' :: 'f' :: 's' :: '.' :: 'g' :: 'i' :: 'd' :: '=' ::
        (fmt_d v ++ '\n' :: []) := by simp
  rw [e]
  simp only [mapped_file_attr_line, List.take, List.drop]
  rw [if_neg (by decide), if_pos (by decide), atoi_fmt_d v [] hlo hhi]

theorem stat_line_mode (v : Int) (st : Stat) (hlo : -2 ^ 31 ≤ v) (hhi : v < 2 ^ 31) :
    mapped_file_attr_line ("virtfs.mode=".data ++ fmt_d v ++ ['\n']) st =
      { st with st_mode := toUInt32 v } := by
  have e : "virtfs.mode=".data ++ fmt_d v ++ ['\n'] =
      'v' :: 'i' :: 'r' :: 't' :: 'f' :: 's' :: '.' :: 'm' :: 'o' :: 'd' :: 'e' :: '=' ::
        (fmt_d v ++ '\n' :: []) := by simp
  rw [e]
  simp only [mapped_file_attr_line, List.take, List.drop]
  rw [if_neg (by decide), if_neg (by decide), if_pos (by decide), atoi_fmt_d v [] hlo hhi]

theorem stat_line_rdev (v : Int) (st : Stat) (hlo : -2 ^ 31 ≤ v) (hhi : v < 2 ^ 31) :
    mapped_file_attr_line ("virtfs.rdev=".data ++ fmt_d v ++ ['\n']) st =
      { st with st_rdev := toUInt64 v } := by
  have e : "virtfs.rdev=".data ++ fmt_d v ++ ['\n'] =
      'v' :: 'i' :: 'r' :: 't' :: 'f' :: 's' :: '.' :: 'r' :: 'd' :: 'e' :: 'v' :: '=' ::
        (fmt_d v ++ '\n' :: []) := by simp
  rw [e]
  simp only [mapped_file_attr_line, List.take, List.drop]
  rw [if_neg (by decide), if_neg (by decide), if_neg (by decide), if_pos (by decide),
    atoi_fmt_d v [] hlo hhi]

theorem set_line_uid (v : Int) (a : MapAttr) (hlo : -2 ^ 31 ≤ v) (hhi : v < 2 ^ 31) :
    set_mapped_file_attr_line ("virtfs.uid=".data ++ fmt_d v ++ ['\n']) a =
      { a with uid := v } := by
  have e : "virtfs.uid=".data ++ fmt_d v ++ ['\n'] =
      'v' :: 'i' :: 'r' :: 't' :: 'f' :: 's' :: '.' :: 'u' :: 'i' :: 'd' :: '=' ::
        (fmt_d v ++ '\n' :: []) := by simp
  rw [e]
  simp only [set_mapped_file_attr_line, List.take, List.drop]
  rw [if_pos (by decide), atoi_fmt_d v [] hlo hhi]

theorem set_line_gid (v : Int) (a : MapAttr) (hlo : -2 ^ 31 ≤ v) (hhi : v < 2 ^ 31) :
    set_mapped_file_attr_line ("virtfs.gid=".data ++ fmt_d v ++ ['\n']) a =
      { a with gid := v } := by
  have e : "virtfs.gid=".data ++ fmt_d v ++ ['\n'] =
      'v' :: 'i' :: 'r' :: 't' :: 'f' :: 's' :: '.' :: 'g' :: 'i' :: 'd' :: '=' ::
        (fmt_d v ++ '\n' :: []) := by simp
  rw [e]
  simp only [set_mapped_file_attr_line, List.take, List.drop]
  rw [if_neg (by decide), if_pos (by decide), atoi_fmt_d v [] hlo hhi]

theorem set_line_mode (v : Int) (a : MapAttr) (hlo : -2 ^ 31 ≤ v) (hhi : v < 2 ^ 31) :
    set_mapped_file_attr_line ("virtfs.mode=".data ++ fmt_d v ++ ['\n']) a =
      { a with mode := v } := by
  have e : "virtfs.mode=".data ++ fmt_d v ++ ['\n'] =
      'v' :: 'i' :: 'r' :: 't' :: 'f' :: 's' :: '.' :: 'm' :: 'o' :: 'd' :: 'e' :: '=' ::
        (fmt_d v ++ '\n' :: []) := by simp
  rw [e]
  simp only [set_mapped_file_attr_line, List.take, List.drop]
  rw [if_neg (by decide), if_neg (by decide), if_pos (by decide), atoi_fmt_d v [] hlo hhi]

theorem set_line_rdev (v : Int) (a : MapAttr) (hlo : -2 ^ 31 ≤ v) (hhi : v < 2 ^ 31) :
    set_mapped_file_attr_line ("virtfs.rdev=".data ++ fmt_d v ++ ['\n']) a =
      { a with rdev := v } := by
  have e : "virtfs.rdev=".data ++ fmt_d v ++ ['\n'] =
      'v' :: 'i' :: 'r' :: 't' :: 'f' :: 's' :: '.' :: 'r' :: 'd' :: 'e' :: 'v' :: '=' ::
        (fmt_d v ++ '\n' :: []) := by simp
  rw [e]
  simp only [set_mapped_file_attr_line, List.take, List.drop]
  rw [if_neg (by decide), if_neg (by decide), if_neg (by decide), if_pos (by decide),
    atoi_fmt_d v [] hlo hhi]

/-- Reading a rewritten shadow file into a stat buffer overlays exactly the
fields the file holds. -/
theorem stat_of_text (fd : Int) (x : MapAttr) (st : Stat) (hx : x.inRange) :
    mapped_file_attr_loop ((attr_text x).length + 1) ⟨fd, attr_text x⟩ st = overlay x st := by
  obtain ⟨⟨a1, a2⟩, ⟨b1, b2⟩, ⟨c1, c2⟩, ⟨d1, d2⟩⟩ := hx
  rw [mapped_file_attr_loop_eq, attr_fold_text]
  by_cases h1 : x.uid = -1 <;> by_cases h2 : x.gid = -1 <;> by_cases h3 : x.mode = -1 <;>
    by_cases h4 : x.rdev = -1 <;>
    simp only [h1, h2, h3, h4, overlay, stat_line_uid _ _ a1 a2, stat_line_gid _ _ b1 b2,
      stat_line_mode _ _ c1 c2, stat_line_rdev _ _ d1 d2, ne_eq, not_true_eq_false,
      not_false_eq_true, if_true, if_false, id]

/-- The read phase of an update recovers the values a rewritten shadow file holds. -/
theorem attr_of_text (fd : Int) (x : MapAttr) (hx : x.inRange) :
    set_mapped_file_attr_loop ((attr_text x).length + 1) ⟨fd, attr_text x⟩ ⟨-1, -1, -1, -1⟩
      = x := by
  obtain ⟨⟨a1, a2⟩, ⟨b1, b2⟩, ⟨c1, c2⟩, ⟨d1, d2⟩⟩ := hx
  rw [set_mapped_file_attr_loop_eq, attr_fold_text]
  by_cases h1 : x.uid = -1 <;> by_cases h2 : x.gid = -1 <;> by_cases h3 : x.mode = -1 <;>
    by_cases h4 : x.rdev = -1 <;>
    simp only [h1, h2, h3, h4, set_line_uid _ _ a1 a2, set_line_gid _ _ b1 b2,
      set_line_mode _ _ c1 c2, set_line_rdev _ _ d1 d2, ne_eq, not_true_eq_false,
      not_false_eq_true, if_true, if_false, id] <;>
    (cases x; simp_all)

/-! ### Effects of the host calls on the file system -/

theorem Host.next_eq (h : Host) :
    h.next = (h.plan.head?.join, { h with plan := h.plan.tail }) := by
  cases h with
  | mk fs fds nf er eu eg plan wb lo =>
    cases plan with
    | nil => rfl
    | cons o rest => cases o <;> rfl

theorem regular_not_link (m : Nat) : (S_IFREG ||| (m &&& 0o7777)) &&& S_IFMT = S_IFREG := by
  rw [Nat.and_comm, Nat.and_or_distrib_left, Nat.and_comm S_IFMT (m &&& 0o7777), Nat.and_assoc]
  have : (0o7777 : Nat) &&& S_IFMT = 0 := by decide
  rw [this]
  have : S_IFMT &&& S_IFREG = S_IFREG := by decide
  simp [this]

/-- What a successful `open` leaves behind. -/
theorem host_open_ok (p : String) (flags mode : Nat) (h : Host)
    (hs : (host_open p flags mode h).1 ≠ -1) :
    (∃ ino, (host_open p flags mode h).2.fs p = some ino ∧
      (flags &&& O_NOFOLLOW ≠ 0 → ino.isLnk = false) ∧
      (flags &&& O_TRUNC ≠ 0 → flags &&& O_ACCMODE ≠ O_RDONLY → ino.data = []) ∧
      (flags &&& O_TRUNC = 0 → flags &&& O_CREAT = 0 → h.fs p = some ino)) ∧
    (host_open p flags mode h).2.fds (host_open p flags mode h).1 = some ⟨p, 0⟩ ∧
    (∀ q, q ≠ p → (host_open p flags mode h).2.fs q = h.fs q) := by
  revert hs
  unfold host_open
  rw [Host.next_eq]
  cases hj : h.plan.head?.join with
  | some e => simp [Host.fail]
  | none =>
    simp only [Host.fail]
    cases hn : h.fs p with
    | none =>
      simp only []
      split_ifs with h1
      · intro _
        refine ⟨⟨_, if_pos rfl, ?_, ?_, ?_⟩, by simp [Host.setNode, Host.setFd],
          fun q hq => by simp [Host.setNode, Host.setFd, hq]⟩
        · intro _; simp [newInode, Inode.isLnk, regular_not_link]; decide
        · intro _ _; rfl
        · intro _ h0; exact absurd h0 h1
      · simp
    | some ino =>
      simp only []
      split_ifs with h1 h2 h3 h4
      · simp
      · simp
      · simp
      · intro _
        refine ⟨⟨_, if_pos rfl, ?_, ?_, ?_⟩, by simp [Host.setNode, Host.setFd],
          fun q hq => by simp [Host.setNode, Host.setFd, hq]⟩
        · intro hnf
          by_contra hc
          exact h2 ⟨by simpa using hc, hnf⟩
        · intro _ _; rfl
        · intro h0; exact absurd h0 h4.1
      · intro _
        refine ⟨⟨_, if_pos rfl, ?_, ?_, ?_⟩, by simp [Host.setNode, Host.setFd],
          fun q hq => by simp [Host.setNode, Host.setFd, hq]⟩
        · intro hnf
          by_contra hc
          exact h2 ⟨by simpa using hc, hnf⟩
        · intro h5 h6; exact absurd ⟨h5, h6⟩ h4
        · intro _ _; rfl

theorem host_open_fs_other (p : String) (flags mode : Nat) (h : Host) (q : String)
    (hq : q ≠ p) : (host_open p flags mode h).2.fs q = h.fs q := by
  unfold host_open
  rw [Host.next_eq]
  cases hj : h.plan.head?.join with
  | some e => simp [Host.fail]
  | none =>
    simp only [Host.fail]
    cases hn : h.fs p with
    | none => simp only []; split_ifs <;> simp [Host.setNode, Host.setFd, hq]
    | some ino => simp only []; split_ifs <;> simp [Host.setNode, Host.setFd, hq]

theorem host_open_mono (p : String) (flags mode : Nat) (h : Host) (q : String)
    (hq : (h.fs q).isSome) : ((host_open p flags mode h).2.fs q).isSome := by
  by_cases hqp : q = p
  · subst hqp
    revert hq
    unfold host_open
    rw [Host.next_eq]
    cases hj : h.plan.head?.join with
    | some e => simp [Host.fail]
    | none =>
      simp only [Host.fail]
      cases hn : h.fs q with
      | none => simp
      | some ino => simp only []; split_ifs <;> simp [Host.setNode, Host.setFd, hn]
  · rw [host_open_fs_other p flags mode h q hqp]; exact hq

theorem host_open_plan (p : String) (flags mode : Nat) (h : Host) :
    (host_open p flags mode h).2.plan = h.plan.tail := by
  unfold host_open
  rw [Host.next_eq]
  cases hj : h.plan.head?.join with
  | some e => simp [Host.fail]
  | none =>
    simp only [Host.fail]
    cases hn : h.fs p with
    | none => simp only []; split_ifs <;> simp [Host.setNode, Host.setFd]
    | some ino => simp only []; split_ifs <;> simp [Host.setNode, Host.setFd]

/-- Opening an existing object that is no symbolic link for reading succeeds
when no failure is scheduled. -/
theorem host_open_read_calm (p : String) (h : Host) (ino : Inode)
    (hj : h.plan.head?.join = none) (hn : h.fs p = some ino) (hl : ino.isLnk = false) :
    (host_open p (O_NOFOLLOW ||| O_RDONLY ||| O_BINARY) 0 h).1 ≠ -1 := by
  unfold host_open
  rw [Host.next_eq]
  simp only [hj, hn, hl]
  have e1 : (O_NOFOLLOW ||| O_RDONLY ||| O_BINARY) &&& O_CREAT = 0 := by decide
  have e2 : (O_NOFOLLOW ||| O_RDONLY ||| O_BINARY) &&& O_ACCMODE = O_RDONLY := by decide
  have e3 : (O_NOFOLLOW ||| O_RDONLY ||| O_BINARY) &&& O_TRUNC = 0 := by decide
  simp [e1, e2, e3, Host.setNode, Host.setFd]

theorem host_open_absent (p : String) (h : Host) (hn : h.fs p = none) :
    (host_open p (O_NOFOLLOW ||| O_RDONLY ||| O_BINARY) 0 h).1 = -1 := by
  unfold host_open
  rw [Host.next_eq]
  cases hj : h.plan.head?.join with
  | some e => simp [Host.fail]
  | none =>
    have e1 : (O_NOFOLLOW ||| O_RDONLY ||| O_BINARY) &&& O_CREAT = 0 := by decide
    simp [Host.fail, hn, e1]

theorem host_fdopen_fs (fd : Int) (h : Host) :
    (host_fdopen fd h).2.fs = h.fs ∧ (host_fdopen fd h).2.fds = h.fds ∧
    (host_fdopen fd h).2.plan = h.plan.tail := by
  unfold host_fdopen
  rw [Host.next_eq]
  cases hj : h.plan.head?.join with
  | some e => simp
  | none =>
    simp only []
    cases hf : h.fds fd with
    | none => simp
    | some f => simp only []; cases hn : h.fs f.path <;> simp [Host.setBuf]

theorem host_fdopen_some (fd : Int) (h : Host) (fp : FILE)
    (he : (host_fdopen fd h).1 = some fp) :
    fp.fd = fd ∧ ∀ f ino, h.fds fd = some f → h.fs f.path = some ino →
      fp.rbuf = ino.data.drop f.pos := by
  revert he
  unfold host_fdopen
  rw [Host.next_eq]
  cases hj : h.plan.head?.join with
  | some e => simp
  | none =>
    simp only []
    cases hf : h.fds fd with
    | none => simp
    | some f =>
      simp only []
      cases hn : h.fs f.path with
      | none =>
        intro he
        simp at he
        subst he
        exact ⟨rfl, fun f' ino hf' hino => by simp at hf'; subst hf'; simp [hn] at hino⟩
      | some ino =>
        intro he
        simp at he
        subst he
        exact ⟨rfl, fun f' ino' hf' hino => by
          simp at hf'; subst hf'; rw [hn] at hino; simp at hino; subst hino; rfl⟩

theorem host_fdopen_calm (fd : Int) (h : Host) (f : OpenFile)
    (hj : h.plan.head?.join = none) (hf : h.fds fd = some f) :
    (host_fdopen fd h).1.isSome := by
  unfold host_fdopen
  rw [Host.next_eq]
  simp only [hj, hf]
  cases hn : h.fs f.path <;> simp

theorem host_close_fs (fd : Int) (h : Host) :
    (host_close fd h).2.fs = h.fs ∧ (host_close fd h).2.plan = h.plan.tail := by
  unfold host_close
  rw [Host.next_eq]
  cases hj : h.plan.head?.join with
  | some e => simp [Host.fail]
  | none =>
    simp only [Host.fail]
    cases hf : h.fds fd <;> simp [Host.setFd]

theorem local_fopen_r_eq (p : String) (h : Host) :
    local_fopen p "r" h =
      if (host_open p (O_NOFOLLOW ||| O_RDONLY ||| O_BINARY) 0 h).1 = -1 then
        (none, (host_open p (O_NOFOLLOW ||| O_RDONLY ||| O_BINARY) 0 h).2)
      else
        match host_fdopen (host_open p (O_NOFOLLOW ||| O_RDONLY ||| O_BINARY) 0 h).1
            (host_open p (O_NOFOLLOW ||| O_RDONLY ||| O_BINARY) 0 h).2 with
        | (none, h1) =>
          (none, (host_close (host_open p (O_NOFOLLOW ||| O_RDONLY ||| O_BINARY) 0 h).1 h1).2)
        | (some fp, h1) => (some fp, h1) := by
  unfold local_fopen
  have e : ("r" : String).data.head? = some 'r' := by decide
  simp only [e, if_true]

theorem local_fopen_w_eq (p : String) (h : Host) :
    local_fopen p "w" h =
      if (host_open p (O_NOFOLLOW ||| (O_WRONLY ||| O_TRUNC ||| O_CREAT) ||| O_BINARY)
          0o666 h).1 = -1 then
        (none, (host_open p (O_NOFOLLOW ||| (O_WRONLY ||| O_TRUNC ||| O_CREAT) ||| O_BINARY)
          0o666 h).2)
      else
        match host_fdopen
            (host_open p (O_NOFOLLOW ||| (O_WRONLY ||| O_TRUNC ||| O_CREAT) ||| O_BINARY)
              0o666 h).1
            (host_open p (O_NOFOLLOW ||| (O_WRONLY ||| O_TRUNC ||| O_CREAT) ||| O_BINARY)
              0o666 h).2 with
        | (none, h1) =>
          (none, (host_close
            (host_open p (O_NOFOLLOW ||| (O_WRONLY ||| O_TRUNC ||| O_CREAT) ||| O_BINARY)
              0o666 h).1 h1).2)
        | (some fp, h1) => (some fp, h1) := by
  unfold local_fopen
  have e : ("w" : String).data.head? = some 'w' := by decide
  have e' : ¬ ((some 'w' : Option Char) = some 'r') := by decide
  simp only [e, e', if_true, if_false]

theorem host_open_read_fs (p : String) (h : Host) (q : String) :
    (host_open p (O_NOFOLLOW ||| O_RDONLY ||| O_BINARY) 0 h).2.fs q = h.fs q := by
  by_cases hqp : q = p
  · subst hqp
    unfold host_open
    rw [Host.next_eq]
    cases hj : h.plan.head?.join with
    | some e => simp [Host.fail]
    | none =>
      have e1 : (O_NOFOLLOW ||| O_RDONLY ||| O_BINARY) &&& O_CREAT = 0 := by decide
      have e2 : (O_NOFOLLOW ||| O_RDONLY ||| O_BINARY) &&& O_ACCMODE = O_RDONLY := by decide
      have e3 : (O_NOFOLLOW ||| O_RDONLY ||| O_BINARY) &&& O_TRUNC = 0 := by decide
      simp only [Host.fail, e1, e2, e3]
      cases hn : h.fs q with
      | none => simp [hn]
      | some ino =>
        simp only []
        split_ifs with a1 a2 a3 a4 <;> simp [Host.setNode, Host.setFd, hn]
        exact absurd rfl a4.1
  · exact host_open_fs_other p _ _ h q hqp

/-- A successful `local_fopen(path, "r")` found an object that is no symbolic
link and reads its whole content. -/
theorem local_fopen_r_some (p : String) (h : Host) (fp : FILE)
    (he : (local_fopen p "r" h).1 = some fp) :
    ∃ ino, h.fs p = some ino ∧ ino.isLnk = false ∧ fp.rbuf = ino.data := by
  rw [local_fopen_r_eq] at he
  by_cases ho : (host_open p (O_NOFOLLOW ||| O_RDONLY ||| O_BINARY) 0 h).1 = -1
  · simp [ho] at he
  · simp only [ho, if_false] at he
    obtain ⟨⟨ino, h1, h2, -, h4⟩, hfd, -⟩ := host_open_ok p _ 0 h ho
    have hino := h4 (by decide) (by decide)
    refine ⟨ino, hino, h2 (by decide), ?_⟩
    generalize hr : host_fdopen (host_open p (O_NOFOLLOW ||| O_RDONLY ||| O_BINARY) 0 h).1
      (host_open p (O_NOFOLLOW ||| O_RDONLY ||| O_BINARY) 0 h).2 = r at he
    rcases r with ⟨_ | fp', h1'⟩
    · simp at he
    · simp at he
      subst he
      have := (host_fdopen_some _ _ fp' (by rw [hr])).2 _ ino hfd h1
      simpa using this

theorem local_fopen_r_fs (p : String) (h : Host) (q : String) :
    (local_fopen p "r" h).2.fs q = h.fs q := by
  rw [local_fopen_r_eq]
  split_ifs
  · exact host_open_read_fs p h q
  · generalize hr : host_fdopen (host_open p (O_NOFOLLOW ||| O_RDONLY ||| O_BINARY) 0 h).1
      (host_open p (O_NOFOLLOW ||| O_RDONLY ||| O_BINARY) 0 h).2 = r
    have hf := (host_fdopen_fs (host_open p (O_NOFOLLOW ||| O_RDONLY ||| O_BINARY) 0 h).1
      (host_open p (O_NOFOLLOW ||| O_RDONLY ||| O_BINARY) 0 h).2).1
    rw [hr] at hf
    rcases r with ⟨_ | fp', h1'⟩
    · simp only [(host_close_fs _ _).1]
      simp only at hf
      rw [hf]; exact host_open_read_fs p h q
    · simp only at hf ⊢
      rw [hf]; exact host_open_read_fs p h q

theorem local_fopen_r_plan (p : String) (h : Host) (hp : h.plan = []) :
    (local_fopen p "r" h).2.plan = [] := by
  rw [local_fopen_r_eq]
  have h1 : (host_open p (O_NOFOLLOW ||| O_RDONLY ||| O_BINARY) 0 h).2.plan = [] := by
    rw [host_open_plan, hp]; rfl
  split_ifs
  · exact h1
  · generalize hr : host_fdopen (host_open p (O_NOFOLLOW ||| O_RDONLY ||| O_BINARY) 0 h).1
      (host_open p (O_NOFOLLOW ||| O_RDONLY ||| O_BINARY) 0 h).2 = r
    have hf := (host_fdopen_fs (host_open p (O_NOFOLLOW ||| O_RDONLY ||| O_BINARY) 0 h).1
      (host_open p (O_NOFOLLOW ||| O_RDONLY ||| O_BINARY) 0 h).2).2.2
    rw [hr, h1] at hf
    rcases r with ⟨_ | fp', h1'⟩
    · simp only [(host_close_fs _ _).2]
      simp only at hf
      rw [hf]; rfl
    · simpa using hf

theorem local_fopen_r_calm (p : String) (h : Host) (ino : Inode) (hp : h.plan = [])
    (hn : h.fs p = some ino) (hl : ino.isLnk = false) :
    ∃ fp, (local_fopen p "r" h).1 = some fp := by
  rw [local_fopen_r_eq]
  have hj : h.plan.head?.join = none := by rw [hp]; rfl
  have ho := host_open_read_calm p h ino hj hn hl
  obtain ⟨-, hfd, -⟩ := host_open_ok p _ 0 h ho
  have hj2 : (host_open p (O_NOFOLLOW ||| O_RDONLY ||| O_BINARY) 0 h).2.plan.head?.join
      = none := by rw [host_open_plan, hp]; rfl
  have := host_fdopen_calm _ _ _ hj2 hfd
  simp only [ho, if_false]
  generalize host_fdopen (host_open p (O_NOFOLLOW ||| O_RDONLY ||| O_BINARY) 0 h).1
      (host_open p (O_NOFOLLOW ||| O_RDONLY ||| O_BINARY) 0 h).2 = r at this
  rcases r with ⟨_ | fp', h1'⟩
  · simp at this
  · exact ⟨fp', rfl⟩

theorem local_fopen_r_absent (p : String) (h : Host) (hn : h.fs p = none) :
    (local_fopen p "r" h).1 = none := by
  rw [local_fopen_r_eq]
  simp [host_open_absent p h hn]

/-- A successful `local_fopen(path, "w")` leaves an empty file that is no
symbolic link, with the stream positioned at its start. -/
theorem local_fopen_w_some (p : String) (h : Host) (fp : FILE)
    (he : (local_fopen p "w" h).1 = some fp) :
    ∃ ino, (local_fopen p "w" h).2.fs p = some ino ∧ ino.data = [] ∧ ino.isLnk = false ∧
      (local_fopen p "w" h).2.fds fp.fd = some ⟨p, 0⟩ := by
  rw [local_fopen_w_eq] at he ⊢
  by_cases ho : (host_open p (O_NOFOLLOW ||| (O_WRONLY ||| O_TRUNC ||| O_CREAT) ||| O_BINARY)
      0o666 h).1 = -1
  · simp [ho] at he
  · simp only [ho, if_false] at he ⊢
    obtain ⟨⟨ino, h1, h2, h3, -⟩, hfd, -⟩ := host_open_ok p _ 0o666 h ho
    generalize hr : host_fdopen
      (host_open p (O_NOFOLLOW ||| (O_WRONLY ||| O_TRUNC ||| O_CREAT) ||| O_BINARY) 0o666 h).1
      (host_open p (O_NOFOLLOW ||| (O_WRONLY ||| O_TRUNC ||| O_CREAT) ||| O_BINARY) 0o666 h).2
      = r at he ⊢
    have hf := host_fdopen_fs
      (host_open p (O_NOFOLLOW ||| (O_WRONLY ||| O_TRUNC ||| O_CREAT) ||| O_BINARY) 0o666 h).1
      (host_open p (O_NOFOLLOW ||| (O_WRONLY ||| O_TRUNC ||| O_CREAT) ||| O_BINARY) 0o666 h).2
    have hs := host_fdopen_some
      (host_open p (O_NOFOLLOW ||| (O_WRONLY ||| O_TRUNC ||| O_CREAT) ||| O_BINARY) 0o666 h).1
      (host_open p (O_NOFOLLOW ||| (O_WRONLY ||| O_TRUNC ||| O_CREAT) ||| O_BINARY) 0o666 h).2
    rw [hr] at hf hs
    rcases r with ⟨_ | fp', h1'⟩
    · simp at he
    · simp only [Option.some.injEq] at he
      subst he
      simp only at hf ⊢
      have hfdeq := (hs fp' rfl).1
      refine ⟨ino, by rw [hf.1]; exact h1, h3 (by decide) (by decide), h2 (by decide), ?_⟩
      rw [hf.2.1, hfdeq]; exact hfd

theorem local_fopen_w_mono (p : String) (h : Host) (q : String) (hq : (h.fs q).isSome) :
    ((local_fopen p "w" h).2.fs q).isSome := by
  rw [local_fopen_w_eq]
  have hm := host_open_mono p
    (O_NOFOLLOW ||| (O_WRONLY ||| O_TRUNC ||| O_CREAT) ||| O_BINARY) 0o666 h q hq
  split_ifs
  · exact hm
  · generalize hr : host_fdopen
      (host_open p (O_NOFOLLOW ||| (O_WRONLY ||| O_TRUNC ||| O_CREAT) ||| O_BINARY) 0o666 h).1
      (host_open p (O_NOFOLLOW ||| (O_WRONLY ||| O_TRUNC ||| O_CREAT) ||| O_BINARY) 0o666 h).2
      = r
    have hf := (host_fdopen_fs
      (host_open p (O_NOFOLLOW ||| (O_WRONLY ||| O_TRUNC ||| O_CREAT) ||| O_BINARY) 0o666 h).1
      (host_open p (O_NOFOLLOW ||| (O_WRONLY ||| O_TRUNC ||| O_CREAT) ||| O_BINARY)
        0o666 h).2).1
    rw [hr] at hf
    rcases r with ⟨_ | fp', h1'⟩
    · simp only [(host_close_fs _ _).1]
      simp only at hf
      rw [hf]; exact hm
    · simp only at hf ⊢
      rw [hf]; exact hm

theorem toInt32_range (n : Nat) : -2 ^ 31 ≤ toInt32 n ∧ toInt32 n < 2 ^ 31 := by
  unfold toInt32
  split_ifs <;> omega

theorem atoi_range (s : List Char) : -2 ^ 31 ≤ atoi s ∧ atoi s < 2 ^ 31 := by
  unfold atoi
  split
  · decide
  · split_ifs <;> exact toInt32_range _

theorem set_line_inRange (buf : List Char) (a : MapAttr) (ha : a.inRange) :
    (set_mapped_file_attr_line buf a).inRange := by
  obtain ⟨h1, h2, h3, h4⟩ := ha
  unfold set_mapped_file_attr_line
  split_ifs
  · exact ⟨atoi_range _, h2, h3, h4⟩
  · exact ⟨h1, atoi_range _, h3, h4⟩
  · exact ⟨h1, h2, atoi_range _, h4⟩
  · exact ⟨h1, h2, h3, atoi_range _⟩
  · exact ⟨h1, h2, h3, h4⟩

theorem set_loop_inRange (n : Nat) : ∀ (fp : FILE) (a : MapAttr), a.inRange →
    (set_mapped_file_attr_loop n fp a).inRange := by
  induction n with
  | zero => intro fp a ha; exact ha
  | succ k ih =>
    intro fp a ha
    simp only [set_mapped_file_attr_loop]
    split
    · exact ha
    · exact ih _ _ (set_line_inRange _ _ ha)

theorem init_inRange : (⟨-1, -1, -1, -1⟩ : MapAttr).inRange := by
  unfold MapAttr.inRange; decide

theorem old_attr_inRange (p : String) (h : Host) : (old_attr p h).inRange := by
  unfold old_attr
  split
  · exact set_loop_inRange _ _ _ init_inRange
  · exact init_inRange

theorem merge_inRange (credp : FsCred) (a : MapAttr) (ha : a.inRange) :
    (set_mapped_file_attr_merge credp a).inRange := by
  obtain ⟨h1, h2, h3, h4⟩ := ha
  unfold set_mapped_file_attr_merge MapAttr.inRange
  refine ⟨?_, ?_, ?_, ?_⟩ <;> simp only <;> split_ifs <;>
    first | exact toInt32_range _ | assumption

theorem host_open_lost (p : String) (flags mode : Nat) (h : Host) :
    (host_open p flags mode h).2.lost = h.lost := by
  unfold host_open
  rw [Host.next_eq]
  cases hj : h.plan.head?.join with
  | some e => simp [Host.fail]
  | none =>
    simp only [Host.fail]
    cases hn : h.fs p with
    | none => simp only []; split_ifs <;> simp [Host.setNode, Host.setFd]
    | some ino => simp only []; split_ifs <;> simp [Host.setNode, Host.setFd]

theorem host_close_lost (fd : Int) (h : Host) : (host_close fd h).2.lost = h.lost := by
  unfold host_close
  rw [Host.next_eq]
  cases hj : h.plan.head?.join with
  | some e => simp [Host.fail]
  | none => simp only [Host.fail]; cases hf : h.fds fd <;> simp [Host.setFd]

theorem host_mkdir_lost (p : String) (mode : Nat) (h : Host) :
    (host_mkdir p mode h).2.lost = h.lost := by
  unfold host_mkdir
  rw [Host.next_eq]
  cases hj : h.plan.head?.join with
  | some e => simp [Host.fail]
  | none => simp only [Host.fail]; cases hn : h.fs p <;> simp [Host.setNode]

theorem host_fdopen_lost (fd : Int) (h : Host) : (host_fdopen fd h).2.lost = h.lost := by
  unfold host_fdopen
  rw [Host.next_eq]
  cases hj : h.plan.head?.join with
  | some e => simp
  | none =>
    simp only []
    cases hf : h.fds fd with
    | none => simp
    | some f => simp only []; cases hn : h.fs f.path <;> simp [Host.setBuf]

/-- A stream that `fdopen` returns has an empty buffer. -/
theorem host_fdopen_buf (fd : Int) (h : Host) (fp : FILE)
    (he : (host_fdopen fd h).1 = some fp) : (host_fdopen fd h).2.wbuf fp.fd = [] := by
  revert he
  unfold host_fdopen
  rw [Host.next_eq]
  cases hj : h.plan.head?.join with
  | some e => simp
  | none =>
    simp only []
    cases hf : h.fds fd with
    | none => simp
    | some f =>
      simp only []
      cases hn : h.fs f.path <;>
      · intro he
        simp at he
        subst he
        simp [Host.setBuf]

theorem local_fopen_lost (p mode : String) (h : Host) :
    (local_fopen p mode h).2.lost = h.lost := by
  unfold local_fopen
  simp only []
  split
  · rfl
  · rename_i flags o_mode _
    split_ifs
    · exact host_open_lost _ _ _ _
    · have h1 := host_fdopen_lost (host_open p (flags ||| O_BINARY) o_mode h).1
        (host_open p (flags ||| O_BINARY) o_mode h).2
      generalize host_fdopen (host_open p (flags ||| O_BINARY) o_mode h).1
        (host_open p (flags ||| O_BINARY) o_mode h).2 = r at h1
      rcases r with ⟨_ | fp, h2⟩
      · simp only [] at h1 ⊢
        rw [host_close_lost, h1, host_open_lost]
      · simp only [] at h1 ⊢
        rw [h1, host_open_lost]

theorem local_fopen_buf (p mode : String) (h : Host) (fp : FILE)
    (he : (local_fopen p mode h).1 = some fp) : (local_fopen p mode h).2.wbuf fp.fd = [] := by
  revert he
  unfold local_fopen
  simp only []
  split
  · simp
  · rename_i flags o_mode _
    split_ifs
    · simp
    · have h1 := host_fdopen_buf (host_open p (flags ||| O_BINARY) o_mode h).1
        (host_open p (flags ||| O_BINARY) o_mode h).2
      generalize host_fdopen (host_open p (flags ||| O_BINARY) o_mode h).1
        (host_open p (flags ||| O_BINARY) o_mode h).2 = r at h1
      rcases r with ⟨_ | fp', h2⟩
      · simp
      · intro he
        simp only [Option.some.injEq] at he
        subst he
        exact h1 fp' rfl

/-- What one conditional `fprintf` does: the file system and the descriptors stay
as they are, and unless the call fails its text is appended to the buffer. -/
theorem print_step (fp : FILE) (c : Prop) [Decidable c] (text : List Char) (h : Host) :
    (if c then (host_fprintf fp text h).2 else h).fs = h.fs ∧
    (if c then (host_fprintf fp text h).2 else h).fds = h.fds ∧
    h.lost ≤ (if c then (host_fprintf fp text h).2 else h).lost ∧
    ((if c then (host_fprintf fp text h).2 else h).lost = h.lost →
      (if c then (host_fprintf fp text h).2 else h).wbuf fp.fd =
        h.wbuf fp.fd ++ (if c then text else [])) := by
  by_cases hc : c
  · simp only [hc, if_true]
    unfold host_fprintf
    rw [Host.next_eq]
    cases hj : h.plan.head?.join with
    | some e => simp
    | none => simp [Host.setBuf]
  · simp [hc]

/-- The four `fprintf` calls leave the file system as it is; when none of them
fails the buffer of the stream holds the text of the fields that are not `-1`. -/
theorem print_spec (fp : FILE) (a : MapAttr) (h : Host) :
    (set_mapped_file_attr_print fp a h).fs = h.fs ∧
    (set_mapped_file_attr_print fp a h).fds = h.fds ∧
    h.lost ≤ (set_mapped_file_attr_print fp a h).lost ∧
    ((set_mapped_file_attr_print fp a h).lost = h.lost →
      (set_mapped_file_attr_print fp a h).wbuf fp.fd = h.wbuf fp.fd ++ attr_text a) := by
  unfold set_mapped_file_attr_print attr_text
  dsimp only
  obtain ⟨a1, a2, a3, a4⟩ := print_step fp (a.uid ≠ -1)
    ("virtfs.uid=".data ++ fmt_d a.uid ++ ['\n']) h
  obtain ⟨b1, b2, b3, b4⟩ := print_step fp (a.gid ≠ -1)
    ("virtfs.gid=".data ++ fmt_d a.gid ++ ['\n'])
    (if a.uid ≠ -1 then (host_fprintf fp ("virtfs.uid=".data ++ fmt_d a.uid ++ ['\n']) h).2
      else h)
  generalize (if a.uid ≠ -1 then
    (host_fprintf fp ("virtfs.uid=".data ++ fmt_d a.uid ++ ['\n']) h).2 else h) = h1
    at a1 a2 a3 a4 b1 b2 b3 b4 ⊢
  obtain ⟨c1, c2, c3, c4⟩ := print_step fp (a.mode ≠ -1)
    ("virtfs.mode=".data ++ fmt_d a.mode ++ ['\n'])
    (if a.gid ≠ -1 then (host_fprintf fp ("virtfs.gid=".data ++ fmt_d a.gid ++ ['\n']) h1).2
      else h1)
  generalize (if a.gid ≠ -1 then
    (host_fprintf fp ("virtfs.gid=".data ++ fmt_d a.gid ++ ['\n']) h1).2 else h1) = h2
    at b1 b2 b3 b4 c1 c2 c3 c4 ⊢
  obtain ⟨d1, d2, d3, d4⟩ := print_step fp (a.rdev ≠ -1)
    ("virtfs.rdev=".data ++ fmt_d a.rdev ++ ['\n'])
    (if a.mode ≠ -1 then (host_fprintf fp ("virtfs.mode=".data ++ fmt_d a.mode ++ ['\n']) h2).2
      else h2)
  generalize (if a.mode ≠ -1 then
    (host_fprintf fp ("virtfs.mode=".data ++ fmt_d a.mode ++ ['\n']) h2).2 else h2) = h3
    at c1 c2 c3 c4 d1 d2 d3 d4 ⊢
  generalize (if a.rdev ≠ -1 then
    (host_fprintf fp ("virtfs.rdev=".data ++ fmt_d a.rdev ++ ['\n']) h3).2 else h3) = h4
    at d1 d2 d3 d4 ⊢
  refine ⟨by rw [d1, c1, b1, a1], by rw [d2, c2, b2, a2], by omega, ?_⟩
  intro hl
  rw [d4 (by omega), c4 (by omega), b4 (by omega), a4 (by omega)]
  simp only [List.append_assoc]

theorem host_fclose_lost (fp : FILE) (h : Host) : h.lost ≤ (host_fclose fp h).2.lost := by
  unfold host_fclose
  rw [Host.next_eq]
  cases hj : h.plan.head?.join with
  | some e => simp only [Host.setBuf, Host.setFd]; split_ifs <;> simp
  | none =>
    simp only []
    split_ifs
    · simp [Host.setFd]
    · split <;> simp [Host.setBuf, Host.setFd, Host.setNode]

/-- Closing a stream with an empty buffer, a read stream for one, changes no
file. -/
theorem host_fclose_read (fp : FILE) (h : Host) (hb : h.wbuf fp.fd = []) :
    (host_fclose fp h).2.fs = h.fs ∧ (host_fclose fp h).2.lost = h.lost ∧
    (host_fclose fp h).2.plan = h.plan.tail := by
  unfold host_fclose
  rw [Host.next_eq]
  cases hj : h.plan.head?.join with
  | some e => simp [Host.setBuf, Host.setFd, hb]
  | none => simp [Host.setFd, hb]

/-- Closing a stream changes at most the file of its descriptor. -/
theorem host_fclose_other (fp : FILE) (h : Host) (f : OpenFile) (q : String)
    (hf : h.fds fp.fd = some f) (hq : q ≠ f.path) :
    (host_fclose fp h).2.fs q = h.fs q := by
  unfold host_fclose
  rw [Host.next_eq]
  cases hj : h.plan.head?.join with
  | some e => simp [Host.setBuf, Host.setFd]
  | none =>
    simp only []
    split_ifs
    · simp [Host.setFd]
    · split
      · simp [Host.setBuf, Host.setFd]
      · rename_i f' ino he
        simp only [hf, Option.some_bind, Option.map_eq_some'] at he
        obtain ⟨ino', -, he⟩ := he
        simp only [Prod.mk.injEq] at he
        obtain ⟨rfl, -⟩ := he
        simp [Host.setBuf, Host.setFd, Host.setNode, hq]

theorem host_fclose_mono (fp : FILE) (h : Host) (q : String) (hq : (h.fs q).isSome) :
    ((host_fclose fp h).2.fs q).isSome := by
  unfold host_fclose
  rw [Host.next_eq]
  cases hj : h.plan.head?.join with
  | some e => simpa [Host.setBuf, Host.setFd] using hq
  | none =>
    simp only []
    split_ifs
    · simpa [Host.setFd] using hq
    · split
      · simpa [Host.setBuf, Host.setFd] using hq
      · rename_i f' ino he
        simp only [Host.setBuf, Host.setFd, Host.setNode]
        by_cases hqp : q = f'.path <;> simp [hqp, hq]

/-- Closing a write stream on an empty file: the file stays a file of the same
kind, and when no output is lost it holds the buffer. -/
theorem host_fclose_flush (fp : FILE) (h : Host) (p : String) (ino : Inode)
    (hf : h.fds fp.fd = some ⟨p, 0⟩) (hn : h.fs p = some ino) (hd : ino.data = []) :
    (∃ ino', (host_fclose fp h).2.fs p = some ino' ∧ ino'.st_mode = ino.st_mode) ∧
    ((host_fclose fp h).2.lost = h.lost →
      (host_fclose fp h).2.fs p = some { ino with data := h.wbuf fp.fd }) := by
  have e0 : ino = { ino with data := [] } := by cases ino; simp_all
  unfold host_fclose
  rw [Host.next_eq]
  cases hj : h.plan.head?.join with
  | some e =>
    refine ⟨⟨ino, by simpa [Host.setBuf, Host.setFd] using hn, rfl⟩, ?_⟩
    by_cases hb : h.wbuf fp.fd = []
    · intro _
      simp only [Host.setBuf, Host.setFd, hb]
      rw [hn]; exact congrArg some e0
    · simp [Host.setBuf, Host.setFd, hb]
  | none =>
    simp only []
    by_cases hb : h.wbuf fp.fd = []
    · simp only [hb, if_true, Host.setFd]
      refine ⟨⟨ino, hn, rfl⟩, fun _ => ?_⟩
      rw [hn]; exact congrArg some e0
    · simp only [hb, if_false, hf, hn, Option.some_bind, Option.map_some']
      simp [Host.setBuf, Host.setFd, Host.setNode, hd]

theorem update_ret (p : String) (credp : FsCred) (a : MapAttr) (ret : Int) (h : Host) :
    (set_mapped_file_attr_update p credp a ret h).1 = -1 ∨
    (set_mapped_file_attr_update p credp a ret h).1 = ret := by
  rcases hr : local_fopen p "w" h with ⟨_ | fp, h1⟩
  · left; simp only [set_mapped_file_attr_update, hr]
  · right; simp only [set_mapped_file_attr_update, hr]

theorem update_lost (p : String) (credp : FsCred) (a : MapAttr) (ret : Int) (h : Host) :
    h.lost ≤ (set_mapped_file_attr_update p credp a ret h).2.lost := by
  have hl := local_fopen_lost p "w" h
  rcases hr : local_fopen p "w" h with ⟨_ | fp, h1⟩
  · rw [hr] at hl
    simp only [set_mapped_file_attr_update, hr]
    simp only at hl
    omega
  · rw [hr] at hl
    simp only [set_mapped_file_attr_update, hr]
    simp only at hl
    have h2 := (print_spec fp (set_mapped_file_attr_merge credp a) h1).2.2.1
    have h3 := host_fclose_lost fp
      (set_mapped_file_attr_print fp (set_mapped_file_attr_merge credp a) h1)
    omega

/-- An update that does not fail leaves a shadow file that is no symbolic link;
when none of its output is lost the file holds the merge of the request into the
values read. -/
theorem update_ok (p : String) (credp : FsCred) (a : MapAttr) (ret : Int) (h : Host)
    (hs : (set_mapped_file_attr_update p credp a ret h).1 ≠ -1) :
    ∃ ino, (set_mapped_file_attr_update p credp a ret h).2.fs p = some ino ∧
      ino.isLnk = false ∧
      ((set_mapped_file_attr_update p credp a ret h).2.lost = h.lost →
        ino.data = attr_text (set_mapped_file_attr_merge credp a)) := by
  have hw := local_fopen_w_some p h
  have hb := local_fopen_buf p "w" h
  have hl := local_fopen_lost p "w" h
  rcases hr : local_fopen p "w" h with ⟨_ | fp, h1⟩
  · simp [set_mapped_file_attr_update, hr] at hs
  · rw [hr] at hw hb hl
    obtain ⟨ino, h1', h2, h3, h4⟩ := hw fp rfl
    have hb' := hb fp rfl
    simp only [set_mapped_file_attr_update, hr] at h1' h4 hb' hl ⊢
    obtain ⟨p1, p2, p3, p4⟩ := print_spec fp (set_mapped_file_attr_merge credp a) h1
    have hc := host_fclose_lost fp
      (set_mapped_file_attr_print fp (set_mapped_file_attr_merge credp a) h1)
    obtain ⟨⟨ino', f1, f2⟩, f3⟩ := host_fclose_flush fp
      (set_mapped_file_attr_print fp (set_mapped_file_attr_merge credp a) h1) p ino
      (by rw [p2]; exact h4) (by rw [p1]; exact h1') h2
    refine ⟨ino', f1, ?_, ?_⟩
    · simpa [Inode.isLnk, f2] using h3
    · intro hlost
      have e := f3 (by omega)
      rw [f1] at e
      simp only [Option.some.injEq] at e
      rw [e, p4 (by omega), hb']
      exact List.nil_append _

theorem update_mono (p : String) (credp : FsCred) (a : MapAttr) (ret : Int) (h : Host)
    (q : String) (hq : (h.fs q).isSome) :
    ((set_mapped_file_attr_update p credp a ret h).2.fs q).isSome := by
  have hw := local_fopen_w_mono p h q hq
  rcases hr : local_fopen p "w" h with ⟨_ | fp, h1⟩
  · rw [hr] at hw
    simp only [set_mapped_file_attr_update, hr]
    exact hw
  · rw [hr] at hw
    simp only [set_mapped_file_attr_update, hr]
    apply host_fclose_mono
    rw [(print_spec fp _ h1).1]
    exact hw

theorem host_mkdir_mono (p : String) (mode : Nat) (h : Host) (q : String)
    (hq : (h.fs q).isSome) : ((host_mkdir p mode h).2.fs q).isSome := by
  unfold host_mkdir
  rw [Host.next_eq]
  cases hj : h.plan.head?.join with
  | some e => simpa [Host.fail] using hq
  | none =>
    simp only [Host.fail]
    cases hn : h.fs p with
    | none =>
      simp only [Host.setNode]
      by_cases hqp : q = p <;> simp [hqp, hq]
    | some ino => simpa using hq

theorem create_attr_dir_mono (ctx : FsContext) (path : String) (h : Host) (q : String)
    (hq : (h.fs q).isSome) : ((local_create_mapped_attr_dir ctx path h).2.fs q).isSome := by
  unfold local_create_mapped_attr_dir
  have := host_mkdir_mono (DELIMITER_IN_PATH2 ctx.fs_root (dirname path) VIRTFS_META_DIR)
    0o700 h q hq
  simp only
  split_ifs <;> exact this

theorem create_attr_dir_ret (ctx : FsContext) (path : String) (h : Host) :
    (local_create_mapped_attr_dir ctx path h).1 = 0 ∨
    (local_create_mapped_attr_dir ctx path h).1 = -1 := by
  unfold local_create_mapped_attr_dir
  have := host_mkdir_ret (DELIMITER_IN_PATH2 ctx.fs_root (dirname path) VIRTFS_META_DIR)
    0o700 h
  simp only
  split_ifs
  · left; rfl
  · exact this

theorem create_attr_dir_lost (ctx : FsContext) (path : String) (h : Host) :
    (local_create_mapped_attr_dir ctx path h).2.lost = h.lost := by
  unfold local_create_mapped_attr_dir
  have := host_mkdir_lost (DELIMITER_IN_PATH2 ctx.fs_root (dirname path) VIRTFS_META_DIR)
    0o700 h
  simp only
  split_ifs <;> exact this

theorem set_attr_lost (ctx : FsContext) (path : String) (credp : FsCred) (h : Host) :
    h.lost ≤ (local_set_mapped_file_attr ctx path credp h).2.lost := by
  have hl := local_fopen_lost (local_mapped_attr_path ctx path) "r" h
  rcases hr : local_fopen (local_mapped_attr_path ctx path) "r" h with ⟨_ | fp, h1⟩
  · rw [hr] at hl
    simp only [local_set_mapped_file_attr, hr]
    simp only at hl
    have hc := create_attr_dir_lost ctx path h1
    split_ifs
    · omega
    · have := update_lost (local_mapped_attr_path ctx path) credp ⟨-1, -1, -1, -1⟩
        (local_create_mapped_attr_dir ctx path h1).1 (local_create_mapped_attr_dir ctx path h1).2
      omega
  · rw [hr] at hl
    simp only [local_set_mapped_file_attr, hr]
    simp only at hl
    have hc := host_fclose_lost fp h1
    have := update_lost (local_mapped_attr_path ctx path) credp
      (set_mapped_file_attr_loop (fp.rbuf.length + 1) fp ⟨-1, -1, -1, -1⟩) 0
      (host_fclose fp h1).2
    omega

/-- A successful update leaves a shadow file that is no symbolic link; when none
of its output is lost the file holds the merge of the request into the values
read. -/
theorem set_attr_ok (ctx : FsContext) (path : String) (credp : FsCred) (h : Host)
    (hs : (local_set_mapped_file_attr ctx path credp h).1 = 0) :
    ∃ ino, (local_set_mapped_file_attr ctx path credp h).2.fs
        (local_mapped_attr_path ctx path) = some ino ∧
      ino.isLnk = false ∧
      ((local_set_mapped_file_attr ctx path credp h).2.lost = h.lost →
        ino.data = attr_text (set_mapped_file_attr_merge credp
          (old_attr (local_mapped_attr_path ctx path) h))) := by
  have hl := local_fopen_lost (local_mapped_attr_path ctx path) "r" h
  rcases hr : local_fopen (local_mapped_attr_path ctx path) "r" h with ⟨_ | fp, h1⟩
  · rw [hr] at hl
    simp only [local_set_mapped_file_attr, old_attr, hr] at hs hl ⊢
    have hc := create_attr_dir_lost ctx path h1
    split_ifs at hs ⊢ with hneg
    · omega
    · obtain ⟨ino, u1, u2, u3⟩ := update_ok (local_mapped_attr_path ctx path) credp
        ⟨-1, -1, -1, -1⟩ (local_create_mapped_attr_dir ctx path h1).1
        (local_create_mapped_attr_dir ctx path h1).2 (by rw [hs]; decide)
      exact ⟨ino, u1, u2, fun hlost => u3 (by rw [hlost, hc]; exact hl.symm)⟩
  · rw [hr] at hl
    simp only [local_set_mapped_file_attr, old_attr, hr] at hs hl ⊢
    have hc := host_fclose_lost fp h1
    have hu := update_lost (local_mapped_attr_path ctx path) credp
      (set_mapped_file_attr_loop (fp.rbuf.length + 1) fp ⟨-1, -1, -1, -1⟩) 0
      (host_fclose fp h1).2
    obtain ⟨ino, u1, u2, u3⟩ := update_ok (local_mapped_attr_path ctx path) credp
      (set_mapped_file_attr_loop (fp.rbuf.length + 1) fp ⟨-1, -1, -1, -1⟩) 0
      (host_fclose fp h1).2 (by rw [hs]; decide)
    exact ⟨ino, u1, u2, fun hlost =>
      u3 (Nat.le_antisymm (by rw [hlost, ← hl]; exact hc) hu)⟩

theorem set_attr_mono (ctx : FsContext) (path : String) (credp : FsCred) (h : Host)
    (q : String) (hq : (h.fs q).isSome) :
    ((local_set_mapped_file_attr ctx path credp h).2.fs q).isSome := by
  have hr' : ((local_fopen (local_mapped_attr_path ctx path) "r" h).2.fs q).isSome := by
    rw [local_fopen_r_fs]; exact hq
  rcases hr : local_fopen (local_mapped_attr_path ctx path) "r" h with ⟨_ | fp, h1⟩
  · rw [hr] at hr'
    simp only [local_set_mapped_file_attr, hr]
    split_ifs
    · exact create_attr_dir_mono ctx path h1 q hr'
    · exact update_mono _ _ _ _ _ q (create_attr_dir_mono ctx path h1 q hr')
  · rw [hr] at hr'
    simp only [local_set_mapped_file_attr, hr]
    exact update_mono _ _ _ _ _ q (host_fclose_mono fp h1 q hr')

theorem set_attr_ret (ctx : FsContext) (path : String) (credp : FsCred) (h : Host) :
    (local_set_mapped_file_attr ctx path credp h).1 = 0 ∨
    (local_set_mapped_file_attr ctx path credp h).1 = -1 := by
  rcases hr : local_fopen (local_mapped_attr_path ctx path) "r" h with ⟨_ | fp, h1⟩
  · simp only [local_set_mapped_file_attr, hr]
    rcases create_attr_dir_ret ctx path h1 with h0 | h0
    · simp only [h0, lt_self_iff_false, if_false]
      rcases update_ret (local_mapped_attr_path ctx path) credp ⟨-1, -1, -1, -1⟩ 0
        (local_create_mapped_attr_dir ctx path h1).2 with h2 | h2
      · right; exact h2
      · left; exact h2
    · right; simp [h0]
  · simp only [local_set_mapped_file_attr, hr]
    rcases update_ret (local_mapped_attr_path ctx path) credp
      (set_mapped_file_attr_loop (fp.rbuf.length + 1) fp ⟨-1, -1, -1, -1⟩) 0
      (host_fclose fp h1).2 with h2 | h2
    · right; exact h2
    · left; exact h2

/-- On a host where no call fails, `local_mapped_file_attr` runs the read loop
over the whole content of the shadow file. -/
theorem mapped_file_attr_calm (ctx : FsContext) (path : String) (st : Stat) (h : Host)
    (ino : Inode) (hp : h.plan = [])
    (hn : h.fs (local_mapped_attr_path ctx path) = some ino) (hl : ino.isLnk = false) :
    ∃ fd, (local_mapped_file_attr ctx path st h).1 =
      mapped_file_attr_loop (ino.data.length + 1) ⟨fd, ino.data⟩ st := by
  obtain ⟨fp, hfp⟩ := local_fopen_r_calm _ h ino hp hn hl
  obtain ⟨ino', h1, -, h3⟩ := local_fopen_r_some _ h fp hfp
  rw [hn] at h1
  simp only [Option.some.injEq] at h1
  subst h1
  rcases hr : local_fopen (local_mapped_attr_path ctx path) "r" h with ⟨_ | fp', h1⟩
  · rw [hr] at hfp; simp at hfp
  · rw [hr] at hfp
    simp only [Option.some.injEq] at hfp
    subst hfp
    refine ⟨fp'.fd, ?_⟩
    simp only [local_mapped_file_attr, hr]
    rw [h3]
    have : fp' = ⟨fp'.fd, ino.data⟩ := by cases fp'; simp_all
    rw [← this]

theorem mapped_file_attr_absent (ctx : FsContext) (path : String) (st : Stat) (h : Host)
    (hn : h.fs (local_mapped_attr_path ctx path) = none) :
    (local_mapped_file_attr ctx path st h).1 = st := by
  have := local_fopen_r_absent _ h hn
  rcases hr : local_fopen (local_mapped_attr_path ctx path) "r" h with ⟨_ | fp', h1⟩
  · simp only [local_mapped_file_attr, hr]
  · rw [hr] at this; simp at this

theorem toUInt32_toInt32 (n : Nat) (hn : n < 2 ^ 32) : toUInt32 (toInt32 n) = n := by
  unfold toUInt32 toInt32
  split_ifs <;> omega

theorem toInt32_ne_neg1 (n : Nat) (hn : n < 2 ^ 32) (h : n ≠ UNSET32) : toInt32 n ≠ -1 := by
  unfold toInt32
  unfold UNSET32 at h
  split_ifs <;> omega

theorem mode_reg (m : Nat) (hm : m ≤ 0o7777) :
    int16_ne_minus1 (m ||| S_IFREG) = true ∧ m ||| S_IFREG < 2 ^ 32 := by
  have h16 : m ||| S_IFREG < 2 ^ 16 :=
    Nat.or_lt_two_pow (by omega) (by decide)
  have hne : m ||| S_IFREG ≠ 2 ^ 16 - 1 := by
    intro he
    have h1 : (m ||| S_IFREG) &&& 0o40000 = (2 ^ 16 - 1) &&& 0o40000 := by rw [he]
    rw [Nat.and_comm, Nat.and_or_distrib_left] at h1
    have h2 : 0o40000 &&& m ≤ m := Nat.and_le_right
    have h3 : (0o40000 : Nat) &&& S_IFREG = 0 := by decide
    have h4 : ((2 : Nat) ^ 16 - 1) &&& 0o40000 = 0o40000 := by decide
    rw [h3, h4, Nat.or_zero] at h1
    omega
  refine ⟨?_, by omega⟩
  unfold int16_ne_minus1
  rw [Nat.mod_eq_of_lt h16]
  simpa using hne

theorem host_lstat_calm (p : String) (st : Stat) (h : Host) (ino : Inode)
    (hp : h.plan = []) (hn : h.fs p = some ino) :
    host_lstat p st h = (0, ino.stat, h) := by
  unfold host_lstat
  rw [Host.next_eq]
  cases h with
  | mk fs fds nf er eu eg plan wb lo =>
    simp only at hp hn
    subst hp
    simp [hn]

/-- C3 fails on the code: under mapped-file `local_open2` creates `d/f` with the
credentials (500, 2000, 0644) on a host where the `fclose` that writes the
shadow file fails (the ninth call, here with 28, `ENOSPC`).  The code does not
look at the result of `fclose`: `local_open2` returns the descriptor 3, the
shadow file is left empty, and `local_lstat` reports the real uid 1000 and the
real mode `S_IFREG | 0600`, not the uid 500 and the mode `0644 | S_IFREG`. -/
theorem open2_shadow_output_lost :
    (local_open2 ctx_mapped_file dir_d "f" (O_CREAT ||| O_WRONLY) ⟨500, 2000, 0o644, UNSET64⟩
      ⟨-1, []⟩ (host_empty [none, none, none, none, none, none, none, none, some 28])).1 = 3 ∧
    ((local_open2 ctx_mapped_file dir_d "f" (O_CREAT ||| O_WRONLY) ⟨500, 2000, 0o644, UNSET64⟩
      ⟨-1, []⟩ (host_empty [none, none, none, none, none, none, none, none, some 28])).2.2.fs
        "/export/d/.virtfs_metadata/f").map (fun ino => ino.data) = some [] ∧
    (local_lstat ctx_mapped_file ⟨4, DELIMITER_IN_PATH dir_d.data "f"⟩ stat_1000
      (local_open2 ctx_mapped_file dir_d "f" (O_CREAT ||| O_WRONLY)
        ⟨500, 2000, 0o644, UNSET64⟩ ⟨-1, []⟩
        (host_empty [none, none, none, none, none, none, none, none, some 28])).2.2.calm).1 = 0 ∧
    (local_lstat ctx_mapped_file ⟨4, DELIMITER_IN_PATH dir_d.data "f"⟩ stat_1000
      (local_open2 ctx_mapped_file dir_d "f" (O_CREAT ||| O_WRONLY)
        ⟨500, 2000, 0o644, UNSET64⟩ ⟨-1, []⟩
        (host_empty [none, none, none, none, none, none, none, none,
          some 28])).2.2.calm).2.1.st_uid = 1000 ∧
    (local_lstat ctx_mapped_file ⟨4, DELIMITER_IN_PATH dir_d.data "f"⟩ stat_1000
      (local_open2 ctx_mapped_file dir_d "f" (O_CREAT ||| O_WRONLY)
        ⟨500, 2000, 0o644, UNSET64⟩ ⟨-1, []⟩
        (host_empty [none, none, none, none, none, none, none, none,
          some 28])).2.2.calm).2.1.st_mode = S_IFREG ||| 0o600 := by
  decide

/-- C3 as amended: under mapped-file, when `local_open2` with credentials
`(u, g, m)` (`m <= 07777`, `u` and `g` 32-bit values other than the unset
sentinel) does not fail and none of the output it writes to the shadow file is
lost (no `fprintf` and no `fclose` of the call failed; the code does not look at
their results), a following `local_lstat` of the joined path, run with no
failure scheduled, returns 0 and reports `st_uid = u`, `st_gid = g` and
`st_mode = m | S_IFREG`. -/
theorem open2_then_lstat (ctx : FsContext) (dir_path : V9fsPath) (name : String)
    (flags : Nat) (fs : V9fsFidOpenState) (h : Host) (u g m rdev size : Nat) (stbuf : Stat)
    (hm : sm_is ctx .mapped_file) (hu : u < 2 ^ 32) (hu' : u ≠ UNSET32)
    (hg : g < 2 ^ 32) (hg' : g ≠ UNSET32) (hmode : m ≤ 0o7777)
    (hok : (local_open2 ctx dir_path name flags ⟨u, g, m, rdev⟩ fs h).1 ≠ -1)
    (hout : (local_open2 ctx dir_path name flags ⟨u, g, m, rdev⟩ fs h).2.2.lost = h.lost) :
    (local_lstat ctx ⟨size, DELIMITER_IN_PATH dir_path.data name⟩ stbuf
      (local_open2 ctx dir_path name flags ⟨u, g, m, rdev⟩ fs h).2.2.calm).1 = 0 ∧
    (local_lstat ctx ⟨size, DELIMITER_IN_PATH dir_path.data name⟩ stbuf
      (local_open2 ctx dir_path name flags ⟨u, g, m, rdev⟩ fs h).2.2.calm).2.1.st_uid = u ∧
    (local_lstat ctx ⟨size, DELIMITER_IN_PATH dir_path.data name⟩ stbuf
      (local_open2 ctx dir_path name flags ⟨u, g, m, rdev⟩ fs h).2.2.calm).2.1.st_gid = g ∧
    (local_lstat ctx ⟨size, DELIMITER_IN_PATH dir_path.data name⟩ stbuf
      (local_open2 ctx dir_path name flags ⟨u, g, m, rdev⟩ fs h).2.2.calm).2.1.st_mode =
        m ||| S_IFREG := by
  obtain ⟨b0, b1⟩ := mapped_file_bits hm
  obtain ⟨hm1, hm2⟩ := mode_reg m hmode
  -- the two steps of `local_open2`
  have ho : (host_open (rpath ctx (DELIMITER_IN_PATH dir_path.data name))
      (flags ||| O_NOFOLLOW ||| O_BINARY) SM_LOCAL_MODE_BITS h).1 ≠ -1 := by
    intro hc
    apply hok
    simp [local_open2, b0, b1, hc]
  have ht : (local_set_mapped_file_attr ctx (DELIMITER_IN_PATH dir_path.data name)
      ⟨u, g, m ||| S_IFREG, rdev⟩
      (host_open (rpath ctx (DELIMITER_IN_PATH dir_path.data name))
        (flags ||| O_NOFOLLOW ||| O_BINARY) SM_LOCAL_MODE_BITS h).2).1 = 0 := by
    rcases set_attr_ret ctx (DELIMITER_IN_PATH dir_path.data name) ⟨u, g, m ||| S_IFREG, rdev⟩
      (host_open (rpath ctx (DELIMITER_IN_PATH dir_path.data name))
        (flags ||| O_NOFOLLOW ||| O_BINARY) SM_LOCAL_MODE_BITS h).2 with h0 | h0
    · exact h0
    · exfalso
      apply hok
      simp [local_open2, b0, b1, ho, h0, open2_err_end]
  have hst : (local_open2 ctx dir_path name flags ⟨u, g, m, rdev⟩ fs h).2.2 =
      (local_set_mapped_file_attr ctx (DELIMITER_IN_PATH dir_path.data name)
        ⟨u, g, m ||| S_IFREG, rdev⟩
        (host_open (rpath ctx (DELIMITER_IN_PATH dir_path.data name))
          (flags ||| O_NOFOLLOW ||| O_BINARY) SM_LOCAL_MODE_BITS h).2).2 := by
    simp [local_open2, b0, b1, ho, ht]
  rw [hst] at hout ⊢
  -- the real object and the shadow file after the call
  obtain ⟨⟨inob, hb, -⟩, -, -⟩ := host_open_ok _ _ _ h ho
  have hbuf := set_attr_mono ctx (DELIMITER_IN_PATH dir_path.data name)
    ⟨u, g, m ||| S_IFREG, rdev⟩ _ (rpath ctx (DELIMITER_IN_PATH dir_path.data name))
    (by rw [hb]; rfl)
  obtain ⟨ino, ha, hl, hd⟩ := set_attr_ok ctx _ _ _ ht
  replace hd := hd (by rw [hout, host_open_lost])
  generalize (local_set_mapped_file_attr ctx (DELIMITER_IN_PATH dir_path.data name)
        ⟨u, g, m ||| S_IFREG, rdev⟩
        (host_open (rpath ctx (DELIMITER_IN_PATH dir_path.data name))
          (flags ||| O_NOFOLLOW ||| O_BINARY) SM_LOCAL_MODE_BITS h).2).2 = h2 at hbuf ha ⊢
  obtain ⟨inor, hr⟩ := Option.isSome_iff_exists.mp hbuf
  have hcalm : h2.calm.plan = [] := rfl
  have hr' : h2.calm.fs (rpath ctx (DELIMITER_IN_PATH dir_path.data name)) = some inor := hr
  have ha' : h2.calm.fs (local_mapped_attr_path ctx (DELIMITER_IN_PATH dir_path.data name))
      = some ino := ha
  obtain ⟨fd, hov⟩ := mapped_file_attr_calm ctx (DELIMITER_IN_PATH dir_path.data name)
    inor.stat h2.calm ino hcalm ha' hl
  have hx := merge_inRange ⟨u, g, m ||| S_IFREG, rdev⟩ _
    (old_attr_inRange (local_mapped_attr_path ctx (DELIMITER_IN_PATH dir_path.data name))
      (host_open (rpath ctx (DELIMITER_IN_PATH dir_path.data name))
        (flags ||| O_NOFOLLOW ||| O_BINARY) SM_LOCAL_MODE_BITS h).2)
  rw [hd, stat_of_text fd _ _ hx] at hov
  have e : local_lstat ctx ⟨size, DELIMITER_IN_PATH dir_path.data name⟩ stbuf h2.calm =
      (0, (local_mapped_file_attr ctx (DELIMITER_IN_PATH dir_path.data name)
        inor.stat h2.calm).1,
        (local_mapped_file_attr ctx (DELIMITER_IN_PATH dir_path.data name)
        inor.stat h2.calm).2) := by
    simp [local_lstat, host_lstat_calm _ stbuf h2.calm inor hcalm hr', b0, b1]
  rw [e]
  simp only [hov, overlay, set_mapped_file_attr_merge, hu', hg', hm1, ne_eq,
    not_false_eq_true, if_true, toInt32_ne_neg1 u hu hu', toInt32_ne_neg1 g hg hg',
    toUInt32_toInt32 u hu, toUInt32_toInt32 g hg, true_and]
  have hmne : toInt32 (m ||| S_IFREG) ≠ -1 := by
    unfold toInt32
    have : m ||| S_IFREG < 2 ^ 16 := Nat.or_lt_two_pow (by omega) (by decide)
    split_ifs <;> omega
  simp only [hmne, not_false_eq_true, if_true, toUInt32_toInt32 _ hm2]

theorem fgets_fd (fd1 fd2 : Int) (c : List Char) :
    (fgets ATTR_MAX ⟨fd1, c⟩).1 = (fgets ATTR_MAX ⟨fd2, c⟩).1 ∧
    (fgets ATTR_MAX ⟨fd1, c⟩).2.rbuf = (fgets ATTR_MAX ⟨fd2, c⟩).2.rbuf ∧
    (fgets ATTR_MAX ⟨fd1, c⟩).2.fd = fd1 := by
  unfold fgets
  cases c <;> simp

theorem attr_agree_line (st0 : Stat) (buf : List Char) (a : MapAttr) (s : Stat)
    (hi : attr_agree st0 a s) :
    attr_agree st0 (set_mapped_file_attr_line buf a) (mapped_file_attr_line buf s) := by
  obtain ⟨h1, h2, h3, h4⟩ := hi
  unfold set_mapped_file_attr_line mapped_file_attr_line
  split_ifs
  · exact ⟨Or.inl rfl, h2, h3, h4⟩
  · exact ⟨h1, Or.inl rfl, h3, h4⟩
  · exact ⟨h1, h2, Or.inl rfl, h4⟩
  · exact ⟨h1, h2, h3, Or.inl rfl⟩
  · exact ⟨h1, h2, h3, h4⟩

theorem attr_agree_loop (st0 : Stat) (n : Nat) :
    ∀ (c : List Char) (fd1 fd2 : Int) (a : MapAttr) (s : Stat), attr_agree st0 a s →
      attr_agree st0 (set_mapped_file_attr_loop n ⟨fd1, c⟩ a)
        (mapped_file_attr_loop n ⟨fd2, c⟩ s) := by
  induction n with
  | zero => intro c fd1 fd2 a s hi; exact hi
  | succ k ih =>
    intro c fd1 fd2 a s hi
    simp only [set_mapped_file_attr_loop, mapped_file_attr_loop, fgets]
    cases c with
    | nil => exact hi
    | cons x xs =>
      simp only
      exact ih _ fd1 fd2 _ _ (attr_agree_line st0 _ a s hi)

theorem toUInt32_neg1 : toUInt32 (-1) = UNSET32 := by decide
theorem toUInt64_neg1 : toUInt64 (-1) = UNSET64 := by decide

/-- What a stat reads from the shadow file a successful update left, when none
of the output of the update was lost. -/
theorem stat_after_update (ctx : FsContext) (path : String) (credp : FsCred) (h : Host)
    (st : Stat) (hok : (local_set_mapped_file_attr ctx path credp h).1 = 0)
    (hout : (local_set_mapped_file_attr ctx path credp h).2.lost = h.lost) :
    (local_mapped_file_attr ctx path st (local_set_mapped_file_attr ctx path credp h).2.calm).1
      = overlay (set_mapped_file_attr_merge credp
          (old_attr (local_mapped_attr_path ctx path) h)) st := by
  obtain ⟨ino, ha, hl, hd⟩ := set_attr_ok ctx path credp h hok
  obtain ⟨fd, hov⟩ := mapped_file_attr_calm ctx path st
    (local_set_mapped_file_attr ctx path credp h).2.calm ino rfl ha hl
  rw [hov, hd hout]
  exact stat_of_text fd _ st (merge_inRange _ _ (old_attr_inRange _ _))

theorem old_attr_of_open (p : String) (h : Host) (fp : FILE)
    (he : (local_fopen p "r" h).1 = some fp) :
    ∃ ino, h.fs p = some ino ∧ ino.isLnk = false ∧
      old_attr p h = set_mapped_file_attr_loop (ino.data.length + 1) ⟨fp.fd, ino.data⟩
        ⟨-1, -1, -1, -1⟩ := by
  obtain ⟨ino, h1, h2, h3⟩ := local_fopen_r_some p h fp he
  refine ⟨ino, h1, h2, ?_⟩
  rcases hr : local_fopen p "r" h with ⟨_ | fp', h1'⟩
  · rw [hr] at he; simp at he
  · rw [hr] at he
    simp only [Option.some.injEq] at he
    subst he
    simp only [old_attr, hr]
    have : fp' = ⟨fp'.fd, ino.data⟩ := by cases fp'; simp_all
    rw [h3, ← this]

theorem old_attr_absent (p : String) (h : Host) (hn : (local_fopen p "r" h).1 = none) :
    old_attr p h = ⟨-1, -1, -1, -1⟩ := by
  rcases hr : local_fopen p "r" h with ⟨_ | fp', h1'⟩
  · simp only [old_attr, hr]
  · rw [hr] at hn; simp at hn

/-- The stat of the old shadow file agrees with the values the update reads
from it, provided the update can open the file when it exists. -/
theorem before_agree (ctx : FsContext) (path : String) (h : Host) (st : Stat)
    (hread : (h.fs (local_mapped_attr_path ctx path)).isSome →
      (local_fopen (local_mapped_attr_path ctx path) "r" h).1.isSome) :
    attr_agree st (old_attr (local_mapped_attr_path ctx path) h)
      (local_mapped_file_attr ctx path st h.calm).1 := by
  cases hn : h.fs (local_mapped_attr_path ctx path) with
  | none =>
    rw [mapped_file_attr_absent ctx path st h.calm hn,
      old_attr_absent _ h (local_fopen_r_absent _ h hn)]
    exact ⟨Or.inr ⟨rfl, rfl⟩, Or.inr ⟨rfl, rfl⟩, Or.inr ⟨rfl, rfl⟩, Or.inr ⟨rfl, rfl⟩⟩
  | some ino0 =>
    obtain ⟨fp, hfp⟩ := Option.isSome_iff_exists.mp (hread (by rw [hn]; rfl))
    obtain ⟨ino, h1, h2, h3⟩ := old_attr_of_open _ h fp hfp
    rw [hn] at h1
    simp only [Option.some.injEq] at h1
    subst h1
    obtain ⟨fd, hov⟩ := mapped_file_attr_calm ctx path st h.calm ino0 rfl hn h2
    rw [hov, h3]
    exact attr_agree_loop st _ _ _ _ _ _
      ⟨Or.inr ⟨rfl, rfl⟩, Or.inr ⟨rfl, rfl⟩, Or.inr ⟨rfl, rfl⟩, Or.inr ⟨rfl, rfl⟩⟩

/-- C2 as amended.  Let an update `local_set_mapped_file_attr` succeed with none
of its output lost (no `fprintf` and no `fclose` of it failed; the code does not
look at their results).
(1) If it set only `uid = u`, and a second update that sets only `gid = g`
can open the shadow file and succeeds, again with none of its output lost, then
the stat overlay afterwards has `st_uid = u` and `st_gid = g`, whatever the
shadow file held initially.
(2) For a single update that can open the old shadow file when one exists:
`uid` and `gid` take the requested value when the request sets them, and every
field the request leaves unset keeps the value a stat showed before the
update, provided that value is not the `-1` of its type. -/
theorem set_attr_merge (ctx : FsContext) (path : String) (credp : FsCred) (h : Host)
    (st : Stat) (hok : (local_set_mapped_file_attr ctx path credp h).1 = 0)
    (hout : (local_set_mapped_file_attr ctx path credp h).2.lost = h.lost) :
    (∀ u g, u < 2 ^ 32 → u ≠ UNSET32 → g < 2 ^ 32 → g ≠ UNSET32 →
      credp = ⟨u, UNSET32, UNSET32, UNSET64⟩ →
      (local_fopen (local_mapped_attr_path ctx path) "r"
        (local_set_mapped_file_attr ctx path credp h).2).1.isSome →
      (local_set_mapped_file_attr ctx path ⟨UNSET32, g, UNSET32, UNSET64⟩
        (local_set_mapped_file_attr ctx path credp h).2).1 = 0 →
      (local_set_mapped_file_attr ctx path ⟨UNSET32, g, UNSET32, UNSET64⟩
        (local_set_mapped_file_attr ctx path credp h).2).2.lost =
        (local_set_mapped_file_attr ctx path credp h).2.lost →
      (local_mapped_file_attr ctx path st
        (local_set_mapped_file_attr ctx path ⟨UNSET32, g, UNSET32, UNSET64⟩
          (local_set_mapped_file_attr ctx path credp h).2).2.calm).1.st_uid = u ∧
      (local_mapped_file_attr ctx path st
        (local_set_mapped_file_attr ctx path ⟨UNSET32, g, UNSET32, UNSET64⟩
          (local_set_mapped_file_attr ctx path credp h).2).2.calm).1.st_gid = g) ∧
    (((h.fs (local_mapped_attr_path ctx path)).isSome →
        (local_fopen (local_mapped_attr_path ctx path) "r" h).1.isSome) →
      (credp.fc_uid ≠ UNSET32 → credp.fc_uid < 2 ^ 32 →
        (local_mapped_file_attr ctx path st
          (local_set_mapped_file_attr ctx path credp h).2.calm).1.st_uid = credp.fc_uid) ∧
      (credp.fc_gid ≠ UNSET32 → credp.fc_gid < 2 ^ 32 →
        (local_mapped_file_attr ctx path st
          (local_set_mapped_file_attr ctx path credp h).2.calm).1.st_gid = credp.fc_gid) ∧
      (credp.fc_uid = UNSET32 →
        (local_mapped_file_attr ctx path st h.calm).1.st_uid ≠ UNSET32 →
        (local_mapped_file_attr ctx path st
          (local_set_mapped_file_attr ctx path credp h).2.calm).1.st_uid =
          (local_mapped_file_attr ctx path st h.calm).1.st_uid) ∧
      (credp.fc_gid = UNSET32 →
        (local_mapped_file_attr ctx path st h.calm).1.st_gid ≠ UNSET32 →
        (local_mapped_file_attr ctx path st
          (local_set_mapped_file_attr ctx path credp h).2.calm).1.st_gid =
          (local_mapped_file_attr ctx path st h.calm).1.st_gid) ∧
      (credp.fc_mode = UNSET32 →
        (local_mapped_file_attr ctx path st h.calm).1.st_mode ≠ UNSET32 →
        (local_mapped_file_attr ctx path st
          (local_set_mapped_file_attr ctx path credp h).2.calm).1.st_mode =
          (local_mapped_file_attr ctx path st h.calm).1.st_mode) ∧
      (credp.fc_rdev = UNSET64 →
        (local_mapped_file_attr ctx path st h.calm).1.st_rdev ≠ UNSET64 →
        (local_mapped_file_attr ctx path st
          (local_set_mapped_file_attr ctx path credp h).2.calm).1.st_rdev =
          (local_mapped_file_attr ctx path st h.calm).1.st_rdev)) := by
  constructor
  · intro u g hu hu' hg hg' hcred hopen hok2 hout2
    subst hcred
    rw [stat_after_update ctx path _ _ st hok2 hout2]
    obtain ⟨fp, hfp⟩ := Option.isSome_iff_exists.mp hopen
    obtain ⟨ino, h1, -, h3⟩ := old_attr_of_open _ _ fp hfp
    obtain ⟨ino', h1', -, hd⟩ := set_attr_ok ctx path _ h hok
    rw [h1'] at h1
    simp only [Option.some.injEq] at h1
    subst h1
    rw [h3, hd hout, attr_of_text _ _ (merge_inRange _ _ (old_attr_inRange _ _))]
    simp only [overlay, set_mapped_file_attr_merge, ne_eq, not_true_eq_false, if_false, hu',
      hg', not_false_eq_true, if_true, toInt32_ne_neg1 u hu hu', toInt32_ne_neg1 g hg hg',
      toUInt32_toInt32 u hu, toUInt32_toInt32 g hg, and_self]
  · intro hread
    rw [stat_after_update ctx path credp h st hok hout]
    obtain ⟨a1, a2, a3, a4⟩ := before_agree ctx path h st hread
    refine ⟨?_, ?_, ?_, ?_, ?_, ?_⟩
    · intro hs hlt
      simp only [overlay, set_mapped_file_attr_merge, hs, ne_eq, not_false_eq_true, if_true,
        toInt32_ne_neg1 _ hlt hs, toUInt32_toInt32 _ hlt]
    · intro hs hlt
      simp only [overlay, set_mapped_file_attr_merge, hs, ne_eq, not_false_eq_true, if_true,
        toInt32_ne_neg1 _ hlt hs, toUInt32_toInt32 _ hlt]
    · intro hs hb
      simp only [overlay, set_mapped_file_attr_merge, hs, ne_eq, not_true_eq_false, if_false]
      rcases a1 with e | ⟨e1, e2⟩
      · by_cases hv : (old_attr (local_mapped_attr_path ctx path) h).uid = -1
        · rw [hv, toUInt32_neg1] at e; exact absurd e hb
        · simp only [hv, not_false_eq_true, if_true, e]
      · simp only [e1, not_true_eq_false, if_false, e2]
    · intro hs hb
      simp only [overlay, set_mapped_file_attr_merge, hs, ne_eq, not_true_eq_false, if_false]
      rcases a2 with e | ⟨e1, e2⟩
      · by_cases hv : (old_attr (local_mapped_attr_path ctx path) h).gid = -1
        · rw [hv, toUInt32_neg1] at e; exact absurd e hb
        · simp only [hv, not_false_eq_true, if_true, e]
      · simp only [e1, not_true_eq_false, if_false, e2]
    · intro hs hb
      have hi : int16_ne_minus1 UNSET32 = false := by decide
      simp only [overlay, set_mapped_file_attr_merge, hs, hi, ne_eq, Bool.false_eq_true,
        if_false]
      rcases a3 with e | ⟨e1, e2⟩
      · by_cases hv : (old_attr (local_mapped_attr_path ctx path) h).mode = -1
        · rw [hv, toUInt32_neg1] at e; exact absurd e hb
        · simp only [hv, not_false_eq_true, if_true, e]
      · simp only [e1, not_true_eq_false, if_false, e2]
    · intro hs hb
      simp only [overlay, set_mapped_file_attr_merge, hs, ne_eq, not_true_eq_false, if_false]
      rcases a4 with e | ⟨e1, e2⟩
      · by_cases hv : (old_attr (local_mapped_attr_path ctx path) h).rdev = -1
        · rw [hv, toUInt64_neg1] at e; exact absurd e hb
        · simp only [hv, not_false_eq_true, if_true, e]
      · simp only [e1, not_true_eq_false, if_false, e2]

/-- C2 fails on the code: a shadow file that stores `virtfs.gid=-1` makes a stat
report gid 4294967295; after a successful update that sets only the uid the
line is gone and the stat reports the real gid 1000, so the gid did not keep
the value it had before the update. -/
theorem set_attr_drops_stored_minus_one :
    (local_mapped_file_attr ctx_mapped_file "d/f" stat_1000
      (host_shadow "virtfs.gid=-1\n" [])).1.st_gid = 4294967295 ∧
    (local_set_mapped_file_attr ctx_mapped_file "d/f" ⟨500, UNSET32, UNSET32, UNSET64⟩
      (host_shadow "virtfs.gid=-1\n" [])).1 = 0 ∧
    (local_mapped_file_attr ctx_mapped_file "d/f" stat_1000
      (local_set_mapped_file_attr ctx_mapped_file "d/f" ⟨500, UNSET32, UNSET32, UNSET64⟩
        (host_shadow "virtfs.gid=-1\n" [])).2.calm).1.st_gid = 1000 := by
  decide

theorem open2_then_lstat_witness :
    sm_is ctx_mapped_file .mapped_file ∧ (500 : Nat) < 2 ^ 32 ∧ (500 : Nat) ≠ UNSET32 ∧
    (2000 : Nat) < 2 ^ 32 ∧ (2000 : Nat) ≠ UNSET32 ∧ (0o644 : Nat) ≤ 0o7777 ∧
    (local_open2 ctx_mapped_file dir_d "f" (O_CREAT ||| O_WRONLY) ⟨500, 2000, 0o644, UNSET64⟩
      ⟨-1, []⟩ (host_empty [])).1 ≠ -1 ∧
    (local_open2 ctx_mapped_file dir_d "f" (O_CREAT ||| O_WRONLY) ⟨500, 2000, 0o644, UNSET64⟩
      ⟨-1, []⟩ (host_empty [])).2.2.lost = (host_empty []).lost ∧
    ((local_lstat ctx_mapped_file ⟨4, DELIMITER_IN_PATH dir_d.data "f"⟩ stat_1000
      (local_open2 ctx_mapped_file dir_d "f" (O_CREAT ||| O_WRONLY)
        ⟨500, 2000, 0o644, UNSET64⟩ ⟨-1, []⟩ (host_empty [])).2.2.calm).1 = 0 ∧
    (local_lstat ctx_mapped_file ⟨4, DELIMITER_IN_PATH dir_d.data "f"⟩ stat_1000
      (local_open2 ctx_mapped_file dir_d "f" (O_CREAT ||| O_WRONLY)
        ⟨500, 2000, 0o644, UNSET64⟩ ⟨-1, []⟩ (host_empty [])).2.2.calm).2.1.st_uid = 500 ∧
    (local_lstat ctx_mapped_file ⟨4, DELIMITER_IN_PATH dir_d.data "f"⟩ stat_1000
      (local_open2 ctx_mapped_file dir_d "f" (O_CREAT ||| O_WRONLY)
        ⟨500, 2000, 0o644, UNSET64⟩ ⟨-1, []⟩ (host_empty [])).2.2.calm).2.1.st_gid = 2000 ∧
    (local_lstat ctx_mapped_file ⟨4, DELIMITER_IN_PATH dir_d.data "f"⟩ stat_1000
      (local_open2 ctx_mapped_file dir_d "f" (O_CREAT ||| O_WRONLY)
        ⟨500, 2000, 0o644, UNSET64⟩ ⟨-1, []⟩ (host_empty [])).2.2.calm).2.1.st_mode =
        0o644 ||| S_IFREG) :=
  ⟨by decide, by decide, by decide, by decide, by decide, by decide, by decide, by decide,
    open2_then_lstat ctx_mapped_file dir_d "f" (O_CREAT ||| O_WRONLY) ⟨-1, []⟩
      (host_empty []) 500 2000 0o644 UNSET64 4 stat_1000 (by decide) (by decide) (by decide)
      (by decide) (by decide) (by decide) (by decide) (by decide)⟩

theorem set_attr_merge_witness :
    (local_set_mapped_file_attr ctx_mapped_file "d/f" ⟨500, UNSET32, UNSET32, UNSET64⟩
      (host_shadow "virtfs.gid=7\n" [])).1 = 0 ∧
    (local_set_mapped_file_attr ctx_mapped_file "d/f" ⟨500, UNSET32, UNSET32, UNSET64⟩
      (host_shadow "virtfs.gid=7\n" [])).2.lost = (host_shadow "virtfs.gid=7\n" []).lost ∧
    ((local_mapped_file_attr ctx_mapped_file "d/f" stat_1000
        (local_set_mapped_file_attr ctx_mapped_file "d/f" ⟨UNSET32, 2000, UNSET32, UNSET64⟩
          (local_set_mapped_file_attr ctx_mapped_file "d/f" ⟨500, UNSET32, UNSET32, UNSET64⟩
            (host_shadow "virtfs.gid=7\n" [])).2).2.calm).1.st_uid = 500 ∧
      (local_mapped_file_attr ctx_mapped_file "d/f" stat_1000
        (local_set_mapped_file_attr ctx_mapped_file "d/f" ⟨UNSET32, 2000, UNSET32, UNSET64⟩
          (local_set_mapped_file_attr ctx_mapped_file "d/f" ⟨500, UNSET32, UNSET32, UNSET64⟩
            (host_shadow "virtfs.gid=7\n" [])).2).2.calm).1.st_gid = 2000) ∧
    (local_mapped_file_attr ctx_mapped_file "d/f" stat_1000
        (local_set_mapped_file_attr ctx_mapped_file "d/f" ⟨500, UNSET32, UNSET32, UNSET64⟩
          (host_shadow "virtfs.gid=7\n" [])).2.calm).1.st_gid =
      (local_mapped_file_attr ctx_mapped_file "d/f" stat_1000
        (host_shadow "virtfs.gid=7\n" []).calm).1.st_gid :=
  ⟨by decide, by decide,
    (set_attr_merge ctx_mapped_file "d/f" ⟨500, UNSET32, UNSET32, UNSET64⟩
      (host_shadow "virtfs.gid=7\n" []) stat_1000 (by decide) (by decide)).1 500 2000
      (by decide) (by decide) (by decide) (by decide) rfl (by decide) (by decide) (by decide),
    ((set_attr_merge ctx_mapped_file "d/f" ⟨500, UNSET32, UNSET32, UNSET64⟩
      (host_shadow "virtfs.gid=7\n" []) stat_1000 (by decide) (by decide)).2
      (by decide)).2.2.2.1 rfl (by decide)⟩

/-- Why the merge needs the shadow file to be readable: when the `open` for
reading fails (here with `EMFILE`) although the file exists, the update still
returns 0 but rewrites the file from nothing, and the stored uid 500 is lost. -/
theorem set_attr_read_failure_rewrites :
    (local_mapped_file_attr ctx_mapped_file "d/f" stat_1000
      (host_shadow "virtfs.uid=500\n" [])).1.st_uid = 500 ∧
    (local_set_mapped_file_attr ctx_mapped_file "d/f" ⟨UNSET32, 2000, UNSET32, UNSET64⟩
      (host_shadow "virtfs.uid=500\n" [some 24])).1 = 0 ∧
    (local_mapped_file_attr ctx_mapped_file "d/f" stat_1000
      (local_set_mapped_file_attr ctx_mapped_file "d/f" ⟨UNSET32, 2000, UNSET32, UNSET64⟩
        (host_shadow "virtfs.uid=500\n" [some 24])).2.calm).1.st_uid = 1000 := by
  decide

/-- Why the merge needs the output to reach the file: the shadow file of `d/f`
stores gid 7, and the `fclose` that writes the file of an update of the uid
fails (the eighth call, here with 28, `ENOSPC`).  The code does not look at the
result: the update returns 0, the shadow file is left empty, and a stat reports
the real uid 1000 and the real gid 1000, so neither the requested uid 500 nor
the stored gid 7 is kept. -/
theorem set_attr_output_failure_unnoticed :
    (local_mapped_file_attr ctx_mapped_file "d/f" stat_1000
      (host_shadow "virtfs.gid=7\n" [])).1.st_gid = 7 ∧
    (local_set_mapped_file_attr ctx_mapped_file "d/f" ⟨500, UNSET32, UNSET32, UNSET64⟩
      (host_shadow "virtfs.gid=7\n" [none, none, none, none, none, none, none, some 28])).1
      = 0 ∧
    ((local_set_mapped_file_attr ctx_mapped_file "d/f" ⟨500, UNSET32, UNSET32, UNSET64⟩
      (host_shadow "virtfs.gid=7\n" [none, none, none, none, none, none, none, some 28])).2.fs
        "/export/d/.virtfs_metadata/f").map (fun ino => ino.data) = some [] ∧
    (local_mapped_file_attr ctx_mapped_file "d/f" stat_1000
      (local_set_mapped_file_attr ctx_mapped_file "d/f" ⟨500, UNSET32, UNSET32, UNSET64⟩
        (host_shadow "virtfs.gid=7\n"
          [none, none, none, none, none, none, none, some 28])).2.calm).1.st_uid = 1000 ∧
    (local_mapped_file_attr ctx_mapped_file "d/f" stat_1000
      (local_set_mapped_file_attr ctx_mapped_file "d/f" ⟨500, UNSET32, UNSET32, UNSET64⟩
        (host_shadow "virtfs.gid=7\n"
          [none, none, none, none, none, none, none, some 28])).2.calm).1.st_gid = 1000 := by
  decide

theorem host_write_plan (fd : Int) (buf : List Char) (h : Host) :
    (host_write fd buf h).2.plan = h.plan.tail := by
  unfold host_write
  rw [Host.next_eq]
  cases hj : h.plan.head?.join with
  | some e => simp [Host.fail]
  | none =>
    simp only [Host.fail]
    cases hf : h.fds fd with
    | none => simp
    | some f => simp only []; cases hn : h.fs f.path <;> simp [Host.setNode, Host.setFd]

theorem host_write_calm (fd : Int) (buf : List Char) (h : Host) (hp : h.plan = []) :
    ¬ ((host_write fd buf h).1 = -1 ∧ (host_write fd buf h).2.errno = EINTR) := by
  unfold host_write
  rw [Host.next_eq]
  simp only [hp, List.head?_nil, Option.join, Option.bind, Host.fail]
  cases hf : h.fds fd with
  | none => simp [EBADF, EINTR]
  | some f =>
    simp only []
    cases hn : h.fs f.path with
    | none => simp [EBADF, EINTR]
    | some ino =>
      simp only []
      intro hc
      have := hc.1
      omega

/-- The retry loop of `local_symlink` always ends with a write that is not
interrupted: the fuel it is given suffices. -/
theorem write_retry_settles (n : Nat) : ∀ (fd : Int) (buf : List Char) (h : Host),
    h.plan.length ≤ n →
    ¬ ((write_retry n fd buf h).1 = -1 ∧ (write_retry n fd buf h).2.errno = EINTR) := by
  induction n with
  | zero =>
    intro fd buf h hl
    have hp : h.plan = [] := List.length_eq_zero.mp (Nat.le_zero.mp hl)
    simpa [write_retry] using host_write_calm fd buf h hp
  | succ k ih =>
    intro fd buf h hl
    rw [write_retry]
    split_ifs with hc
    · apply ih
      rw [host_write_plan]
      simp only [List.length_tail]
      omega
    · exact hc

/-- C17: `v9fs_co_opendir` returns the same value whatever the counter, the
high-water mark and the reclaim pass are.  With a reclaim pass that does nothing
the counter afterwards is one more than before when the return value is 0 and
unchanged otherwise, and a reclaim pass was started exactly when the return
value is 0 and the incremented counter is greater than the mark; an arbitrary
reclaim pass is applied to exactly that state (counter already incremented) and
in no other case.  `v9fs_co_closedir` leaves the counter one less than before
when it returns 0 and unchanged otherwise. -/
theorem v9fs_co_opendir_counter (reclaim : V9fsState → V9fsState) (pdu : V9fsPDU)
    (fidp : V9fsFidState) (fs : V9fsFidOpenState) (c hw : Int) :
    (v9fs_co_opendir reclaim
        { pdu with s := { pdu.s with total_open_fd := c, open_fd_hw := hw } } fidp).1 =
      (v9fs_co_opendir id pdu fidp).1 ∧
    (v9fs_co_opendir id pdu fidp).2.2.total_open_fd =
      (if (v9fs_co_opendir id pdu fidp).1 = 0 then pdu.s.total_open_fd + 1
       else pdu.s.total_open_fd) ∧
    (v9fs_co_opendir id pdu fidp).2.2.reclaims =
      (if (v9fs_co_opendir id pdu fidp).1 = 0 ∧ pdu.s.total_open_fd + 1 > pdu.s.open_fd_hw
       then pdu.s.reclaims + 1 else pdu.s.reclaims) ∧
    (v9fs_co_opendir id pdu fidp).2.2.open_fd_hw = pdu.s.open_fd_hw ∧
    (v9fs_co_opendir reclaim pdu fidp).2.2 =
      (if (v9fs_co_opendir id pdu fidp).1 = 0 ∧ pdu.s.total_open_fd + 1 > pdu.s.open_fd_hw
       then reclaim (v9fs_co_opendir id pdu fidp).2.2 else (v9fs_co_opendir id pdu fidp).2.2) ∧
    (v9fs_co_closedir pdu fs).2.total_open_fd =
      (if (v9fs_co_closedir pdu fs).1 = 0 then pdu.s.total_open_fd - 1
       else pdu.s.total_open_fd) := by
  have hE : (-EINTR : Int) ≠ 0 := by decide
  refine ⟨?_, ?_, ?_, ?_, ?_, ?_⟩
  · unfold v9fs_co_opendir v9fs_request_cancelled
    cases pdu.cancelled <;> rfl
  · unfold v9fs_co_opendir v9fs_request_cancelled
    cases pdu.cancelled
    · simp only [Bool.false_eq_true, if_false]
      split_ifs <;> rfl
    · simp [hE]
  · unfold v9fs_co_opendir v9fs_request_cancelled
    cases pdu.cancelled
    · simp only [Bool.false_eq_true, if_false]
      split_ifs <;> first | rfl | simp_all [v9fs_path_unlock, v9fs_path_read_lock, V9fsState.called]
    · simp [hE]
  · unfold v9fs_co_opendir v9fs_request_cancelled
    cases pdu.cancelled
    · simp only [Bool.false_eq_true, if_false]
      split_ifs <;> rfl
    · rfl
  · unfold v9fs_co_opendir v9fs_request_cancelled
    cases pdu.cancelled
    · simp only [Bool.false_eq_true, if_false]
      split_ifs <;> first | rfl | simp_all [v9fs_path_unlock, v9fs_path_read_lock, V9fsState.called]
    · simp [hE]
  · unfold v9fs_co_closedir v9fs_request_cancelled
    cases pdu.cancelled
    · simp only [Bool.false_eq_true, if_false]
      split_ifs <;> rfl
    · simp [hE]

/-- C19: `local_name_to_path` always returns 0; with a parent the target is the
parent, one separator, then the name; without a parent it is the name; in both
cases the reported size is the length of that string plus one. -/
theorem local_name_to_path_join (ctx : FsContext) (d : V9fsPath) (name : String)
    (dir_path : Option V9fsPath) (t : V9fsPath) :
    (local_name_to_path ctx dir_path name t).1 = 0 ∧
    (local_name_to_path ctx (some d) name t).2.data.data = d.data.data ++ '/' :: name.data ∧
    (local_name_to_path ctx none name t).2.data = name ∧
    (local_name_to_path ctx dir_path name t).2.size =
      (local_name_to_path ctx dir_path name t).2.data.data.length + 1 := by
  refine ⟨rfl, ?_, rfl, ?_⟩
  · simp [local_name_to_path, v9fs_string_sprintf, DELIMITER_IN_PATH]
  · cases dir_path <;> rfl

theorem path_resolve_append (a b : List Char) (seg : List Char) (d : Nat) :
    path_resolve (a ++ '/' :: b) seg d = (path_resolve a seg d).bind (path_resolve b []) := by
  induction a generalizing seg d with
  | nil => simp [path_resolve]
  | cons c a ih =>
    by_cases hc : c = '/'
    · subst hc
      show (path_step d seg).bind (path_resolve (a ++ '/' :: b) []) =
        ((path_step d seg).bind (path_resolve a [])).bind (path_resolve b [])
      cases path_step d seg with
      | none => rfl
      | some k => exact ih [] k
    · show path_resolve (c :: (a ++ '/' :: b)) seg d = (path_resolve (c :: a) seg d).bind _
      simp only [path_resolve, hc, if_false]
      exact ih _ _

theorem path_resolve_segment (cs seg : List Char) (d : Nat) (h : '/' ∉ cs) :
    path_resolve cs seg d = path_step d (seg ++ cs) := by
  induction cs generalizing seg with
  | nil => simp [path_resolve]
  | cons c cs ih =>
    have hc : c ≠ '/' := fun e => h (e ▸ List.mem_cons_self _ _)
    have hcs : '/' ∉ cs := fun e => h (List.mem_cons_of_mem _ e)
    simp only [path_resolve, hc, if_false, ih _ hcs, List.append_assoc, List.singleton_append]

/-- C20 fails on the code: the parent `.` lies inside the export root, and with
the name `..` the path `local_name_to_path` builds resolves above the root;
`local_mknod`, which joins directory and name itself, creates `../x` of the
export root verbatim. -/
theorem name_to_path_escapes :
    inside_root "." ∧
    (local_name_to_path ctx_none (some ⟨2, "."⟩) ".." ⟨0, ""⟩).1 = 0 ∧
    (local_name_to_path ctx_none (some ⟨2, "."⟩) ".." ⟨0, ""⟩).2.data = "./.." ∧
    ¬ inside_root (local_name_to_path ctx_none (some ⟨2, "."⟩) ".." ⟨0, ""⟩).2.data ∧
    (local_mknod ctx_none ⟨2, "."⟩ "../x" cred_644 (host_empty [])).1 = 0 ∧
    ((local_mknod ctx_none ⟨2, "."⟩ "../x" cred_644 (host_empty [])).2.fs
      "/export/./../x").isSome ∧
    ¬ inside_root "./../x" := by
  decide

/-- C20 as amended: `local_name_to_path` performs no check of the name.  The
joined path resolves as the parent followed by the name, so it stays inside the
export root exactly when the segments of the name, resolved from the depth the
parent reaches, never step above the root; in particular it stays inside when
the parent does and the name is one segment other than `..`.  `local_open`
hands the path it is given to `open` unchanged. -/
theorem name_to_path_containment (ctx : FsContext) (d : V9fsPath) (name : String)
    (t : V9fsPath) (hd : inside_root d.data) :
    (inside_root (local_name_to_path ctx (some d) name t).2.data ↔
      ∃ k, path_resolve d.data.data [] 0 = some k ∧ (path_resolve name.data [] k).isSome) ∧
    ('/' ∉ name.data → name ≠ ".." →
      inside_root (local_name_to_path ctx (some d) name t).2.data) ∧
    (∀ flags fs h, (local_open ctx (local_name_to_path ctx (some d) name t).2 flags fs h).1 =
      (host_open (ctx.fs_root ++ "/" ++ (d.data ++ "/" ++ name))
        (flags ||| O_NOFOLLOW ||| O_BINARY) 0 h).1) := by
  have hdata : (local_name_to_path ctx (some d) name t).2.data.data =
      d.data.data ++ '/' :: name.data := by
    simp [local_name_to_path, v9fs_string_sprintf, DELIMITER_IN_PATH]
  obtain ⟨k, hk⟩ := Option.isSome_iff_exists.mp hd
  refine ⟨?_, ?_, ?_⟩
  · unfold inside_root
    rw [hdata, path_resolve_append, hk]
    simp
  · intro hs hne
    unfold inside_root
    rw [hdata, path_resolve_append, hk, Option.some_bind, path_resolve_segment _ _ _ hs]
    have hne' : name.data ≠ ['.', '.'] := fun e => hne (String.ext e)
    simp only [path_step, List.nil_append, hne', if_false]
    split_ifs <;> rfl
  · intro flags fs h
    rfl

theorem name_to_path_containment_witness :
    inside_root "d" ∧ inside_root (local_name_to_path ctx_none (some dir_d) "x" ⟨0, ""⟩).2.data :=
  ⟨by decide, (name_to_path_containment ctx_none dir_d "x" ⟨0, ""⟩ (by decide)).2.1
    (by decide) (by decide)⟩

/-- C11 fails on the code: under mapped-file, linking `d/f`, which has no shadow
file, to `d/g`: the real link succeeds, the metadata directory is created, the
link of the shadow file fails with `ENOENT`, and `local_link` returns -1 (with
`errno` still `ENOENT`) while the new name `d/g` stays in place. -/
theorem local_link_enoent_fails :
    (host_link "/export/d/f" "/export/d/g" (host_plain [])).1 = 0 ∧
    (local_link ctx_mapped_file path_d_f dir_d "g" (host_plain [])).1 = -1 ∧
    (local_link ctx_mapped_file path_d_f dir_d "g" (host_plain [])).2.errno = ENOENT ∧
    ((local_link ctx_mapped_file path_d_f dir_d "g" (host_plain [])).2.fs
      "/export/d/g").isSome ∧
    ((local_link ctx_mapped_file path_d_f dir_d "g" (host_plain [])).2.fs
      "/export/d/.virtfs_metadata/g").isNone := by
  decide

/-- Under mapped-file, once the real link and the creation of the metadata
directory have succeeded, `local_link` returns what the link of the shadow file
returns: -1 for every failure of that link, `ENOENT` included. -/
theorem local_link_shadow_result (ctx : FsContext) (oldpath dirpath : V9fsPath)
    (name : String) (h : Host) (hm : sm_is ctx .mapped_file)
    (hreal : (host_link (rpath ctx oldpath.data)
      (rpath ctx (DELIMITER_IN_PATH dirpath.data name)) h).1 = 0)
    (hdir : 0 ≤ (local_create_mapped_attr_dir ctx (DELIMITER_IN_PATH dirpath.data name)
      (host_link (rpath ctx oldpath.data)
        (rpath ctx (DELIMITER_IN_PATH dirpath.data name)) h).2).1) :
    local_link ctx oldpath dirpath name h =
      host_link (local_mapped_attr_path ctx oldpath.data)
        (local_mapped_attr_path ctx (DELIMITER_IN_PATH dirpath.data name))
        (local_create_mapped_attr_dir ctx (DELIMITER_IN_PATH dirpath.data name)
          (host_link (rpath ctx oldpath.data)
            (rpath ctx (DELIMITER_IN_PATH dirpath.data name)) h).2).2 := by
  obtain ⟨h0, h1⟩ := mapped_file_bits hm
  unfold local_link
  simp only [hreal, h1, ne_eq, not_false_eq_true, and_self, if_true, not_lt.mpr hdir, if_false,
    ite_self]

theorem local_link_shadow_result_witness :
    (local_link ctx_mapped_file path_d_f dir_d "g" (host_plain [none, none, some EPERM])).1 = -1 :=
  (congrArg Prod.fst (local_link_shadow_result ctx_mapped_file path_d_f dir_d "g"
    (host_plain [none, none, some EPERM]) (by decide) (by decide) (by decide))).trans (by decide)

/-- C12 fails on the code: under mapped-file, on a descriptor opened on `d/f`,
whose shadow file holds uid 500, the real `fstat` succeeds and `local_lstat`
returns 0 with uid 500, but `local_fstat` returns -1 with `EOPNOTSUPP`. -/
theorem local_fstat_mapped_file_fails :
    (local_open ctx_mapped_file path_d_f O_RDONLY ⟨-1, []⟩
      (host_shadow "virtfs.uid=500\n" [])).1 = 3 ∧
    (host_fstat 3 stat_1000 (local_open ctx_mapped_file path_d_f O_RDONLY ⟨-1, []⟩
      (host_shadow "virtfs.uid=500\n" [])).2.2).1 = 0 ∧
    (local_lstat ctx_mapped_file path_d_f stat_1000 (local_open ctx_mapped_file path_d_f
      O_RDONLY ⟨-1, []⟩ (host_shadow "virtfs.uid=500\n" [])).2.2).1 = 0 ∧
    (local_lstat ctx_mapped_file path_d_f stat_1000 (local_open ctx_mapped_file path_d_f
      O_RDONLY ⟨-1, []⟩ (host_shadow "virtfs.uid=500\n" [])).2.2).2.1.st_uid = 500 ∧
    (local_fstat (fun _ => -1) ctx_mapped_file 1 ⟨3, []⟩ stat_1000 (local_open ctx_mapped_file
      path_d_f O_RDONLY ⟨-1, []⟩ (host_shadow "virtfs.uid=500\n" [])).2.2).1 = -1 ∧
    (local_fstat (fun _ => -1) ctx_mapped_file 1 ⟨3, []⟩ stat_1000 (local_open ctx_mapped_file
      path_d_f O_RDONLY ⟨-1, []⟩ (host_shadow "virtfs.uid=500\n" [])).2.2).2.2.errno =
        EOPNOTSUPP := by
  decide

/-- C12 as amended: under mapped-file `local_fstat` never succeeds.  When the
real `fstat` fails it returns that failure; when the real `fstat` succeeds it
returns -1 with `errno = EOPNOTSUPP`, the buffer holding the real stat with no
shadow field merged. -/
theorem local_fstat_mapped_file (dirfd : DIR → Int) (ctx : FsContext) (fid_type : Nat)
    (fs : V9fsFidOpenState) (stbuf : Stat) (h : Host) (hm : sm_is ctx .mapped_file) :
    (local_fstat dirfd ctx fid_type fs stbuf h).1 = -1 ∧
    local_fstat dirfd ctx fid_type fs stbuf h =
      (if (host_fstat (if fid_type = P9_FID_DIR then dirfd fs.dir else fs.fd) stbuf h).1 ≠ 0
       then host_fstat (if fid_type = P9_FID_DIR then dirfd fs.dir else fs.fd) stbuf h
       else (-1, (host_fstat (if fid_type = P9_FID_DIR then dirfd fs.dir else fs.fd)
          stbuf h).2.1,
        { (host_fstat (if fid_type = P9_FID_DIR then dirfd fs.dir else fs.fd)
          stbuf h).2.2 with errno := EOPNOTSUPP })) := by
  obtain ⟨h0, h1⟩ := mapped_file_bits hm
  have hr : ∀ fd, (host_fstat fd stbuf h).1 = 0 ∨ (host_fstat fd stbuf h).1 = -1 := by
    intro fd
    unfold host_fstat
    rw [Host.next_eq]
    cases hj : h.plan.head?.join with
    | some e => simp
    | none =>
      simp only []
      cases hf : h.fds fd with
      | none => simp
      | some f =>
        simp only []
        cases hn : h.fs f.path <;> simp
  have he : local_fstat dirfd ctx fid_type fs stbuf h =
      (if (host_fstat (if fid_type = P9_FID_DIR then dirfd fs.dir else fs.fd) stbuf h).1 ≠ 0
       then host_fstat (if fid_type = P9_FID_DIR then dirfd fs.dir else fs.fd) stbuf h
       else (-1, (host_fstat (if fid_type = P9_FID_DIR then dirfd fs.dir else fs.fd)
          stbuf h).2.1,
        { (host_fstat (if fid_type = P9_FID_DIR then dirfd fs.dir else fs.fd)
          stbuf h).2.2 with errno := EOPNOTSUPP })) := by
    unfold local_fstat
    simp only [h0, h1, ne_eq, not_true_eq_false, if_false, not_false_eq_true, if_true]
  refine ⟨?_, he⟩
  rw [he]
  rcases hr (if fid_type = P9_FID_DIR then dirfd fs.dir else fs.fd) with hz | hz
  · rw [if_neg (by simp [hz])]
  · rw [if_pos (by simp [hz])]; exact hz

theorem local_fstat_mapped_file_witness :
    sm_is ctx_mapped_file .mapped_file ∧
    (local_fstat (fun _ => -1) ctx_mapped_file 1 ⟨3, []⟩ stat_1000 (host_empty [])).1 = -1 :=
  ⟨by decide, (local_fstat_mapped_file (fun _ => -1) ctx_mapped_file 1 ⟨3, []⟩ stat_1000
    (host_empty []) (by decide)).1⟩

theorem le_value_le_bytes_4 (v : Nat) (hv : v < 2 ^ 32) : le_value (le_bytes 4 v) = v := by
  have : le_bytes 4 v = [v / 256 ^ 0 % 256, v / 256 ^ 1 % 256, v / 256 ^ 2 % 256,
      v / 256 ^ 3 % 256] := rfl
  rw [this]
  simp only [le_value]
  norm_num at hv ⊢
  omega

theorem le_value_le_bytes_8 (v : Nat) (hv : v < 2 ^ 64) : le_value (le_bytes 8 v) = v := by
  have : le_bytes 8 v = [v / 256 ^ 0 % 256, v / 256 ^ 1 % 256, v / 256 ^ 2 % 256,
      v / 256 ^ 3 % 256, v / 256 ^ 4 % 256, v / 256 ^ 5 % 256, v / 256 ^ 6 % 256,
      v / 256 ^ 7 % 256] := rfl
  rw [this]
  simp only [le_value]
  norm_num at hv ⊢
  omega

theorem le_bytes_length (w v : Nat) : (le_bytes w v).length = w := by
  simp [le_bytes]

theorem host_getxattr_calm (p name : String) (size real : Nat) (h : Host) (ino : Inode)
    (hp : h.plan = []) (hn : h.fs p = some ino) :
    (host_getxattr p name size h).2.2.plan = [] ∧
    (host_getxattr p name size h).2.2.fs = h.fs ∧
    (if (host_getxattr p name size h).1 > 0 then le_value (host_getxattr p name size h).2.1
      else real) = xattr_field ino name size real := by
  unfold host_getxattr xattr_field
  rw [Host.next_eq]
  cases h with
  | mk fs fds nf er eu eg plan wb lo =>
    simp only at hp hn
    subst hp
    cases hx : ino.xattrs name with
    | none => simp [hn, hx]
    | some v =>
      by_cases hs : size < v.length
      · simp [hn, hx, hs]
      · by_cases hz : v.length = 0
        · simp [hn, hx, hs, hz]
        · have : (0 : Int) < v.length := by omega
          simp [hn, hx, hs, hz, this]

theorem local_lstat_mapped_calm (ctx : FsContext) (fs_path : V9fsPath) (st : Stat) (h : Host)
    (ino : Inode) (hm : sm_is ctx .mapped) (hp : h.plan = [])
    (hn : h.fs (rpath ctx fs_path.data) = some ino) :
    (local_lstat ctx fs_path st h).1 = 0 ∧ (local_lstat ctx fs_path st h).2.1 = xattr_stat ino := by
  have hb := sm_bits_mapped hm
  unfold local_lstat
  simp only [host_lstat_calm _ st h ino hp hn, hb, ne_eq, not_false_eq_true, if_true,
    not_true_eq_false, if_false]
  rcases h1 : host_getxattr (rpath ctx fs_path.data) "user.virtfs.uid" 4 h with ⟨n1, v1, g1⟩
  have e1 := host_getxattr_calm (rpath ctx fs_path.data) "user.virtfs.uid" 4 ino.st_uid h ino hp hn
  rw [h1] at e1
  rcases h2 : host_getxattr (rpath ctx fs_path.data) "user.virtfs.gid" 4 g1 with ⟨n2, v2, g2⟩
  have e2 := host_getxattr_calm (rpath ctx fs_path.data) "user.virtfs.gid" 4 ino.st_gid g1 ino
    e1.1 (by rw [e1.2.1]; exact hn)
  rw [h2] at e2
  rcases h3 : host_getxattr (rpath ctx fs_path.data) "user.virtfs.mode" 4 g2 with ⟨n3, v3, g3⟩
  have e3 := host_getxattr_calm (rpath ctx fs_path.data) "user.virtfs.mode" 4 ino.st_mode g2 ino
    e2.1 (by rw [e2.2.1, e1.2.1]; exact hn)
  rw [h3] at e3
  rcases h4 : host_getxattr (rpath ctx fs_path.data) "user.virtfs.rdev" 8 g3 with ⟨n4, v4, g4⟩
  have e4 := host_getxattr_calm (rpath ctx fs_path.data) "user.virtfs.rdev" 8 ino.st_rdev g3 ino
    e3.1 (by rw [e3.2.1, e2.2.1, e1.2.1]; exact hn)
  rw [h4] at e4
  simp only at e1 e2 e3 e4
  refine ⟨trivial, ?_⟩
  simp only [xattr_stat, ← e1.2.2, ← e2.2.2, ← e3.2.2, ← e4.2.2, Inode.stat]
  split_ifs <;> rfl

theorem setxattr_step (c : Prop) [Decidable c] (path name : String) (v : List Nat) (h : Host)
    (hok : (if c then host_setxattr path name v h else (0, h)).1 = 0) :
    (c → (h.fs path).isSome) ∧
    (if c then host_setxattr path name v h else (0, h)).2.fs path =
      (h.fs path).map (xattr_upd c name v) := by
  by_cases hc : c
  · simp only [hc, if_true] at hok ⊢
    unfold host_setxattr at hok ⊢
    rw [Host.next_eq] at hok ⊢
    cases hj : h.plan.head?.join with
    | some e => rw [hj] at hok; simp [Host.fail] at hok
    | none =>
      rw [hj] at hok
      simp only [] at hok ⊢
      cases hn : h.fs path with
      | none => simp [hn, Host.fail] at hok
      | some ino => simp [hn, Host.setNode, xattr_upd, hc]
  · simp only [hc, if_false]
    cases h.fs path <;> simp [xattr_upd, hc]

theorem xattr_upd_same (c : Prop) [Decidable c] (name : String) (v : List Nat) (ino : Inode)
    (hc : c) : (xattr_upd c name v ino).xattrs name = some v := by
  simp [xattr_upd, hc]

theorem xattr_upd_other (c : Prop) [Decidable c] (name k : String) (v : List Nat) (ino : Inode)
    (hk : k ≠ name) : (xattr_upd c name v ino).xattrs k = ino.xattrs k := by
  unfold xattr_upd
  split_ifs
  · simp [hk]
  · rfl

theorem set_xattr_ok (path : String) (credp : FsCred) (h : Host)
    (hok : (local_set_xattr path credp h).1 = 0) :
    ((credp.fc_uid ≠ UNSET32 ∨ credp.fc_gid ≠ UNSET32 ∨ int16_ne_minus1 credp.fc_mode = true ∨
      credp.fc_rdev ≠ UNSET64) → ((local_set_xattr path credp h).2.fs path).isSome) ∧
    ∀ ino, (local_set_xattr path credp h).2.fs path = some ino →
      (credp.fc_uid ≠ UNSET32 → ino.xattrs "user.virtfs.uid" = some (le_bytes 4 credp.fc_uid)) ∧
      (credp.fc_gid ≠ UNSET32 → ino.xattrs "user.virtfs.gid" = some (le_bytes 4 credp.fc_gid)) ∧
      (int16_ne_minus1 credp.fc_mode = true →
        ino.xattrs "user.virtfs.mode" = some (le_bytes 4 credp.fc_mode)) ∧
      (credp.fc_rdev ≠ UNSET64 → ino.xattrs "user.virtfs.rdev" = some (le_bytes 8 credp.fc_rdev)) := by
  rw [local_set_xattr] at hok ⊢
  simp only [] at hok ⊢
  generalize hr1 : (if credp.fc_uid ≠ UNSET32 then
      host_setxattr path "user.virtfs.uid" (le_bytes 4 credp.fc_uid) h else (0, h)) = r1 at hok ⊢
  by_cases z1 : r1.1 = 0
  swap
  · rw [if_pos z1] at hok; exact absurd hok z1
  rw [if_neg (not_not.mpr z1)] at hok ⊢
  generalize hr2 : (if credp.fc_gid ≠ UNSET32 then
      host_setxattr path "user.virtfs.gid" (le_bytes 4 credp.fc_gid) r1.2 else (0, r1.2)) = r2
    at hok ⊢
  by_cases z2 : r2.1 = 0
  swap
  · rw [if_pos z2] at hok; exact absurd hok z2
  rw [if_neg (not_not.mpr z2)] at hok ⊢
  generalize hr3 : (if int16_ne_minus1 credp.fc_mode = true then
      host_setxattr path "user.virtfs.mode" (le_bytes 4 credp.fc_mode) r2.2 else (0, r2.2)) = r3
    at hok ⊢
  by_cases z3 : r3.1 = 0
  swap
  · rw [if_pos z3] at hok; exact absurd hok z3
  rw [if_neg (not_not.mpr z3)] at hok ⊢
  generalize hr4 : (if credp.fc_rdev ≠ UNSET64 then
      host_setxattr path "user.virtfs.rdev" (le_bytes 8 credp.fc_rdev) r3.2 else (0, r3.2)) = r4
    at hok ⊢
  by_cases z4 : r4.1 = 0
  swap
  · rw [if_pos z4] at hok; exact absurd hok z4
  rw [if_neg (not_not.mpr z4)]
  subst hr1
  have s1 := setxattr_step _ path _ _ h z1
  subst hr2
  have s2 := setxattr_step _ path _ _ _ z2
  subst hr3
  have s3 := setxattr_step _ path _ _ _ z3
  subst hr4
  have s4 := setxattr_step _ path _ _ _ z4
  rw [s4.2, s3.2, s2.2, s1.2]
  cases hn : h.fs path with
  | none =>
    have n1 := s1.2; rw [hn] at n1
    have n2 := s2.2; rw [n1] at n2
    have n3 := s3.2; rw [n2] at n3
    have a1 := s1.1; have a2 := s2.1; have a3 := s3.1; have a4 := s4.1
    rw [hn] at a1; rw [n1] at a2; rw [n2] at a3; rw [n3] at a4
    simp only [Option.map_none', Option.isSome_none, Bool.false_eq_true, imp_false] at a1 a2 a3 a4
    constructor
    · rintro (x | x | x | x)
      · exact absurd x a1
      · exact absurd x a2
      · exact absurd x a3
      · exact absurd x a4
    · intro ino hi
      simp at hi
  | some ino0 =>
    constructor
    · intro _; simp
    · intro ino hi
      simp only [Option.map_some'] at hi
      have hi' := (Option.some.inj hi).symm
      subst hi'
      refine ⟨?_, ?_, ?_, ?_⟩ <;> intro hw
      · rw [xattr_upd_other _ _ _ _ _ (by decide), xattr_upd_other _ _ _ _ _ (by decide),
          xattr_upd_other _ _ _ _ _ (by decide), xattr_upd_same _ _ _ _ hw]
      · rw [xattr_upd_other _ _ _ _ _ (by decide), xattr_upd_other _ _ _ _ _ (by decide),
          xattr_upd_same _ _ _ _ hw]
      · rw [xattr_upd_other _ _ _ _ _ (by decide), xattr_upd_same _ _ _ _ hw]
      · rw [xattr_upd_same _ _ _ _ hw]

theorem xattr_field_written (ino : Inode) (name : String) (w v real : Nat)
    (hw : 0 < w) (hx : ino.xattrs name = some (le_bytes w v)) :
    xattr_field ino name w real = le_value (le_bytes w v) := by
  unfold xattr_field
  rw [hx]
  simp only [le_bytes_length]
  rw [if_neg (by omega)]

theorem xattr_field_absent (ino : Inode) (name : String) (w real : Nat)
    (hx : ino.xattrs name = none) : xattr_field ino name w real = real := by
  unfold xattr_field
  rw [hx]

/-- C13: under mapped-xattr, after `local_set_xattr` has returned 0 a
`local_lstat` of the same path (run with no failure scheduled) succeeds whenever
one of the four attributes was written or the object exists, and reports for
each of uid, gid, mode and rdev that was written exactly the written value, and
for each field whose attribute the object does not carry the value of the real
`lstat`.  Under passthrough and under none `local_lstat` is the real `lstat`. -/
theorem set_xattr_then_lstat (ctx : FsContext) (fs_path : V9fsPath) (credp : FsCred)
    (st : Stat) (h : Host)
    (hu : credp.fc_uid < 2 ^ 32) (hg : credp.fc_gid < 2 ^ 32) (hmo : credp.fc_mode < 2 ^ 32)
    (hr : credp.fc_rdev < 2 ^ 64) :
    (sm_is ctx .mapped → (local_set_xattr (rpath ctx fs_path.data) credp h).1 = 0 →
      ((credp.fc_uid ≠ UNSET32 ∨ credp.fc_gid ≠ UNSET32 ∨ int16_ne_minus1 credp.fc_mode = true ∨
          credp.fc_rdev ≠ UNSET64) →
        (local_lstat ctx fs_path st (local_set_xattr (rpath ctx fs_path.data) credp h).2.calm).1
          = 0) ∧
      ∀ ino, (local_set_xattr (rpath ctx fs_path.data) credp h).2.fs (rpath ctx fs_path.data)
          = some ino →
        (host_lstat (rpath ctx fs_path.data) st
          (local_set_xattr (rpath ctx fs_path.data) credp h).2.calm).2.1 = ino.stat ∧
        (local_lstat ctx fs_path st (local_set_xattr (rpath ctx fs_path.data) credp h).2.calm).1
          = 0 ∧
        (credp.fc_uid ≠ UNSET32 →
          (local_lstat ctx fs_path st
            (local_set_xattr (rpath ctx fs_path.data) credp h).2.calm).2.1.st_uid
              = credp.fc_uid) ∧
        (credp.fc_gid ≠ UNSET32 →
          (local_lstat ctx fs_path st
            (local_set_xattr (rpath ctx fs_path.data) credp h).2.calm).2.1.st_gid
              = credp.fc_gid) ∧
        (int16_ne_minus1 credp.fc_mode = true →
          (local_lstat ctx fs_path st
            (local_set_xattr (rpath ctx fs_path.data) credp h).2.calm).2.1.st_mode
              = credp.fc_mode) ∧
        (credp.fc_rdev ≠ UNSET64 →
          (local_lstat ctx fs_path st
            (local_set_xattr (rpath ctx fs_path.data) credp h).2.calm).2.1.st_rdev
              = credp.fc_rdev) ∧
        (ino.xattrs "user.virtfs.uid" = none →
          (local_lstat ctx fs_path st
            (local_set_xattr (rpath ctx fs_path.data) credp h).2.calm).2.1.st_uid
              = ino.st_uid) ∧
        (ino.xattrs "user.virtfs.gid" = none →
          (local_lstat ctx fs_path st
            (local_set_xattr (rpath ctx fs_path.data) credp h).2.calm).2.1.st_gid
              = ino.st_gid) ∧
        (ino.xattrs "user.virtfs.mode" = none →
          (local_lstat ctx fs_path st
            (local_set_xattr (rpath ctx fs_path.data) credp h).2.calm).2.1.st_mode
              = ino.st_mode) ∧
        (ino.xattrs "user.virtfs.rdev" = none →
          (local_lstat ctx fs_path st
            (local_set_xattr (rpath ctx fs_path.data) credp h).2.calm).2.1.st_rdev
              = ino.st_rdev)) ∧
    ((sm_is ctx .passthrough ∨ sm_is ctx .none) → ∀ g : Host,
      local_lstat ctx fs_path st g = host_lstat (rpath ctx fs_path.data) st g) := by
  constructor
  · intro hm hok
    have hs := set_xattr_ok (rpath ctx fs_path.data) credp h hok
    have key : ∀ ino, (local_set_xattr (rpath ctx fs_path.data) credp h).2.fs
        (rpath ctx fs_path.data) = some ino →
        (local_lstat ctx fs_path st
          (local_set_xattr (rpath ctx fs_path.data) credp h).2.calm).1 = 0 ∧
        (local_lstat ctx fs_path st
          (local_set_xattr (rpath ctx fs_path.data) credp h).2.calm).2.1 = xattr_stat ino :=
      fun ino hi => local_lstat_mapped_calm ctx fs_path st _ ino hm rfl hi
    constructor
    · intro hw
      obtain ⟨ino, hi⟩ := Option.isSome_iff_exists.mp (hs.1 hw)
      exact (key ino hi).1
    · intro ino hi
      obtain ⟨k1, k2⟩ := key ino hi
      obtain ⟨w1, w2, w3, w4⟩ := hs.2 ino hi
      refine ⟨?_, k1, ?_, ?_, ?_, ?_, ?_, ?_, ?_, ?_⟩
      · rw [host_lstat_calm _ st (local_set_xattr (rpath ctx fs_path.data) credp h).2.calm ino rfl hi]
      · intro hw
        rw [k2]
        exact (xattr_field_written ino _ 4 _ _ (by decide) (w1 hw)).trans
          (le_value_le_bytes_4 _ hu)
      · intro hw
        rw [k2]
        exact (xattr_field_written ino _ 4 _ _ (by decide) (w2 hw)).trans
          (le_value_le_bytes_4 _ hg)
      · intro hw
        rw [k2]
        exact (xattr_field_written ino _ 4 _ _ (by decide) (w3 hw)).trans
          (le_value_le_bytes_4 _ hmo)
      · intro hw
        rw [k2]
        exact (xattr_field_written ino _ 8 _ _ (by decide) (w4 hw)).trans
          (le_value_le_bytes_8 _ hr)
      · intro hx; rw [k2]; exact xattr_field_absent ino _ 4 _ hx
      · intro hx; rw [k2]; exact xattr_field_absent ino _ 4 _ hx
      · intro hx; rw [k2]; exact xattr_field_absent ino _ 4 _ hx
      · intro hx; rw [k2]; exact xattr_field_absent ino _ 8 _ hx
  · intro hm g
    have hb : ctx.export_flags &&& V9FS_SM_MAPPED = 0 ∧
        ctx.export_flags &&& V9FS_SM_MAPPED_FILE = 0 := by
      rcases hm with hm | hm
      · exact ⟨(sm_bits_passthrough hm).1, (sm_bits_passthrough hm).2.1⟩
      · exact ⟨(sm_bits_none hm).1, (sm_bits_none hm).2.1⟩
    unfold local_lstat
    simp only [hb.1, hb.2, ne_eq, not_true_eq_false, if_false]
    rcases hl : host_lstat (rpath ctx fs_path.data) st g with ⟨e, s, g'⟩
    simp only [ite_self]

theorem set_xattr_then_lstat_witness :
    sm_is ctx_mapped .mapped ∧
    (local_set_xattr (rpath ctx_mapped path_f.data) cred_644 (host_f [])).1 = 0 ∧
    (local_lstat ctx_mapped path_f stat_1000
      (local_set_xattr (rpath ctx_mapped path_f.data) cred_644 (host_f [])).2.calm).1 = 0 ∧
    local_lstat ctx_none path_f stat_1000 (host_f []) =
      host_lstat (rpath ctx_none path_f.data) stat_1000 (host_f []) :=
  ⟨by decide, by decide,
   ((set_xattr_then_lstat ctx_mapped path_f cred_644 stat_1000 (host_f []) (by decide)
      (by decide) (by decide) (by decide)).1 (by decide) (by decide)).1 (Or.inl (by decide)),
   (set_xattr_then_lstat ctx_none path_f cred_644 stat_1000 (host_f []) (by decide)
      (by decide) (by decide) (by decide)).2 (Or.inr (by decide)) (host_f [])⟩

theorem strrchr_lt (s : List Char) (c : Char) (i : Nat) (h : strrchr s c = some i) :
    i < s.length := by
  induction s generalizing i with
  | nil => simp [strrchr] at h
  | cons x xs ih =>
    rw [strrchr] at h
    cases hr : strrchr xs c with
    | some j =>
      rw [hr] at h
      simp only [Option.some.injEq] at h
      have := ih j hr
      simp only [List.length_cons]
      omega
    | none =>
      rw [hr] at h
      simp only at h
      split_ifs at h
      simp only [Option.some.injEq] at h
      simp only [List.length_cons]
      omega

theorem attr_path_length (ctx : FsContext) (p : String) :
    (rpath ctx p).length < (local_mapped_attr_path ctx p).length := by
  have e : ("/" : String).length = 1 := rfl
  have e2 : (".virtfs_metadata" : String).length = 16 := rfl
  have hl : p.length = p.data.length := rfl
  unfold local_mapped_attr_path rpath
  cases hs : strrchr p.data '/' with
  | some i =>
    have := strrchr_lt _ _ _ hs
    simp only [String.length_append, String.length_mk, List.length_take, List.length_drop,
      VIRTFS_META_DIR, e, e2, hl]
    omega
  | none =>
    simp only [String.length_append, String.length_mk, List.length_take, VIRTFS_META_DIR, e, e2]
    omega

theorem attr_path_ne_rpath (ctx : FsContext) (p : String) :
    local_mapped_attr_path ctx p ≠ rpath ctx p := by
  intro e
  have := attr_path_length ctx p
  rw [e] at this
  exact lt_irrefl _ this

theorem host_remove_spec (p : String) (h : Host) :
    ((host_remove p h).1 = 0 ∨ (host_remove p h).1 = -1) ∧
    (host_remove p h).2.plan = h.plan.tail ∧
    (∀ q, q ≠ p → (host_remove p h).2.fs q = h.fs q) ∧
    (∀ q, h.fs q = none → (host_remove p h).2.fs q = none) ∧
    ((host_remove p h).1 = 0 → (host_remove p h).2.fs p = none) ∧
    ((host_remove p h).1 ≠ 0 → (host_remove p h).2.fs = h.fs) ∧
    ((host_remove p h).1 ≠ 0 → (host_remove p h).2.errno = ENOENT → some ENOENT ∉ h.plan →
      h.fs p = none) := by
  unfold host_remove
  rw [Host.next_eq]
  cases hj : h.plan.head?.join with
  | some e =>
    refine ⟨by simp [Host.fail], by simp [Host.fail], by simp [Host.fail],
      fun q hq => by simpa [Host.fail] using hq, by simp [Host.fail], by simp [Host.fail], ?_⟩
    intro _ he hp
    simp only [Host.fail] at he
    subst he
    exfalso
    apply hp
    rcases hpl : h.plan with _ | ⟨o, rest⟩
    · rw [hpl] at hj; simp at hj
    · rw [hpl] at hj
      have ho : o = some ENOENT := by simpa using hj
      rw [ho]; exact List.mem_cons_self _ _
  | none =>
    cases hn : h.fs p with
    | none =>
      refine ⟨by simp [Host.fail, hn], by simp [Host.fail, hn], by simp [Host.fail, hn],
        fun q hq => by simpa [Host.fail, hn] using hq, by simp [Host.fail, hn],
        by simp [Host.fail, hn], fun _ _ _ => rfl⟩
    | some ino =>
      refine ⟨by simp [Host.setNode, hn], by simp [Host.setNode, hn], ?_, ?_,
        by simp [Host.setNode, hn], by simp [Host.setNode, hn], by simp [Host.setNode, hn]⟩
      · intro q hq; simp [Host.setNode, hn, hq]
      · intro q hq
        simp only [Host.setNode, hn]
        by_cases hqp : q = p
        · simp [hqp]
        · simpa [hqp] using hq

theorem local_unlinkat_eq (ctx : FsContext) (dir : V9fsPath) (name : String) (flags : Nat)
    (h : Host) (hm : sm_is ctx .mapped_file) :
    local_unlinkat ctx dir name flags h =
      (if failed_not_enoent (unlinkat_dir_step ctx (DELIMITER_IN_PATH dir.data name) flags h)
       then unlinkat_dir_step ctx (DELIMITER_IN_PATH dir.data name) flags h
       else if failed_not_enoent
           (unlinkat_shadow_step ctx (DELIMITER_IN_PATH dir.data name) flags h)
       then unlinkat_shadow_step ctx (DELIMITER_IN_PATH dir.data name) flags h
       else host_remove (rpath ctx (DELIMITER_IN_PATH dir.data name))
        (unlinkat_shadow_step ctx (DELIMITER_IN_PATH dir.data name) flags h).2) := by
  obtain ⟨h0, h1⟩ := mapped_file_bits hm
  unfold local_unlinkat
  simp only [h1, ne_eq, not_false_eq_true, if_true, failed_not_enoent, unlinkat_shadow_step,
    unlinkat_dir_step]

theorem attr_fold_fd {α : Type} (f : List Char → α → α) (n : Nat) :
    ∀ (fd1 fd2 : Int) (c : List Char) (a : α),
      attr_fold f n ⟨fd1, c⟩ a = attr_fold f n ⟨fd2, c⟩ a := by
  induction n with
  | zero => intro fd1 fd2 c a; rfl
  | succ n ih =>
    intro fd1 fd2 c a
    cases c with
    | nil => simp [attr_fold, fgets]
    | cons x xs =>
      simp only [attr_fold, fgets]
      exact ih _ _ _ _

theorem local_fopen_r_link (p : String) (h : Host) (ino : Inode) (hn : h.fs p = some ino)
    (hl : ino.isLnk = true) : (local_fopen p "r" h).1 = none := by
  cases he : (local_fopen p "r" h).1 with
  | none => rfl
  | some fp =>
    obtain ⟨ino', h1, h2, -⟩ := local_fopen_r_some p h fp he
    rw [hn] at h1
    simp only [Option.some.injEq] at h1
    subst h1
    rw [hl] at h2
    exact absurd h2 (by decide)

theorem mapped_file_attr_shadow (ctx : FsContext) (path : String) (st : Stat) (h : Host)
    (hp : h.plan = []) :
    (local_mapped_file_attr ctx path st h).1 =
      shadow_stat (h.fs (local_mapped_attr_path ctx path)) st := by
  cases hn : h.fs (local_mapped_attr_path ctx path) with
  | none => exact mapped_file_attr_absent ctx path st h hn
  | some ino =>
    unfold shadow_stat
    simp only []
    cases hl : ino.isLnk with
    | true =>
      have := local_fopen_r_link _ h ino hn hl
      rcases hr : local_fopen (local_mapped_attr_path ctx path) "r" h with ⟨_ | fp, h1⟩
      · simp [local_mapped_file_attr, hr]
      · rw [hr] at this; simp at this
    | false =>
      obtain ⟨fd, hfd⟩ := mapped_file_attr_calm ctx path st h ino hp hn hl
      rw [hfd, mapped_file_attr_loop_eq, mapped_file_attr_loop_eq]
      simp only [Bool.false_eq_true, if_false]
      exact attr_fold_fd _ _ _ _ _ _

theorem local_lstat_mapped_file_calm (ctx : FsContext) (fs_path : V9fsPath) (st : Stat)
    (h : Host) (ino : Inode) (hm : sm_is ctx .mapped_file) (hp : h.plan = [])
    (hn : h.fs (rpath ctx fs_path.data) = some ino) :
    (local_lstat ctx fs_path st h).1 = 0 ∧
    (local_lstat ctx fs_path st h).2.1 =
      shadow_stat (h.fs (local_mapped_attr_path ctx fs_path.data)) ino.stat := by
  obtain ⟨h0, h1⟩ := mapped_file_bits hm
  have := mapped_file_attr_shadow ctx fs_path.data ino.stat h hp
  unfold local_lstat
  simp only [host_lstat_calm _ st h ino hp hn, h0, h1, ne_eq, not_false_eq_true, if_true,
    not_true_eq_false, if_false]
  rcases hr : local_mapped_file_attr ctx fs_path.data ino.stat h with ⟨s, g⟩
  rw [hr] at this
  exact ⟨trivial, this⟩

theorem host_rename_spec (a b : String) (h : Host) :
    ((host_rename a b h).1 = 0 ∨ (host_rename a b h).1 = -1) ∧
    ((host_rename a b h).1 ≠ 0 → (host_rename a b h).2.fs = h.fs) ∧
    ((host_rename a b h).1 = 0 → ∃ ino, h.fs a = some ino ∧
      (host_rename a b h).2.fs b = some ino ∧
      (∀ q, q ≠ a → q ≠ b → (host_rename a b h).2.fs q = h.fs q)) := by
  unfold host_rename
  rw [Host.next_eq]
  cases hj : h.plan.head?.join with
  | some e => simp [Host.fail]
  | none =>
    cases hn : h.fs a with
    | none => simp [Host.fail, hn]
    | some ino =>
      by_cases hab : a = b
      · subst hab
        simp [hn]
      · refine ⟨by simp [hn, hab], by simp [hn, hab], fun _ => ⟨ino, rfl, ?_, ?_⟩⟩
        · simp [Host.setNode, hn, hab]
        · intro q qa qb
          simp [Host.setNode, hn, hab, qa, qb]

theorem host_mkdir_keep (p : String) (mode : Nat) (h : Host) (q : String) (ino : Inode)
    (hq : h.fs q = some ino) : (host_mkdir p mode h).2.fs q = some ino := by
  unfold host_mkdir
  rw [Host.next_eq]
  cases hj : h.plan.head?.join with
  | some e => simpa [Host.fail] using hq
  | none =>
    cases hn : h.fs p with
    | none =>
      have : q ≠ p := fun e => by rw [e, hn] at hq; exact absurd hq (by simp)
      simpa [Host.setNode, hn, this] using hq
    | some j => simpa [Host.fail, hn] using hq

theorem create_attr_dir_keep (ctx : FsContext) (path : String) (h : Host) (q : String)
    (ino : Inode) (hq : h.fs q = some ino) :
    (local_create_mapped_attr_dir ctx path h).2.fs q = some ino := by
  unfold local_create_mapped_attr_dir
  simp only []
  split_ifs <;> exact host_mkdir_keep _ _ h q ino hq

theorem local_rename_eq (ctx : FsContext) (oldpath newpath : String) (h : Host)
    (hm : sm_is ctx .mapped_file) :
    local_rename ctx oldpath newpath h =
      (if (rename_dir_step ctx newpath h).1 < 0 then rename_dir_step ctx newpath h
       else if failed_not_enoent (rename_shadow_step ctx oldpath newpath h)
       then rename_shadow_step ctx oldpath newpath h
       else host_rename (rpath ctx oldpath) (rpath ctx newpath)
        (rename_shadow_step ctx oldpath newpath h).2) := by
  obtain ⟨h0, h1⟩ := mapped_file_bits hm
  unfold local_rename
  simp only [h1, ne_eq, not_false_eq_true, if_true, failed_not_enoent, rename_shadow_step,
    rename_dir_step]

/-- C15 fails on the code: under mapped-file, `d/a` has no shadow file and
`local_lstat` reports its real uid 1000, while a shadow file for the name `b`
stores uid 500.  `local_rename` of `d/a` to `d/b` returns 0 (the shadow rename
fails with `ENOENT`, which is ignored), and `local_lstat` of `d/b` then reports
uid 500. -/
theorem local_rename_stale_shadow :
    (local_lstat ctx_mapped_file ⟨4, "d/a"⟩ stat_1000 (host_stale [])).1 = 0 ∧
    (local_lstat ctx_mapped_file ⟨4, "d/a"⟩ stat_1000 (host_stale [])).2.1.st_uid = 1000 ∧
    (local_rename ctx_mapped_file "d/a" "d/b" (host_stale [])).1 = 0 ∧
    (local_lstat ctx_mapped_file ⟨4, "d/b"⟩ stat_1000
      (local_rename ctx_mapped_file "d/a" "d/b" (host_stale [])).2).1 = 0 ∧
    (local_lstat ctx_mapped_file ⟨4, "d/b"⟩ stat_1000
      (local_rename ctx_mapped_file "d/a" "d/b" (host_stale [])).2).2.1.st_uid = 500 := by
  decide

/-- C15 as amended: under mapped-file, when the old name exists and has a shadow
file, the rename of the shadow file succeeds and `local_rename` returns 0, the
shadow file of the old name is afterwards the shadow file of the new name and
`local_lstat` of the new name reports the stat that `local_lstat` of the old
name reported before (both run with no failure scheduled; the old name is not
itself the shadow path of the new one).  Once the metadata directory of the new
name is in place, a shadow rename that succeeds or fails with `ENOENT` is
followed by the real rename, whose result is returned, and a shadow rename that
fails with another error ends the operation with its -1, no real rename run. -/
theorem local_rename_shadow (ctx : FsContext) (po pn : V9fsPath) (st : Stat) (h : Host)
    (hm : sm_is ctx .mapped_file) :
    (∀ n s, h.fs (rpath ctx po.data) = some n →
      h.fs (local_mapped_attr_path ctx po.data) = some s →
      rpath ctx po.data ≠ local_mapped_attr_path ctx pn.data →
      (rename_shadow_step ctx po.data pn.data h).1 = 0 →
      (local_rename ctx po.data pn.data h).1 = 0 →
      (local_rename ctx po.data pn.data h).2.fs (local_mapped_attr_path ctx pn.data) = some s ∧
      (local_lstat ctx po st h.calm).1 = 0 ∧
      (local_lstat ctx pn st (local_rename ctx po.data pn.data h).2.calm).1 = 0 ∧
      (local_lstat ctx pn st (local_rename ctx po.data pn.data h).2.calm).2.1 =
        (local_lstat ctx po st h.calm).2.1) ∧
    (0 ≤ (rename_dir_step ctx pn.data h).1 →
      ¬ failed_not_enoent (rename_shadow_step ctx po.data pn.data h) →
      local_rename ctx po.data pn.data h =
        host_rename (rpath ctx po.data) (rpath ctx pn.data)
          (rename_shadow_step ctx po.data pn.data h).2) ∧
    (0 ≤ (rename_dir_step ctx pn.data h).1 →
      failed_not_enoent (rename_shadow_step ctx po.data pn.data h) →
      local_rename ctx po.data pn.data h = rename_shadow_step ctx po.data pn.data h ∧
      (local_rename ctx po.data pn.data h).1 = -1) := by
  have he := local_rename_eq ctx po.data pn.data h hm
  refine ⟨?_, ?_, ?_⟩
  · intro n s hn hs hne hsh hok
    have hd : ¬ (rename_dir_step ctx pn.data h).1 < 0 := by
      intro hlt
      rw [he, if_pos hlt] at hok
      rw [hok] at hlt
      exact absurd hlt (by decide)
    have hnf : ¬ failed_not_enoent (rename_shadow_step ctx po.data pn.data h) := by
      intro hf
      have := hf.1
      rw [hsh] at this
      exact absurd this (by decide)
    rw [he, if_neg hd, if_neg hnf] at hok ⊢
    -- after the directory step
    have k1 : (rename_dir_step ctx pn.data h).2.fs (rpath ctx po.data) = some n :=
      create_attr_dir_keep ctx pn.data h _ n hn
    have k2 : (rename_dir_step ctx pn.data h).2.fs (local_mapped_attr_path ctx po.data)
        = some s := create_attr_dir_keep ctx pn.data h _ s hs
    -- after the shadow rename
    obtain ⟨-, -, sp⟩ := host_rename_spec (local_mapped_attr_path ctx po.data)
      (local_mapped_attr_path ctx pn.data) (rename_dir_step ctx pn.data h).2
    obtain ⟨s', e1, e2, e3⟩ := sp hsh
    rw [k2] at e1
    simp only [Option.some.injEq] at e1
    subst e1
    have m1 : (rename_shadow_step ctx po.data pn.data h).2.fs (rpath ctx po.data) = some n := by
      unfold rename_shadow_step
      rw [e3 _ (attr_path_ne_rpath ctx po.data).symm hne]
      exact k1
    -- after the real rename
    obtain ⟨-, -, rp⟩ := host_rename_spec (rpath ctx po.data) (rpath ctx pn.data)
      (rename_shadow_step ctx po.data pn.data h).2
    obtain ⟨n', f1, f2, f3⟩ := rp hok
    rw [m1] at f1
    simp only [Option.some.injEq] at f1
    subst f1
    have m2 : (host_rename (rpath ctx po.data) (rpath ctx pn.data)
        (rename_shadow_step ctx po.data pn.data h).2).2.fs (local_mapped_attr_path ctx pn.data)
        = some s := by
      rw [f3 _ hne.symm (attr_path_ne_rpath ctx pn.data)]
      exact e2
    have l1 := local_lstat_mapped_file_calm ctx po st h.calm n hm rfl hn
    have l2 := local_lstat_mapped_file_calm ctx pn st
      (host_rename (rpath ctx po.data) (rpath ctx pn.data)
        (rename_shadow_step ctx po.data pn.data h).2).2.calm n hm rfl f2
    refine ⟨m2, l1.1, l2.1, ?_⟩
    rw [l1.2, l2.2]
    show shadow_stat ((host_rename (rpath ctx po.data) (rpath ctx pn.data)
        (rename_shadow_step ctx po.data pn.data h).2).2.fs (local_mapped_attr_path ctx pn.data))
        n.stat = shadow_stat (h.fs (local_mapped_attr_path ctx po.data)) n.stat
    rw [m2, hs]
  · intro hd hnf
    rw [he, if_neg (not_lt.mpr hd), if_neg hnf]
  · intro hd hf
    rw [he, if_neg (not_lt.mpr hd), if_pos hf]
    refine ⟨rfl, ?_⟩
    rcases (host_rename_spec (local_mapped_attr_path ctx po.data)
      (local_mapped_attr_path ctx pn.data) (rename_dir_step ctx pn.data h).2).1 with z | z
    · have := hf.1
      unfold rename_shadow_step at this
      rw [z] at this
      exact absurd this (by decide)
    · exact z

theorem local_rename_shadow_witness :
    sm_is ctx_mapped_file .mapped_file ∧
    (local_rename ctx_mapped_file "d/f" "d/g" (host_shadow "virtfs.uid=500\n" [])).1 = 0 ∧
    (local_lstat ctx_mapped_file ⟨4, "d/g"⟩ stat_1000
      (local_rename ctx_mapped_file path_d_f.data "d/g"
        (host_shadow "virtfs.uid=500\n" [])).2.calm).2.1 =
      (local_lstat ctx_mapped_file path_d_f stat_1000
        (host_shadow "virtfs.uid=500\n" []).calm).2.1 :=
  ⟨by decide, by decide,
   ((local_rename_shadow ctx_mapped_file path_d_f ⟨4, "d/g"⟩ stat_1000
      (host_shadow "virtfs.uid=500\n" []) (by decide)).1 (file_1000 [])
      (file_1000 "virtfs.uid=500\n".data) rfl rfl (by decide) (by decide)
      (by decide)).2.2.2⟩

theorem host_open_excl (p : String) (flags mode : Nat) (h : Host)
    (hc : flags &&& O_CREAT ≠ 0) (hx : flags &&& O_EXCL ≠ 0) :
    (∀ ino, h.fs p = some ino →
      (host_open p flags mode h).1 = -1 ∧ (host_open p flags mode h).2.fs = h.fs) ∧
    ((host_open p flags mode h).1 ≠ -1 →
      h.fs p = none ∧
      (∃ ino, (host_open p flags mode h).2.fs p = some ino ∧ ino.data = [] ∧
        ino.st_mode = S_IFREG ||| (mode &&& 0o7777)) ∧
      (host_open p flags mode h).2.fds (host_open p flags mode h).1 = some ⟨p, 0⟩ ∧
      (∀ q, q ≠ p → (host_open p flags mode h).2.fs q = h.fs q)) := by
  unfold host_open
  rw [Host.next_eq]
  cases hj : h.plan.head?.join with
  | some e => simp [Host.fail]
  | none =>
    cases hn : h.fs p with
    | some ino => simp [Host.fail, hn, hc, hx]
    | none =>
      simp only [hn, hc, ne_eq, not_false_eq_true, if_true]
      refine ⟨fun ino hi => by simp at hi, fun _ => ⟨trivial,
        ⟨newInode { h with plan := h.plan.tail } (S_IFREG ||| (mode &&& 0o7777)) 0 [],
          ?_, rfl, rfl⟩, ?_, ?_⟩⟩
      · simp [Host.setNode, Host.setFd]
      · simp [Host.setNode, Host.setFd]
      · intro q hq; simp [Host.setNode, Host.setFd, hq]

theorem host_write_fresh (fd : Int) (buf : List Char) (h : Host) (p : String) (ino : Inode)
    (hf : h.fds fd = some ⟨p, 0⟩) (hn : h.fs p = some ino) (hd : ino.data = []) :
    ((host_write fd buf h).1 = -1 ∧ (host_write fd buf h).2.fs = h.fs ∧
      (host_write fd buf h).2.fds = h.fds) ∨
    ((host_write fd buf h).1 = buf.length ∧
      (host_write fd buf h).2.fs p = some { ino with data := buf } ∧
      ∀ q, q ≠ p → (host_write fd buf h).2.fs q = h.fs q) := by
  unfold host_write
  rw [Host.next_eq]
  cases hj : h.plan.head?.join with
  | some e => left; simp [Host.fail]
  | none =>
    right
    refine ⟨?_, ?_, ?_⟩
    · simp [hf, hn]
    · simp [Host.setNode, Host.setFd, hf, hn, hd]
    · intro q hq; simp [Host.setNode, Host.setFd, hf, hn, hq]

theorem host_write_lost (fd : Int) (buf : List Char) (h : Host) :
    (host_write fd buf h).2.lost = h.lost := by
  unfold host_write
  rw [Host.next_eq]
  cases hj : h.plan.head?.join with
  | some e => simp [Host.fail]
  | none =>
    simp only [Host.fail]
    cases hf : h.fds fd with
    | none => simp
    | some f => simp only []; cases hn : h.fs f.path <;> simp [Host.setNode, Host.setFd]

theorem write_retry_lost (n : Nat) : ∀ (fd : Int) (buf : List Char) (h : Host),
    (write_retry n fd buf h).2.lost = h.lost := by
  induction n with
  | zero => intro fd buf h; exact host_write_lost fd buf h
  | succ n ih =>
    intro fd buf h
    simp only [write_retry]
    split_ifs
    · rw [ih, host_write_lost]
    · exact host_write_lost fd buf h

theorem write_retry_fresh (n : Nat) : ∀ (fd : Int) (buf : List Char) (h : Host) (p : String)
    (ino : Inode), h.fds fd = some ⟨p, 0⟩ → h.fs p = some ino → ino.data = [] →
    (write_retry n fd buf h).1 = -1 ∨
    ((write_retry n fd buf h).1 = buf.length ∧
      (write_retry n fd buf h).2.fs p = some { ino with data := buf } ∧
      ∀ q, q ≠ p → (write_retry n fd buf h).2.fs q = h.fs q) := by
  induction n with
  | zero =>
    intro fd buf h p ino hf hn hd
    rw [write_retry]
    rcases host_write_fresh fd buf h p ino hf hn hd with x | x
    · exact Or.inl x.1
    · exact Or.inr x
  | succ n ih =>
    intro fd buf h p ino hf hn hd
    rw [write_retry]
    rcases host_write_fresh fd buf h p ino hf hn hd with x | x
    · split_ifs
      · have := ih fd buf (host_write fd buf h).2 p ino (by rw [x.2.2]; exact hf)
          (by rw [x.2.1]; exact hn) hd
        rcases this with y | y
        · exact Or.inl y
        · right
          refine ⟨y.1, y.2.1, fun q hq => ?_⟩
          rw [y.2.2 q hq, x.2.1]
      · exact Or.inl x.1
    · have hne : ¬ ((host_write fd buf h).1 = -1 ∧ (host_write fd buf h).2.errno = EINTR) := by
        intro hc
        have := x.1
        rw [hc.1] at this
        omega
      rw [if_neg hne]
      exact Or.inr x

theorem local_fopen_w_other (p : String) (h : Host) (q : String) (hq : q ≠ p) :
    (local_fopen p "w" h).2.fs q = h.fs q := by
  rw [local_fopen_w_eq]
  have hm := host_open_fs_other p
    (O_NOFOLLOW ||| (O_WRONLY ||| O_TRUNC ||| O_CREAT) ||| O_BINARY) 0o666 h q hq
  split_ifs
  · exact hm
  · generalize hr : host_fdopen
      (host_open p (O_NOFOLLOW ||| (O_WRONLY ||| O_TRUNC ||| O_CREAT) ||| O_BINARY) 0o666 h).1
      (host_open p (O_NOFOLLOW ||| (O_WRONLY ||| O_TRUNC ||| O_CREAT) ||| O_BINARY) 0o666 h).2
      = r
    have hf := (host_fdopen_fs
      (host_open p (O_NOFOLLOW ||| (O_WRONLY ||| O_TRUNC ||| O_CREAT) ||| O_BINARY) 0o666 h).1
      (host_open p (O_NOFOLLOW ||| (O_WRONLY ||| O_TRUNC ||| O_CREAT) ||| O_BINARY)
        0o666 h).2).1
    rw [hr] at hf
    rcases r with ⟨_ | fp', h1'⟩
    · simp only [(host_close_fs _ _).1]
      simp only at hf
      rw [hf]; exact hm
    · simp only at hf ⊢
      rw [hf]; exact hm

theorem update_other (p : String) (credp : FsCred) (a : MapAttr) (ret : Int) (h : Host)
    (q : String) (hq : q ≠ p) :
    (set_mapped_file_attr_update p credp a ret h).2.fs q = h.fs q := by
  have hw := local_fopen_w_other p h q hq
  rcases hr : local_fopen p "w" h with ⟨_ | fp, h1⟩
  · rw [hr] at hw
    simp only [set_mapped_file_attr_update, hr]
    exact hw
  · obtain ⟨ino, -, -, -, hfd⟩ := local_fopen_w_some p h fp (by rw [hr])
    rw [hr] at hw hfd
    simp only [set_mapped_file_attr_update, hr]
    simp only at hfd hw
    rw [host_fclose_other fp _ ⟨p, 0⟩ q (by rw [(print_spec fp _ h1).2.1]; exact hfd) hq,
      (print_spec fp _ h1).1]
    exact hw

theorem set_attr_keep (ctx : FsContext) (path : String) (credp : FsCred) (h : Host)
    (q : String) (ino : Inode) (hq : h.fs q = some ino)
    (hne : q ≠ local_mapped_attr_path ctx path) :
    (local_set_mapped_file_attr ctx path credp h).2.fs q = some ino := by
  have hr' : (local_fopen (local_mapped_attr_path ctx path) "r" h).2.fs q = some ino := by
    rw [local_fopen_r_fs]; exact hq
  have hb := local_fopen_buf (local_mapped_attr_path ctx path) "r" h
  rcases hr : local_fopen (local_mapped_attr_path ctx path) "r" h with ⟨_ | fp, h1⟩
  · rw [hr] at hr'
    simp only [local_set_mapped_file_attr, hr]
    split_ifs
    · exact create_attr_dir_keep ctx path h1 q ino hr'
    · rw [update_other _ _ _ _ _ q hne]
      exact create_attr_dir_keep ctx path h1 q ino hr'
  · rw [hr] at hr' hb
    simp only [local_set_mapped_file_attr, hr]
    rw [update_other _ _ _ _ _ q hne, (host_fclose_read fp h1 (hb fp rfl)).1]
    exact hr'

theorem symlink_mapped_exists (buffer oldpath : String) (tag : Host → Int × Host) (h : Host)
    (ino : Inode) (hn : h.fs buffer = some ino) :
    (symlink_mapped buffer oldpath tag h).1 = -1 ∧
    (symlink_mapped buffer oldpath tag h).2.fs = h.fs := by
  have ho := (host_open_excl buffer
    (O_CREAT ||| O_EXCL ||| O_RDWR ||| O_NOFOLLOW ||| O_BINARY) SM_LOCAL_MODE_BITS h
    (by decide) (by decide)).1 ino hn
  unfold symlink_mapped
  simp only [ho.1, if_true]
  exact ⟨trivial, ho.2⟩

theorem symlink_mapped_ok (buffer oldpath : String) (tag : Host → Int × Host) (h : Host)
    (hok : (symlink_mapped buffer oldpath tag h).1 = 0) :
    h.fs buffer = none ∧
    ∃ h3 ino, h3.fs buffer = some ino ∧ ino.data = oldpath.data ∧
      ino.st_mode = S_IFREG ||| (SM_LOCAL_MODE_BITS &&& 0o7777) ∧
      symlink_mapped buffer oldpath tag h = tag h3 ∧ (tag h3).1 = 0 ∧ h3.lost = h.lost := by
  have hx := (host_open_excl buffer
    (O_CREAT ||| O_EXCL ||| O_RDWR ||| O_NOFOLLOW ||| O_BINARY) SM_LOCAL_MODE_BITS h
    (by decide) (by decide)).2
  have hlo := host_open_lost buffer
    (O_CREAT ||| O_EXCL ||| O_RDWR ||| O_NOFOLLOW ||| O_BINARY) SM_LOCAL_MODE_BITS h
  unfold symlink_mapped at hok ⊢
  generalize host_open buffer (O_CREAT ||| O_EXCL ||| O_RDWR ||| O_NOFOLLOW ||| O_BINARY)
    SM_LOCAL_MODE_BITS h = o at hok hx hlo ⊢
  by_cases ho : o.1 = -1
  · simp only [ho, if_true] at hok
    exact absurd hok (by decide)
  obtain ⟨hnone, ⟨ino0, hi, hd, hmode⟩, hfd, -⟩ := hx ho
  have hw := write_retry_fresh o.2.plan.length o.1 oldpath.data o.2 buffer ino0 hfd hi hd
  have hlw := write_retry_lost o.2.plan.length o.1 oldpath.data o.2
  simp only [ho, if_false] at hok ⊢
  generalize write_retry o.2.plan.length o.1 oldpath.data o.2 = w at hok hw hlw ⊢
  by_cases hs : w.1 = (oldpath.data.length : Int)
  swap
  · simp only [hs, ne_eq, not_false_eq_true, if_true, err_end] at hok
    exact absurd hok (by decide)
  simp only [hs, ne_eq, not_true_eq_false, if_false] at hok ⊢
  have hw2 : w.2.fs buffer = some { ino0 with data := oldpath.data } := by
    rcases hw with x | x
    · rw [hs] at x; omega
    · exact x.2.1
  by_cases ht : (tag (host_close o.1 w.2).2).1 = -1
  · simp only [ht, if_true, err_end] at hok
    exact absurd hok (by decide)
  simp only [ht, if_false] at hok ⊢
  refine ⟨hnone, (host_close o.1 w.2).2, { ino0 with data := oldpath.data }, ?_, rfl, hmode,
    rfl, hok, by rw [host_close_lost, hlw, hlo]⟩
  rw [(host_close_fs _ _).1]
  exact hw2

theorem xattr_upd_fields (c : Prop) [Decidable c] (name : String) (v : List Nat) (ino : Inode) :
    (xattr_upd c name v ino).data = ino.data ∧ (xattr_upd c name v ino).st_mode = ino.st_mode := by
  unfold xattr_upd
  split_ifs <;> exact ⟨rfl, rfl⟩

theorem set_xattr_node (path : String) (credp : FsCred) (h : Host) (ino0 : Inode)
    (hok : (local_set_xattr path credp h).1 = 0) (hn : h.fs path = some ino0) :
    ∃ ino, (local_set_xattr path credp h).2.fs path = some ino ∧ ino.data = ino0.data ∧
      ino.st_mode = ino0.st_mode := by
  rw [local_set_xattr] at hok ⊢
  simp only [] at hok ⊢
  generalize hr1 : (if credp.fc_uid ≠ UNSET32 then
      host_setxattr path "user.virtfs.uid" (le_bytes 4 credp.fc_uid) h else (0, h)) = r1 at hok ⊢
  by_cases z1 : r1.1 = 0
  swap
  · rw [if_pos z1] at hok; exact absurd hok z1
  rw [if_neg (not_not.mpr z1)] at hok ⊢
  generalize hr2 : (if credp.fc_gid ≠ UNSET32 then
      host_setxattr path "user.virtfs.gid" (le_bytes 4 credp.fc_gid) r1.2 else (0, r1.2)) = r2
    at hok ⊢
  by_cases z2 : r2.1 = 0
  swap
  · rw [if_pos z2] at hok; exact absurd hok z2
  rw [if_neg (not_not.mpr z2)] at hok ⊢
  generalize hr3 : (if int16_ne_minus1 credp.fc_mode = true then
      host_setxattr path "user.virtfs.mode" (le_bytes 4 credp.fc_mode) r2.2 else (0, r2.2)) = r3
    at hok ⊢
  by_cases z3 : r3.1 = 0
  swap
  · rw [if_pos z3] at hok; exact absurd hok z3
  rw [if_neg (not_not.mpr z3)] at hok ⊢
  generalize hr4 : (if credp.fc_rdev ≠ UNSET64 then
      host_setxattr path "user.virtfs.rdev" (le_bytes 8 credp.fc_rdev) r3.2 else (0, r3.2)) = r4
    at hok ⊢
  by_cases z4 : r4.1 = 0
  swap
  · rw [if_pos z4] at hok; exact absurd hok z4
  rw [if_neg (not_not.mpr z4)]
  subst hr1
  have s1 := setxattr_step _ path _ _ h z1
  subst hr2
  have s2 := setxattr_step _ path _ _ _ z2
  subst hr3
  have s3 := setxattr_step _ path _ _ _ z3
  subst hr4
  have s4 := setxattr_step _ path _ _ _ z4
  rw [s4.2, s3.2, s2.2, s1.2, hn]
  refine ⟨_, rfl, ?_, ?_⟩
  · rw [(xattr_upd_fields _ _ _ _).1, (xattr_upd_fields _ _ _ _).1, (xattr_upd_fields _ _ _ _).1,
      (xattr_upd_fields _ _ _ _).1]
  · rw [(xattr_upd_fields _ _ _ _).2, (xattr_upd_fields _ _ _ _).2, (xattr_upd_fields _ _ _ _).2,
      (xattr_upd_fields _ _ _ _).2]

/-- When the test `(int16_t)mode != -1` lets a 32-bit mode with `S_IFLNK` added
pass, the mode is not the `-1` of an `int` either. -/
theorem mode_lnk (m : Nat) (hw : m < 2 ^ 32) (ht : int16_ne_minus1 (m ||| S_IFLNK) = true) :
    m ||| S_IFLNK < 2 ^ 32 ∧ toInt32 (m ||| S_IFLNK) ≠ -1 := by
  have h32 : m ||| S_IFLNK < 2 ^ 32 := Nat.or_lt_two_pow hw (by decide)
  refine ⟨h32, ?_⟩
  unfold int16_ne_minus1 at ht
  simp only [bne_iff_ne, ne_eq] at ht
  unfold toInt32
  split_ifs <;> omega

theorem local_readlink_calm (ctx : FsContext) (fs_path : V9fsPath) (buf : List Char)
    (bufsz : Nat) (h : Host) (ino : Inode)
    (hm : ctx.export_flags &&& V9FS_SM_MAPPED ≠ 0 ∨ ctx.export_flags &&& V9FS_SM_MAPPED_FILE ≠ 0)
    (hp : h.plan = []) (hn : h.fs (rpath ctx fs_path.data) = some ino)
    (hl : ino.isLnk = false) :
    (local_readlink ctx fs_path buf bufsz h).1 = ((ino.data.take bufsz).length : Int) ∧
    (local_readlink ctx fs_path buf bufsz h).2.1 =
      ino.data.take bufsz ++ buf.drop (ino.data.take bufsz).length := by
  have f1 : (O_RDONLY ||| O_NOFOLLOW ||| O_BINARY) &&& O_CREAT = 0 := by decide
  have f2 : (O_RDONLY ||| O_NOFOLLOW ||| O_BINARY) &&& O_TRUNC = 0 := by decide
  have f3 : (O_RDONLY ||| O_NOFOLLOW ||| O_BINARY) &&& O_ACCMODE = O_RDONLY := by decide
  have hfd : ((h.next_fd : Nat) : Int) ≠ -1 := by omega
  cases h with
  | mk fs fds nf er eu eg plan wb lo =>
    simp only at hp hn hfd
    subst hp
    simp only [local_readlink, hm, if_true, host_open, Host.next, hn, f1, f2, f3, hl, ne_eq,
      not_true_eq_false, false_and, and_false, if_false, Bool.false_eq_true, Host.setNode,
      Host.setFd, hfd, List.length_nil, read_retry, host_read, if_pos, List.drop_zero]
    simp

theorem fresh_file_regular (ino : Inode)
    (hmode : ino.st_mode = S_IFREG ||| (SM_LOCAL_MODE_BITS &&& 0o7777)) :
    ino.st_mode &&& S_IFMT = S_IFREG ∧ ino.isLnk = false := by
  unfold Inode.isLnk
  rw [hmode]
  decide

/-- C14 fails on the code.  (1) The requested mode 057777 with `S_IFLNK` added
is 0177777, whose low 16 bits are all ones: the tagging step takes it for the
unset value and writes no mode, so after a `local_symlink` that returns 0
`local_lstat` reports the real mode `S_IFREG | 0600`, under mapped-xattr and
under mapped-file.  (2) Under mapped-file with the requested mode 0777, on a
host where the `fclose` that writes the shadow file fails (the eleventh call,
here with 28, `ENOSPC`), `local_symlink` returns 0 all the same and
`local_lstat` reports the real mode again. -/
theorem symlink_mode_tag_missing :
    (0o57777 : Nat) < 2 ^ 32 ∧
    (local_symlink ctx_mapped "target" dir_d "l" ⟨0, 0, 0o57777, UNSET64⟩ (host_empty [])).1 = 0 ∧
    (local_lstat ctx_mapped ⟨4, DELIMITER_IN_PATH dir_d.data "l"⟩ stat_1000
      (local_symlink ctx_mapped "target" dir_d "l" ⟨0, 0, 0o57777, UNSET64⟩
        (host_empty [])).2.calm).2.1.st_mode = S_IFREG ||| 0o600 ∧
    (local_symlink ctx_mapped_file "target" dir_d "l" ⟨0, 0, 0o57777, UNSET64⟩
      (host_empty [])).1 = 0 ∧
    (local_lstat ctx_mapped_file ⟨4, DELIMITER_IN_PATH dir_d.data "l"⟩ stat_1000
      (local_symlink ctx_mapped_file "target" dir_d "l" ⟨0, 0, 0o57777, UNSET64⟩
        (host_empty [])).2.calm).2.1.st_mode = S_IFREG ||| 0o600 ∧
    S_IFREG ||| 0o600 ≠ 0o57777 ||| S_IFLNK ∧
    (local_symlink ctx_mapped_file "target" dir_d "l" ⟨0, 0, 0o777, UNSET64⟩
      (host_empty [none, none, none, none, none, none, none, none, none, none, some 28])).1
      = 0 ∧
    (local_lstat ctx_mapped_file ⟨4, DELIMITER_IN_PATH dir_d.data "l"⟩ stat_1000
      (local_symlink ctx_mapped_file "target" dir_d "l" ⟨0, 0, 0o777, UNSET64⟩
        (host_empty [none, none, none, none, none, none, none, none, none, none,
          some 28])).2.calm).2.1.st_mode = S_IFREG ||| 0o600 ∧
    S_IFREG ||| 0o600 ≠ 0o777 ||| S_IFLNK := by
  decide

/-- C14 as amended: under mapped-xattr and under mapped-file, for every
requested mode (a 32-bit value): when `local_symlink` returns 0 the name did
not exist before, the object at the new path is a regular file whose content is
exactly the target, `local_lstat` of the new path (run with no failure
scheduled) returns 0, and `local_readlink` with a buffer of at least the length
of the target returns that length and stores the target at the start of the
buffer.  The stat reports `st_mode` equal to the requested mode with `S_IFLNK`
added provided the low 16 bits of that value are not all ones (the test
`(int16_t)mode != -1` of the tagging step) and, under mapped-file, none of the
output written to the shadow file was lost (no `fprintf` and no `fclose` of the
call failed; the code does not look at their results).  When the name exists
already `local_symlink` returns -1 and the file system is as it was. -/
theorem symlink_then_readlink (ctx : FsContext) (oldpath : String) (dir_path : V9fsPath)
    (name : String) (credp : FsCred) (st : Stat) (buf : List Char) (bufsz size : Nat)
    (h : Host) (hm : sm_is ctx .mapped ∨ sm_is ctx .mapped_file)
    (hw : credp.fc_mode < 2 ^ 32) :
    ((local_symlink ctx oldpath dir_path name credp h).1 = 0 →
      h.fs (rpath ctx (DELIMITER_IN_PATH dir_path.data name)) = none ∧
      (∃ ino, (local_symlink ctx oldpath dir_path name credp h).2.fs
          (rpath ctx (DELIMITER_IN_PATH dir_path.data name)) = some ino ∧
        ino.data = oldpath.data ∧ ino.st_mode &&& S_IFMT = S_IFREG) ∧
      (local_lstat ctx ⟨size, DELIMITER_IN_PATH dir_path.data name⟩ st
        (local_symlink ctx oldpath dir_path name credp h).2.calm).1 = 0 ∧
      (int16_ne_minus1 (credp.fc_mode ||| S_IFLNK) = true →
        (sm_is ctx .mapped_file →
          (local_symlink ctx oldpath dir_path name credp h).2.lost = h.lost) →
        (local_lstat ctx ⟨size, DELIMITER_IN_PATH dir_path.data name⟩ st
          (local_symlink ctx oldpath dir_path name credp h).2.calm).2.1.st_mode =
            credp.fc_mode ||| S_IFLNK) ∧
      (oldpath.data.length ≤ bufsz →
        (local_readlink ctx ⟨size, DELIMITER_IN_PATH dir_path.data name⟩ buf bufsz
          (local_symlink ctx oldpath dir_path name credp h).2.calm).1 = oldpath.data.length ∧
        (local_readlink ctx ⟨size, DELIMITER_IN_PATH dir_path.data name⟩ buf bufsz
          (local_symlink ctx oldpath dir_path name credp h).2.calm).2.1 =
            oldpath.data ++ buf.drop oldpath.data.length)) ∧
    (∀ ino, h.fs (rpath ctx (DELIMITER_IN_PATH dir_path.data name)) = some ino →
      (local_symlink ctx oldpath dir_path name credp h).1 = -1 ∧
      (local_symlink ctx oldpath dir_path name credp h).2.fs = h.fs) := by
  rcases hm with hm | hm
  · -- mapped-xattr
    have hb := sm_bits_mapped hm
    have he : local_symlink ctx oldpath dir_path name credp h =
        symlink_mapped (rpath ctx (DELIMITER_IN_PATH dir_path.data name)) oldpath
          (local_set_xattr (rpath ctx (DELIMITER_IN_PATH dir_path.data name))
            { credp with fc_mode := credp.fc_mode ||| S_IFLNK }) h := by
      unfold local_symlink
      simp only [hb, ne_eq, not_false_eq_true, if_true]
    rw [he]
    refine ⟨fun hok => ?_, fun ino hi => symlink_mapped_exists _ _ _ h ino hi⟩
    obtain ⟨hnone, h3, ino, hi, hd, hmo, heq, htag, -⟩ := symlink_mapped_ok _ _ _ h hok
    rw [heq]
    obtain ⟨ino', hi', hd', hm'⟩ := set_xattr_node _ _ h3 ino htag hi
    obtain ⟨hreg, hlnk⟩ := fresh_file_regular ino' (hm'.trans hmo)
    obtain ⟨l1, l2⟩ := local_lstat_mapped_calm ctx ⟨size, DELIMITER_IN_PATH dir_path.data name⟩
      st (local_set_xattr (rpath ctx (DELIMITER_IN_PATH dir_path.data name))
        { credp with fc_mode := credp.fc_mode ||| S_IFLNK } h3).2.calm ino' hm rfl hi'
    obtain ⟨r1, r2⟩ := local_readlink_calm ctx ⟨size, DELIMITER_IN_PATH dir_path.data name⟩
      buf bufsz (local_set_xattr (rpath ctx (DELIMITER_IN_PATH dir_path.data name))
        { credp with fc_mode := credp.fc_mode ||| S_IFLNK } h3).2.calm ino' (Or.inl hb) rfl hi'
      hlnk
    refine ⟨hnone, ⟨ino', hi', hd'.trans hd, hreg⟩, l1, fun ml1 _ => ?_, fun hlen => ?_⟩
    · have hx := ((set_xattr_ok _ _ h3 htag).2 ino' hi').2.2.1 ml1
      rw [l2]
      exact (xattr_field_written ino' _ 4 _ _ (by decide) hx).trans
        (le_value_le_bytes_4 _ (mode_lnk _ hw ml1).1)
    · rw [r1, r2, hd', hd, List.take_of_length_le hlen]
      exact ⟨rfl, rfl⟩
  · -- mapped-file
    obtain ⟨b0, b1⟩ := mapped_file_bits hm
    have he : local_symlink ctx oldpath dir_path name credp h =
        symlink_mapped (rpath ctx (DELIMITER_IN_PATH dir_path.data name)) oldpath
          (local_set_mapped_file_attr ctx (DELIMITER_IN_PATH dir_path.data name)
            { credp with fc_mode := credp.fc_mode ||| S_IFLNK }) h := by
      unfold local_symlink
      simp only [b0, b1, ne_eq, not_true_eq_false, if_false, not_false_eq_true, if_true]
    rw [he]
    refine ⟨fun hok => ?_, fun ino hi => symlink_mapped_exists _ _ _ h ino hi⟩
    obtain ⟨hnone, h3, ino, hi, hd, hmo, heq, htag, hl3⟩ := symlink_mapped_ok _ _ _ h hok
    rw [heq]
    have hi' := set_attr_keep ctx (DELIMITER_IN_PATH dir_path.data name)
      { credp with fc_mode := credp.fc_mode ||| S_IFLNK } h3 _ ino hi
      (attr_path_ne_rpath ctx _).symm
    obtain ⟨hreg, hlnk⟩ := fresh_file_regular ino hmo
    have hov := stat_after_update ctx (DELIMITER_IN_PATH dir_path.data name)
      { credp with fc_mode := credp.fc_mode ||| S_IFLNK } h3 ino.stat htag
    obtain ⟨r1, r2⟩ := local_readlink_calm ctx ⟨size, DELIMITER_IN_PATH dir_path.data name⟩
      buf bufsz (local_set_mapped_file_attr ctx (DELIMITER_IN_PATH dir_path.data name)
        { credp with fc_mode := credp.fc_mode ||| S_IFLNK } h3).2.calm ino (Or.inr b1) rfl hi'
      hlnk
    generalize (local_set_mapped_file_attr ctx (DELIMITER_IN_PATH dir_path.data name)
        { credp with fc_mode := credp.fc_mode ||| S_IFLNK } h3).2 = h2 at hi' hov r1 r2 ⊢
    have hr' : h2.calm.fs (rpath ctx (DELIMITER_IN_PATH dir_path.data name)) = some ino := hi'
    have e : local_lstat ctx ⟨size, DELIMITER_IN_PATH dir_path.data name⟩ st h2.calm =
        (0, (local_mapped_file_attr ctx (DELIMITER_IN_PATH dir_path.data name)
          ino.stat h2.calm).1,
          (local_mapped_file_attr ctx (DELIMITER_IN_PATH dir_path.data name)
          ino.stat h2.calm).2) := by
      simp [local_lstat, host_lstat_calm _ st h2.calm ino rfl hr', b0, b1]
    refine ⟨hnone, ⟨ino, hi', hd, hreg⟩, by rw [e], fun ml1 hout => ?_, fun hlen => ?_⟩
    · obtain ⟨ml2, ml3⟩ := mode_lnk _ hw ml1
      rw [e]
      simp only [hov ((hout hm).trans hl3.symm), overlay, set_mapped_file_attr_merge, ml1,
        if_true, ml3, ne_eq, not_false_eq_true, toUInt32_toInt32 _ ml2]
    · rw [r1, r2, hd, List.take_of_length_le hlen]
      exact ⟨rfl, rfl⟩

theorem symlink_then_readlink_witness :
    (sm_is ctx_mapped_file .mapped ∨ sm_is ctx_mapped_file .mapped_file) ∧
    (0o777 : Nat) < 2 ^ 32 ∧
    (local_symlink ctx_mapped_file "target" dir_d "l" ⟨0, 0, 0o777, UNSET64⟩
      (host_empty [])).1 = 0 ∧
    int16_ne_minus1 (0o777 ||| S_IFLNK) = true ∧
    (local_symlink ctx_mapped_file "target" dir_d "l" ⟨0, 0, 0o777, UNSET64⟩
      (host_empty [])).2.lost = (host_empty []).lost ∧
    (local_lstat ctx_mapped_file ⟨4, DELIMITER_IN_PATH dir_d.data "l"⟩ stat_1000
      (local_symlink ctx_mapped_file "target" dir_d "l" ⟨0, 0, 0o777, UNSET64⟩
        (host_empty [])).2.calm).2.1.st_mode = 0o777 ||| S_IFLNK :=
  ⟨Or.inr (by decide), by decide, by decide, by decide, by decide,
   ((symlink_then_readlink ctx_mapped_file "target" dir_d "l" ⟨0, 0, 0o777, UNSET64⟩
      stat_1000 [] 6 4 (host_empty []) (Or.inr (by decide)) (by decide)).1
      (by decide)).2.2.2.1 (by decide) (fun _ => by decide)⟩

theorem nofollow_bits (flags : Nat) :
    (flags ||| O_NOFOLLOW ||| O_BINARY) &&& O_NOFOLLOW = O_NOFOLLOW ∧
    (flags ||| O_NOFOLLOW ||| O_BINARY) &&& flags = flags := by
  constructor
  · apply Nat.eq_of_testBit_eq
    intro i
    simp only [Nat.testBit_and, Nat.testBit_or]
    cases flags.testBit i <;> cases O_NOFOLLOW.testBit i <;> cases O_BINARY.testBit i <;> rfl
  · apply Nat.eq_of_testBit_eq
    intro i
    simp only [Nat.testBit_and, Nat.testBit_or]
    cases flags.testBit i <;> cases O_NOFOLLOW.testBit i <;> cases O_BINARY.testBit i <;> rfl

theorem host_open_link (p : String) (flags mode : Nat) (h : Host) (ino : Inode)
    (hn : h.fs p = some ino) (hl : ino.isLnk = true) (hf : flags &&& O_NOFOLLOW ≠ 0) :
    (host_open p flags mode h).1 = -1 ∧ (host_open p flags mode h).2.fs = h.fs := by
  unfold host_open
  rw [Host.next_eq]
  cases hj : h.plan.head?.join with
  | some e => simp [Host.fail]
  | none =>
    simp only [hn]
    split_ifs <;> simp_all [Host.fail]

/-- C21: for every caller-supplied flags value, the flags `local_open` and
`local_open2` hand to `open` contain `O_NOFOLLOW` and every bit the caller
supplied: `local_open` is the `open` of the real path with these flags, and in
each of the four security models the `open` of `local_open2` is run with these
flags (its failure is returned as it is, and a descriptor that is returned is
the one this `open` produced).  In consequence neither function opens a path
whose last component is a symbolic link. -/
theorem open_forces_nofollow (ctx : FsContext) (fs_path dir_path : V9fsPath) (name : String)
    (flags : Nat) (credp : FsCred) (fs : V9fsFidOpenState) (h : Host) :
    ((flags ||| O_NOFOLLOW ||| O_BINARY) &&& O_NOFOLLOW = O_NOFOLLOW ∧
      (flags ||| O_NOFOLLOW ||| O_BINARY) &&& flags = flags) ∧
    local_open ctx fs_path flags fs h =
      ((host_open (rpath ctx fs_path.data) (flags ||| O_NOFOLLOW ||| O_BINARY) 0 h).1,
        { fs with fd :=
          (host_open (rpath ctx fs_path.data) (flags ||| O_NOFOLLOW ||| O_BINARY) 0 h).1 },
        (host_open (rpath ctx fs_path.data) (flags ||| O_NOFOLLOW ||| O_BINARY) 0 h).2) ∧
    (∀ m : SecModel, sm_is ctx m → ∃ mode,
      ((host_open (rpath ctx (DELIMITER_IN_PATH dir_path.data name))
          (flags ||| O_NOFOLLOW ||| O_BINARY) mode h).1 = -1 →
        local_open2 ctx dir_path name flags credp fs h =
          (-1, fs, (host_open (rpath ctx (DELIMITER_IN_PATH dir_path.data name))
            (flags ||| O_NOFOLLOW ||| O_BINARY) mode h).2)) ∧
      ((local_open2 ctx dir_path name flags credp fs h).1 ≠ -1 →
        (local_open2 ctx dir_path name flags credp fs h).1 =
          (host_open (rpath ctx (DELIMITER_IN_PATH dir_path.data name))
            (flags ||| O_NOFOLLOW ||| O_BINARY) mode h).1)) ∧
    (∀ ino, h.fs (rpath ctx fs_path.data) = some ino → ino.isLnk = true →
      (local_open ctx fs_path flags fs h).1 = -1) ∧
    (∀ ino, h.fs (rpath ctx (DELIMITER_IN_PATH dir_path.data name)) = some ino →
      ino.isLnk = true → (local_open2 ctx dir_path name flags credp fs h).1 = -1) := by
  have hb := nofollow_bits flags
  have hnz : (flags ||| O_NOFOLLOW ||| O_BINARY) &&& O_NOFOLLOW ≠ 0 := by
    rw [hb.1]; decide
  refine ⟨hb, rfl, ?_, ?_, ?_⟩
  · intro m hm
    cases m with
    | passthrough =>
      obtain ⟨b0, b1, b2, -⟩ := sm_bits_passthrough hm
      refine ⟨credp.fc_mode, ?_, ?_⟩
      · intro hf
        simp [local_open2, b0, b1, b2, hf]
      · intro hok
        by_cases hf : (host_open (rpath ctx (DELIMITER_IN_PATH dir_path.data name))
          (flags ||| O_NOFOLLOW ||| O_BINARY) credp.fc_mode h).1 = -1
        · exfalso; apply hok; simp [local_open2, b0, b1, b2, hf]
        · revert hok
          simp only [local_open2, b0, b1, b2, hf, ne_eq, not_true_eq_false, if_false,
            not_false_eq_true, true_or, if_true, open2_err_end]
          split_ifs <;> simp_all
    | mapped =>
      have b0 := sm_bits_mapped hm
      refine ⟨SM_LOCAL_MODE_BITS, ?_, ?_⟩
      · intro hf
        simp [local_open2, b0, hf]
      · intro hok
        by_cases hf : (host_open (rpath ctx (DELIMITER_IN_PATH dir_path.data name))
          (flags ||| O_NOFOLLOW ||| O_BINARY) SM_LOCAL_MODE_BITS h).1 = -1
        · exfalso; apply hok; simp [local_open2, b0, hf]
        · revert hok
          simp only [local_open2, b0, hf, ne_eq, not_false_eq_true, if_true, if_false,
            open2_err_end]
          split_ifs <;> simp_all
    | none =>
      obtain ⟨b0, b1, b2, -⟩ := sm_bits_none hm
      refine ⟨credp.fc_mode, ?_, ?_⟩
      · intro hf
        simp [local_open2, b0, b1, b2, hf]
      · intro hok
        by_cases hf : (host_open (rpath ctx (DELIMITER_IN_PATH dir_path.data name))
          (flags ||| O_NOFOLLOW ||| O_BINARY) credp.fc_mode h).1 = -1
        · exfalso; apply hok; simp [local_open2, b0, b1, b2, hf]
        · revert hok
          simp only [local_open2, b0, b1, b2, hf, ne_eq, not_true_eq_false, if_false,
            not_false_eq_true, or_true, if_true, open2_err_end]
          split_ifs <;> simp_all
    | mapped_file =>
      obtain ⟨b0, b1⟩ := mapped_file_bits hm
      refine ⟨SM_LOCAL_MODE_BITS, ?_, ?_⟩
      · intro hf
        simp [local_open2, b0, b1, hf]
      · intro hok
        by_cases hf : (host_open (rpath ctx (DELIMITER_IN_PATH dir_path.data name))
          (flags ||| O_NOFOLLOW ||| O_BINARY) SM_LOCAL_MODE_BITS h).1 = -1
        · exfalso; apply hok; simp [local_open2, b0, b1, hf]
        · revert hok
          simp only [local_open2, b0, b1, hf, ne_eq, not_true_eq_false, if_false,
            not_false_eq_true, if_true, open2_err_end]
          split_ifs <;> simp_all
  · intro ino hn hl
    exact (host_open_link _ _ 0 h ino hn hl hnz).1
  · intro ino hn hl
    have k := fun mode => (host_open_link (rpath ctx (DELIMITER_IN_PATH dir_path.data name))
      (flags ||| O_NOFOLLOW ||| O_BINARY) mode h ino hn hl hnz).1
    unfold local_open2
    simp only [k, if_true]
    split_ifs <;> rfl

theorem open_forces_nofollow_witness :
    (local_open ctx_none path_d_f O_RDONLY ⟨-1, []⟩ (host_symlink_f [])).1 = -1 ∧
    (local_open2 ctx_none dir_d "f" (O_RDWR ||| O_CREAT) cred_644 ⟨-1, []⟩
      (host_symlink_f [])).1 = -1 :=
  ⟨(open_forces_nofollow ctx_none path_d_f dir_d "f" O_RDONLY cred_644 ⟨-1, []⟩
      (host_symlink_f [])).2.2.2.1 (link_1000 "/etc/passwd") rfl (by decide),
   (open_forces_nofollow ctx_none path_d_f dir_d "f" (O_RDWR ||| O_CREAT) cred_644 ⟨-1, []⟩
      (host_symlink_f [])).2.2.2.2 (link_1000 "/etc/passwd") rfl (by decide)⟩

theorem local_init_table (ctx : FsContextX) (h : Host) (m : SecModel)
    (hm : sm_is ctx.toFsContext m) :
    (local_init ctx h).2.1.xops = some (xattr_table m) ∧
    sm_is (local_init ctx h).2.1.toFsContext m ∧
    (local_init ctx h).2.1.fs_root = ctx.fs_root := by
  have hsm : sm_is (local_init ctx h).2.1.toFsContext m := by
    show (ctx.export_flags ||| V9FS_PATHNAME_FSCONTEXT) &&& V9FS_SM_ALL = m.flag
    have : V9FS_SM_ALL &&& V9FS_PATHNAME_FSCONTEXT = 0 := by decide
    rw [Nat.and_comm, Nat.and_or_distrib_left, this, Nat.or_zero, Nat.and_comm]
    exact hm
  refine ⟨?_, hsm, rfl⟩
  cases m with
  | passthrough =>
    obtain ⟨-, -, b2, -⟩ := sm_bits_passthrough hm
    simp [local_init, b2, xattr_table]
  | mapped =>
    have b0 := sm_bits_mapped hm
    have b1 : ctx.export_flags &&& V9FS_SM_PASSTHROUGH = 0 := by
      rw [sm_and hm V9FS_SM_PASSTHROUGH (by decide)]; decide
    simp [local_init, b0, b1, xattr_table]
  | none =>
    obtain ⟨b0, -, b2, -⟩ := sm_bits_none hm
    have b1 : ctx.export_flags &&& V9FS_SM_PASSTHROUGH = 0 := by
      rw [sm_and hm V9FS_SM_PASSTHROUGH (by decide)]; decide
    simp [local_init, b0, b1, b2, xattr_table]
  | mapped_file =>
    obtain ⟨b0, b1⟩ := mapped_file_bits hm
    have b2 : ctx.export_flags &&& V9FS_SM_PASSTHROUGH = 0 := by
      rw [sm_and hm V9FS_SM_PASSTHROUGH (by decide)]; decide
    have b3 : ctx.export_flags &&& V9FS_SM_NONE = 0 := by
      rw [sm_and hm V9FS_SM_NONE (by decide)]; decide
    simp [local_init, b0, b1, b2, b3, xattr_table]

theorem not_mapped_file_bit {ctx : FsContext} {m : SecModel} (hm : sm_is ctx m)
    (hne : m ≠ .mapped_file) : ctx.export_flags &&& V9FS_SM_MAPPED_FILE = 0 := by
  rw [sm_and hm V9FS_SM_MAPPED_FILE (by decide)]
  cases m with
  | mapped_file => exact absurd rfl hne
  | passthrough => decide
  | mapped => decide
  | none => decide

/-- C22: the four attribute operations hand the context, the path and their
arguments unchanged to the dispatchers, whatever the dispatchers are, and
`local_init` keeps the security model and selects the table of handlers for it.
With the dispatchers as the spec describes them, on a context initialised by
`local_init`: under mapped-file each of the four operations returns -1 with
`errno` set to `EOPNOTSUPP`, the host otherwise as it was and no backend called;
under each other model each operation returns exactly what the backend behind
the table that `local_init` selected returns. -/
theorem xattr_ops_by_model (backend : XattrOps → XattrBackend) (ctx : FsContextX)
    (fs_path : V9fsPath) (name : String) (size : Nat) (value : List Nat) (flags : Int)
    (h0 h : Host) (m : SecModel) (hm : sm_is ctx.toFsContext m) :
    (∀ (x : XattrDispatch) (c : FsContextX),
      local_lgetxattr x c fs_path name size h = x.v9fs_get_xattr c fs_path.data name size h ∧
      local_llistxattr x c fs_path size h = x.v9fs_list_xattr c fs_path.data size h ∧
      local_lsetxattr x c fs_path name value flags h =
        x.v9fs_set_xattr c fs_path.data name value flags h ∧
      local_lremovexattr x c fs_path name h = x.v9fs_remove_xattr c fs_path.data name h) ∧
    ((local_init ctx h0).2.1.xops = some (xattr_table m) ∧
      sm_is (local_init ctx h0).2.1.toFsContext m) ∧
    (m = .mapped_file →
      local_lgetxattr (xattr_dispatch_model backend) (local_init ctx h0).2.1 fs_path name
        size h = (-1, [], { h with errno := EOPNOTSUPP }) ∧
      local_llistxattr (xattr_dispatch_model backend) (local_init ctx h0).2.1 fs_path
        size h = (-1, [], { h with errno := EOPNOTSUPP }) ∧
      local_lsetxattr (xattr_dispatch_model backend) (local_init ctx h0).2.1 fs_path name
        value flags h = (-1, { h with errno := EOPNOTSUPP }) ∧
      local_lremovexattr (xattr_dispatch_model backend) (local_init ctx h0).2.1 fs_path
        name h = (-1, { h with errno := EOPNOTSUPP })) ∧
    (m ≠ .mapped_file →
      local_lgetxattr (xattr_dispatch_model backend) (local_init ctx h0).2.1 fs_path name
        size h = (backend (xattr_table m)).getxattr (local_init ctx h0).2.1.toFsContext
          fs_path.data name size h ∧
      local_llistxattr (xattr_dispatch_model backend) (local_init ctx h0).2.1 fs_path
        size h = (backend (xattr_table m)).listxattr (local_init ctx h0).2.1.toFsContext
          fs_path.data size h ∧
      local_lsetxattr (xattr_dispatch_model backend) (local_init ctx h0).2.1 fs_path name
        value flags h = (backend (xattr_table m)).setxattr
          (local_init ctx h0).2.1.toFsContext fs_path.data name value flags h ∧
      local_lremovexattr (xattr_dispatch_model backend) (local_init ctx h0).2.1 fs_path
        name h = (backend (xattr_table m)).removexattr
          (local_init ctx h0).2.1.toFsContext fs_path.data name h) := by
  obtain ⟨ht, hsm, -⟩ := local_init_table ctx h0 m hm
  refine ⟨fun x c => ⟨rfl, rfl, rfl, rfl⟩, ⟨ht, hsm⟩, fun he => ?_, fun hne => ?_⟩
  · subst he
    obtain ⟨-, b1⟩ := mapped_file_bits hsm
    simp only [local_lgetxattr, local_llistxattr, local_lsetxattr, local_lremovexattr,
      xattr_dispatch_model, b1, ne_eq, not_false_eq_true, if_true, Host.fail, and_self]
  · have b1 := not_mapped_file_bit hsm hne
    simp only [local_lgetxattr, local_llistxattr, local_lsetxattr, local_lremovexattr,
      xattr_dispatch_model, b1, ne_eq, not_true_eq_false, if_false, ht, and_self]

theorem xattr_ops_by_model_witness :
    sm_is (ctx_before_init ctx_mapped_file).toFsContext .mapped_file ∧
    (local_lgetxattr (xattr_dispatch_model host_backend)
      (local_init (ctx_before_init ctx_mapped_file) (host_comment [])).2.1 path_f
      "user.comment" 16 (host_comment [])).1 = -1 ∧
    sm_is (ctx_before_init ctx_passthrough).toFsContext .passthrough ∧
    (local_lgetxattr (xattr_dispatch_model host_backend)
      (local_init (ctx_before_init ctx_passthrough) (host_comment [])).2.1 path_f
      "user.comment" 16 (host_comment [])).2.1 = [104, 105] :=
  ⟨by decide,
    by rw [((xattr_ops_by_model host_backend (ctx_before_init ctx_mapped_file) path_f
      "user.comment" 16 [] 0 (host_comment []) (host_comment []) .mapped_file
      (by decide)).2.2.1 rfl).1],
    by decide,
    by rw [((xattr_ops_by_model host_backend (ctx_before_init ctx_passthrough) path_f
      "user.comment" 16 [] 0 (host_comment []) (host_comment []) .passthrough
      (by decide)).2.2.2 (fun e => SecModel.noConfusion e)).1]; decide⟩

theorem host_mkdir_spec (p : String) (mode : Nat) (h : Host) :
    (host_mkdir p mode h).2.plan = h.plan.tail ∧
    (∀ e, h.plan.head?.join = some e →
      (host_mkdir p mode h).1 = -1 ∧ (host_mkdir p mode h).2.errno = e ∧
      (host_mkdir p mode h).2.fs = h.fs) ∧
    (h.plan.head?.join = none → h.fs p = none →
      (host_mkdir p mode h).1 = 0 ∧
      (∃ ino, (host_mkdir p mode h).2.fs p = some ino ∧ ino.isDir = true) ∧
      ∀ q, q ≠ p → (host_mkdir p mode h).2.fs q = h.fs q) ∧
    (∀ ino, h.plan.head?.join = none → h.fs p = some ino →
      (host_mkdir p mode h).1 = -1 ∧ (host_mkdir p mode h).2.errno = EEXIST ∧
      (host_mkdir p mode h).2.fs = h.fs) := by
  have hdir : ∀ g : Host, (newInode g (S_IFDIR ||| (mode &&& 0o7777)) 0 []).isDir = true := by
    intro g
    show ((S_IFDIR ||| (mode &&& 0o7777)) &&& S_IFMT == S_IFDIR) = true
    have : (S_IFDIR ||| (mode &&& 0o7777)) &&& S_IFMT = S_IFDIR := by
      rw [Nat.and_comm, Nat.and_or_distrib_left, Nat.and_comm S_IFMT (mode &&& 0o7777),
        Nat.and_assoc]
      have e1 : (0o7777 : Nat) &&& S_IFMT = 0 := by decide
      rw [e1]
      have e2 : S_IFMT &&& S_IFDIR = S_IFDIR := by decide
      simp [e2]
    rw [this]; decide
  unfold host_mkdir
  rw [Host.next_eq]
  cases hj : h.plan.head?.join with
  | some e => simp [Host.fail]
  | none =>
    cases hn : h.fs p with
    | none =>
      refine ⟨by simp [hn, Host.setNode], by simp, fun _ _ => ⟨by simp [hn],
        ⟨newInode { h with plan := h.plan.tail } (S_IFDIR ||| (mode &&& 0o7777)) 0 [], ?_,
          hdir _⟩, ?_⟩, by simp⟩
      · simp [hn, Host.setNode]
      · intro q hq; simp [hn, Host.setNode, hq]
    | some ino => simp [Host.fail, hn]

/-- C23: `local_create_mapped_attr_dir` returns 0 when it creates the metadata
directory and when an object of that name exists already (the file system is
then unchanged); a failure is never reported with `EEXIST` and leaves the file
system unchanged, and any other error of `mkdir` is returned as -1 with that
error.  After a call that returned 0 (on a host that reports `EEXIST` only for
names that exist) a second call whose `mkdir` is not made to fail otherwise
returns 0 again and leaves the file system as the first call left it. -/
theorem create_attr_dir_idempotent (ctx : FsContext) (path : String) (h : Host) :
    (h.plan.head?.join = none →
      h.fs (DELIMITER_IN_PATH2 ctx.fs_root (dirname path) VIRTFS_META_DIR) = none →
      (local_create_mapped_attr_dir ctx path h).1 = 0 ∧
      ∃ ino, (local_create_mapped_attr_dir ctx path h).2.fs
        (DELIMITER_IN_PATH2 ctx.fs_root (dirname path) VIRTFS_META_DIR) = some ino ∧
        ino.isDir = true) ∧
    (∀ ino, h.plan.head?.join = none →
      h.fs (DELIMITER_IN_PATH2 ctx.fs_root (dirname path) VIRTFS_META_DIR) = some ino →
      (local_create_mapped_attr_dir ctx path h).1 = 0 ∧
      (local_create_mapped_attr_dir ctx path h).2.fs = h.fs) ∧
    ((local_create_mapped_attr_dir ctx path h).1 ≠ 0 →
      (local_create_mapped_attr_dir ctx path h).1 = -1 ∧
      (local_create_mapped_attr_dir ctx path h).2.errno ≠ EEXIST ∧
      (local_create_mapped_attr_dir ctx path h).2.fs = h.fs) ∧
    (∀ e, h.plan.head?.join = some e → e ≠ EEXIST →
      (local_create_mapped_attr_dir ctx path h).1 = -1 ∧
      (local_create_mapped_attr_dir ctx path h).2.errno = e) ∧
    (h.plan.head?.join ≠ some EEXIST → (local_create_mapped_attr_dir ctx path h).1 = 0 →
      (local_create_mapped_attr_dir ctx path h).2.plan.head?.join = none →
      (local_create_mapped_attr_dir ctx path
        (local_create_mapped_attr_dir ctx path h).2).1 = 0 ∧
      (local_create_mapped_attr_dir ctx path
        (local_create_mapped_attr_dir ctx path h).2).2.fs =
        (local_create_mapped_attr_dir ctx path h).2.fs) := by
  have key : ∀ g : Host,
      (g.plan.head?.join = none →
        g.fs (DELIMITER_IN_PATH2 ctx.fs_root (dirname path) VIRTFS_META_DIR) = none →
        (local_create_mapped_attr_dir ctx path g).1 = 0 ∧
        ∃ ino, (local_create_mapped_attr_dir ctx path g).2.fs
          (DELIMITER_IN_PATH2 ctx.fs_root (dirname path) VIRTFS_META_DIR) = some ino ∧
          ino.isDir = true) ∧
      (∀ ino, g.plan.head?.join = none →
        g.fs (DELIMITER_IN_PATH2 ctx.fs_root (dirname path) VIRTFS_META_DIR) = some ino →
        (local_create_mapped_attr_dir ctx path g).1 = 0 ∧
        (local_create_mapped_attr_dir ctx path g).2.fs = g.fs) ∧
      (∀ e, g.plan.head?.join = some e →
        (local_create_mapped_attr_dir ctx path g).2.fs = g.fs ∧
        (local_create_mapped_attr_dir ctx path g).2.errno = e ∧
        (e ≠ EEXIST → (local_create_mapped_attr_dir ctx path g).1 = -1)) := by
    intro g
    obtain ⟨-, s2, s3, s4⟩ := host_mkdir_spec
      (DELIMITER_IN_PATH2 ctx.fs_root (dirname path) VIRTFS_META_DIR) 0o700 g
    unfold local_create_mapped_attr_dir
    refine ⟨?_, ?_, ?_⟩
    · intro hj hn
      obtain ⟨a, b, -⟩ := s3 hj hn
      simp only [a]
      rw [if_neg (by simp)]
      exact ⟨a, b⟩
    · intro ino hj hn
      obtain ⟨a, b, c⟩ := s4 ino hj hn
      simp only [a, b]
      rw [if_pos (by simp)]
      exact ⟨rfl, c⟩
    · intro e hj
      obtain ⟨a, b, c⟩ := s2 e hj
      simp only [a, b]
      split_ifs with hx
      · exact ⟨c, b, fun hne => absurd hx.2 hne⟩
      · exact ⟨c, b, fun _ => a⟩
  obtain ⟨k1, k2, k3⟩ := key h
  refine ⟨k1, k2, ?_, ?_, ?_⟩
  · intro hne
    cases hj : h.plan.head?.join with
    | some e =>
      obtain ⟨a, b, c⟩ := k3 e hj
      have he : e ≠ EEXIST := by
        intro heq
        apply hne
        obtain ⟨-, s2, -, -⟩ := host_mkdir_spec
          (DELIMITER_IN_PATH2 ctx.fs_root (dirname path) VIRTFS_META_DIR) 0o700 h
        obtain ⟨x, y, -⟩ := s2 e hj
        unfold local_create_mapped_attr_dir
        simp only [x, y, heq]
        rw [if_pos (by simp)]
      exact ⟨c he, by rw [b]; exact he, a⟩
    | none =>
      exfalso
      apply hne
      cases hn : h.fs (DELIMITER_IN_PATH2 ctx.fs_root (dirname path) VIRTFS_META_DIR) with
      | none => exact (k1 hj hn).1
      | some ino => exact (k2 ino hj hn).1
  · intro e hj he
    obtain ⟨a, b, c⟩ := k3 e hj
    exact ⟨c he, b⟩
  · intro hne hok hj2
    obtain ⟨l1, l2, -⟩ := key (local_create_mapped_attr_dir ctx path h).2
    have hex : ∃ ino, (local_create_mapped_attr_dir ctx path h).2.fs
        (DELIMITER_IN_PATH2 ctx.fs_root (dirname path) VIRTFS_META_DIR) = some ino := by
      cases hj : h.plan.head?.join with
      | some e =>
        exfalso
        have he : e ≠ EEXIST := fun heq => hne (by rw [hj, heq])
        have := (k3 e hj).2.2 he
        rw [hok] at this
        exact absurd this (by decide)
      | none =>
        cases hn : h.fs (DELIMITER_IN_PATH2 ctx.fs_root (dirname path) VIRTFS_META_DIR) with
        | none =>
          obtain ⟨-, ino, hi, -⟩ := k1 hj hn
          exact ⟨ino, hi⟩
        | some ino =>
          refine ⟨ino, ?_⟩
          rw [(k2 ino hj hn).2]; exact hn
    obtain ⟨ino, hi⟩ := hex
    exact l2 ino hj2 hi

theorem create_attr_dir_idempotent_witness :
    (local_create_mapped_attr_dir ctx_mapped_file "d/f" (host_plain [])).1 = 0 ∧
    (local_create_mapped_attr_dir ctx_mapped_file "d/f"
      (local_create_mapped_attr_dir ctx_mapped_file "d/f" (host_plain [])).2).1 = 0 :=
  ⟨by decide,
   ((create_attr_dir_idempotent ctx_mapped_file "d/f" (host_plain [])).2.2.2.2 (by decide)
      (by decide) (by decide)).1⟩

/-- C24 fails on the code: the mode `0xFFFF` is not the sentinel `(mode_t)-1`,
yet `local_set_xattr` returns 0 without writing `user.virtfs.mode` and
`local_set_mapped_file_attr` returns 0 leaving the shadow file without a mode
line, because both test `(int16_t)(fc_mode) != -1`; and under mapped-file the
device number `0xFFFFFFFF`, which is not the sentinel `(dev_t)-1`, is not written
either, because it is first stored in an `int`. -/
theorem set_attr_skips_mode_ffff :
    (0xFFFF : Nat) ≠ UNSET32 ∧
    (local_set_xattr "/export/f" ⟨UNSET32, UNSET32, 0xFFFF, UNSET64⟩ (host_f [])).1 = 0 ∧
    (((local_set_xattr "/export/f" ⟨UNSET32, UNSET32, 0xFFFF, UNSET64⟩ (host_f [])).2.fs
      "/export/f").bind fun ino => ino.xattrs "user.virtfs.mode") = none ∧
    (local_set_mapped_file_attr ctx_mapped_file "d/f" ⟨UNSET32, UNSET32, 0xFFFF, UNSET64⟩
      (host_plain [])).1 = 0 ∧
    (((local_set_mapped_file_attr ctx_mapped_file "d/f" ⟨UNSET32, UNSET32, 0xFFFF, UNSET64⟩
      (host_plain [])).2.fs "/export/d/.virtfs_metadata/f").map fun ino => ino.data) = some [] ∧
    (0xFFFFFFFF : Nat) ≠ UNSET64 ∧
    (local_set_mapped_file_attr ctx_mapped_file "d/f" ⟨UNSET32, UNSET32, UNSET32, 0xFFFFFFFF⟩
      (host_plain [])).1 = 0 ∧
    (((local_set_mapped_file_attr ctx_mapped_file "d/f" ⟨UNSET32, UNSET32, UNSET32, 0xFFFFFFFF⟩
      (host_plain [])).2.fs "/export/d/.virtfs_metadata/f").map fun ino => ino.data) = some [] ∧
    (local_open2 ctx_mapped_file dir_d "g" (O_RDWR ||| O_CREAT) ⟨0, 0, 0o77777, UNSET64⟩
      ⟨-1, []⟩ (host_plain [])).1 = 3 ∧
    (local_lstat ctx_mapped_file ⟨4, "d/g"⟩ stat_1000
      (local_open2 ctx_mapped_file dir_d "g" (O_RDWR ||| O_CREAT) ⟨0, 0, 0o77777, UNSET64⟩
        ⟨-1, []⟩ (host_plain [])).2.2.calm).2.1.st_mode = S_IFREG ||| 0o600 := by
  decide

/-- C25 fails on the code: the shadow file of `d/f` holds the single line
`virtfs.uid_backup=500`, whose key is none of the four.  `local_lstat` then
reports uid 0 instead of the real uid 1000, and an update that sets only the
gid rewrites the file with the line `virtfs.uid=0`. -/
theorem unknown_key_prefix_taken :
    (local_lstat ctx_mapped_file path_d_f stat_1000
      (host_shadow "virtfs.uid_backup=500\n" [])).1 = 0 ∧
    (host_lstat "/export/d/f" stat_1000 (host_shadow "virtfs.uid_backup=500\n" [])).2.1.st_uid
      = 1000 ∧
    (local_lstat ctx_mapped_file path_d_f stat_1000
      (host_shadow "virtfs.uid_backup=500\n" [])).2.1.st_uid = 0 ∧
    (local_set_mapped_file_attr ctx_mapped_file "d/f" ⟨UNSET32, 7, UNSET32, UNSET64⟩
      (host_shadow "virtfs.uid_backup=500\n" [])).1 = 0 ∧
    (((local_set_mapped_file_attr ctx_mapped_file "d/f" ⟨UNSET32, 7, UNSET32, UNSET64⟩
      (host_shadow "virtfs.uid_backup=500\n" [])).2.fs "/export/d/.virtfs_metadata/f").map
        fun ino => ino.data) = some "virtfs.uid=0\nvirtfs.gid=7\n".data := by
  decide

theorem is_field_line_false (buf : List Char) (h : is_field_line buf = false) :
    buf.take 10 ≠ "virtfs.uid".data ∧ buf.take 10 ≠ "virtfs.gid".data ∧
    buf.take 11 ≠ "virtfs.mode".data ∧ buf.take 11 ≠ "virtfs.rdev".data := by
  unfold is_field_line at h
  simp only [Bool.or_eq_false_iff, decide_eq_false_iff_not] at h
  exact ⟨h.1.1.1, h.1.1.2, h.1.2, h.2⟩

theorem take10_of_take11 (buf key : List Char) (hb : buf.take 11 = key) :
    buf.take 10 = key.take 10 := by
  rw [← hb, List.take_take]
  rfl

/-- C25 as amended: the two read loops compare only the first 10 resp. 11
bytes of what one read returns with the key strings.  A line of fewer than 99
bytes (what one read can take) that does not begin with one of the four key
strings changes no field of the stat buffer and none of the four values of an
update, and the loops go on with the rest of the file as if the line were not
there.  What a read returns is taken as the field whose key string it begins
with, for each of the four keys, whatever follows the key string: the field is
set from the text after the 11th byte (uid, gid) resp. the 12th byte (mode,
rdev). -/
theorem unknown_line_ignored (fd : Int) (line rest : List Char) (st : Stat) (a : MapAttr)
    (hx : ∀ x ∈ line, x ≠ '\n') (hl : line.length < 99)
    (hk : is_field_line (line ++ ['\n']) = false) :
    mapped_file_attr_line (line ++ ['\n']) st = st ∧
    set_mapped_file_attr_line (line ++ ['\n']) a = a ∧
    mapped_file_attr_loop ((line ++ '\n' :: rest).length + 1) ⟨fd, line ++ '\n' :: rest⟩ st =
      mapped_file_attr_loop (rest.length + 1) ⟨fd, rest⟩ st ∧
    set_mapped_file_attr_loop ((line ++ '\n' :: rest).length + 1) ⟨fd, line ++ '\n' :: rest⟩ a =
      set_mapped_file_attr_loop (rest.length + 1) ⟨fd, rest⟩ a ∧
    (∀ buf : List Char, buf.take 10 = "virtfs.uid".data →
      mapped_file_attr_line buf st = { st with st_uid := toUInt32 (atoi (buf.drop 11)) } ∧
      set_mapped_file_attr_line buf a = { a with uid := atoi (buf.drop 11) }) ∧
    (∀ buf : List Char, buf.take 10 = "virtfs.gid".data →
      mapped_file_attr_line buf st = { st with st_gid := toUInt32 (atoi (buf.drop 11)) } ∧
      set_mapped_file_attr_line buf a = { a with gid := atoi (buf.drop 11) }) ∧
    (∀ buf : List Char, buf.take 11 = "virtfs.mode".data →
      mapped_file_attr_line buf st = { st with st_mode := toUInt32 (atoi (buf.drop 12)) } ∧
      set_mapped_file_attr_line buf a = { a with mode := atoi (buf.drop 12) }) ∧
    (∀ buf : List Char, buf.take 11 = "virtfs.rdev".data →
      mapped_file_attr_line buf st = { st with st_rdev := toUInt64 (atoi (buf.drop 12)) } ∧
      set_mapped_file_attr_line buf a = { a with rdev := atoi (buf.drop 12) }) := by
  obtain ⟨k1, k2, k3, k4⟩ := is_field_line_false _ hk
  have e1 : mapped_file_attr_line (line ++ ['\n']) st = st := by
    unfold mapped_file_attr_line
    rw [if_neg k1, if_neg k2, if_neg k3, if_neg k4]
  have e2 : set_mapped_file_attr_line (line ++ ['\n']) a = a := by
    unfold set_mapped_file_attr_line
    rw [if_neg k1, if_neg k2, if_neg k3, if_neg k4]
  refine ⟨e1, e2, ?_, ?_, ?_, ?_, ?_, ?_⟩
  · rw [mapped_file_attr_loop_eq, mapped_file_attr_loop_eq,
      attr_fold_line _ fd line rest st hx hl _ (Nat.lt_succ_self _), e1]
  · rw [set_mapped_file_attr_loop_eq, set_mapped_file_attr_loop_eq,
      attr_fold_line _ fd line rest a hx hl _ (Nat.lt_succ_self _), e2]
  · intro buf hb
    constructor
    · unfold mapped_file_attr_line
      rw [if_pos hb]
    · unfold set_mapped_file_attr_line
      rw [if_pos hb]
  · intro buf hb
    have n1 : buf.take 10 ≠ "virtfs.uid".data := by rw [hb]; decide
    constructor
    · unfold mapped_file_attr_line
      rw [if_neg n1, if_pos hb]
    · unfold set_mapped_file_attr_line
      rw [if_neg n1, if_pos hb]
  · intro buf hb
    have h10 := take10_of_take11 buf _ hb
    have n1 : buf.take 10 ≠ "virtfs.uid".data := by rw [h10]; decide
    have n2 : buf.take 10 ≠ "virtfs.gid".data := by rw [h10]; decide
    constructor
    · unfold mapped_file_attr_line
      rw [if_neg n1, if_neg n2, if_pos hb]
    · unfold set_mapped_file_attr_line
      rw [if_neg n1, if_neg n2, if_pos hb]
  · intro buf hb
    have h10 := take10_of_take11 buf _ hb
    have n1 : buf.take 10 ≠ "virtfs.uid".data := by rw [h10]; decide
    have n2 : buf.take 10 ≠ "virtfs.gid".data := by rw [h10]; decide
    have n3 : buf.take 11 ≠ "virtfs.mode".data := by rw [hb]; decide
    constructor
    · unfold mapped_file_attr_line
      rw [if_neg n1, if_neg n2, if_neg n3, if_pos hb]
    · unfold set_mapped_file_attr_line
      rw [if_neg n1, if_neg n2, if_neg n3, if_pos hb]

theorem unknown_line_ignored_witness :
    mapped_file_attr_loop (("# note".data ++ '\n' :: "virtfs.uid=5\n".data).length + 1)
      ⟨3, "# note".data ++ '\n' :: "virtfs.uid=5\n".data⟩ stat_1000 =
    mapped_file_attr_loop ("virtfs.uid=5\n".data.length + 1) ⟨3, "virtfs.uid=5\n".data⟩
      stat_1000 :=
  (unknown_line_ignored 3 "# note".data "virtfs.uid=5\n".data stat_1000 ⟨-1, -1, -1, -1⟩
    (by decide) (by decide) (by decide)).2.2.1

theorem takeLine_full (n : Nat) : ∀ (pre rest : List Char), (∀ x ∈ pre, x ≠ '\n') →
    pre.length = n → takeLine n (pre ++ rest) = pre := by
  induction n with
  | zero =>
    intro pre rest _ hl
    have : pre = [] := List.length_eq_zero.mp hl
    subst this
    simp [takeLine]
  | succ n ih =>
    intro pre rest hx hl
    cases pre with
    | nil => simp at hl
    | cons c cs =>
      have hc : c ≠ '\n' := hx c (List.mem_cons_self _ _)
      have := ih cs rest (fun x hxm => hx x (List.mem_cons_of_mem _ hxm)) (by simpa using hl)
      show takeLine (n + 1) (c :: (cs ++ rest)) = c :: cs
      simp only [takeLine, hc, if_false]
      exact congrArg (c :: ·) this

theorem attr_fold_chunk {α : Type} (f : List Char → α → α) (fd : Int) (chunk rest : List Char)
    (a : α) (hx : ∀ x ∈ chunk, x ≠ '\n') (hl : chunk.length = 99) :
    attr_fold f ((chunk ++ rest).length + 1) ⟨fd, chunk ++ rest⟩ a =
      attr_fold f (rest.length + 1) ⟨fd, rest⟩ (f chunk a) := by
  have ht := takeLine_full 99 chunk rest hx hl
  have hne : chunk ++ rest ≠ [] := by
    intro e
    have := congrArg List.length e
    simp only [List.length_append, hl, List.length_nil] at this
    omega
  have hg : fgets ATTR_MAX ⟨fd, chunk ++ rest⟩ = (some chunk, ⟨fd, rest⟩) := by
    unfold fgets
    rcases hcr : chunk ++ rest with _ | ⟨c, cs⟩
    · exact absurd hcr hne
    · simp only []
      rw [← hcr]
      have : ATTR_MAX - 1 = 99 := by decide
      rw [this, ht, hl]
      simp [hl.symm]
  rw [attr_fold]
  simp only [hg]
  exact attr_fold_stable f _ _ _ _ (by simp [hl]) (by simp)

/-- C26 fails on the code: the shadow file of `d/f` holds one line of 112 bytes,
99 filler bytes followed by `virtfs.uid=0`.  The bytes after the first 99 are
read as a line of their own, and `local_lstat` reports uid 0 instead of the real
uid 1000. -/
theorem long_line_rest_interpreted :
    long_line.data.length = 112 ∧ '\n' ∉ long_line.data.take 111 ∧
    (local_lstat ctx_mapped_file path_d_f stat_1000 (host_shadow long_line [])).1 = 0 ∧
    (host_lstat "/export/d/f" stat_1000 (host_shadow long_line [])).2.1.st_uid = 1000 ∧
    (local_lstat ctx_mapped_file path_d_f stat_1000
      (host_shadow long_line [])).2.1.st_uid = 0 := by
  decide

/-- C26 as amended: one read takes at most 99 bytes.  Of a line longer than
that, the first 99 bytes are parsed as a line (only they decide which field that
read assigns), and reading goes on right after them: the rest of the line is
parsed as the next line or lines, in both read loops. -/
theorem long_line_split (fd : Int) (chunk rest : List Char) (st : Stat) (a : MapAttr)
    (hx : ∀ x ∈ chunk, x ≠ '\n') (hl : chunk.length = 99) :
    mapped_file_attr_loop ((chunk ++ rest).length + 1) ⟨fd, chunk ++ rest⟩ st =
      mapped_file_attr_loop (rest.length + 1) ⟨fd, rest⟩ (mapped_file_attr_line chunk st) ∧
    set_mapped_file_attr_loop ((chunk ++ rest).length + 1) ⟨fd, chunk ++ rest⟩ a =
      set_mapped_file_attr_loop (rest.length + 1) ⟨fd, rest⟩
        (set_mapped_file_attr_line chunk a) := by
  constructor
  · rw [mapped_file_attr_loop_eq, mapped_file_attr_loop_eq]
    exact attr_fold_chunk _ fd chunk rest st hx hl
  · rw [set_mapped_file_attr_loop_eq, set_mapped_file_attr_loop_eq]
    exact attr_fold_chunk _ fd chunk rest a hx hl

theorem long_line_split_witness :
    (mapped_file_attr_loop ((List.replicate 99 'x' ++ "virtfs.uid=0\n".data).length + 1)
      ⟨3, List.replicate 99 'x' ++ "virtfs.uid=0\n".data⟩ stat_1000).st_uid = 0 :=
  (congrArg Stat.st_uid (long_line_split 3 (List.replicate 99 'x') "virtfs.uid=0\n".data
    stat_1000 ⟨-1, -1, -1, -1⟩ (by decide) (by decide)).1).trans (by decide)

/-- C27 fails on the code: under passthrough, none and mapped-xattr
`local_remove` makes no stat call, and its choice between `rmdir` and `remove`
follows what the variable `stbuf` happens to hold at entry.  For the regular
file `f`: with a directory mode there, `rmdir` is called, fails with `ENOTDIR`
and the file stays; with a regular mode there, the file is removed. -/
theorem local_remove_reads_unset_stat :
    (local_remove ctx_passthrough "f" ⟨S_IFDIR ||| 0o755, 0, 0, 0⟩ (host_f [])).1 = -1 ∧
    (local_remove ctx_passthrough "f" ⟨S_IFDIR ||| 0o755, 0, 0, 0⟩ (host_f [])).2.errno
      = ENOTDIR ∧
    ((local_remove ctx_passthrough "f" ⟨S_IFDIR ||| 0o755, 0, 0, 0⟩ (host_f [])).2.fs
      "/export/f").isSome ∧
    (local_remove ctx_passthrough "f" ⟨S_IFREG ||| 0o644, 0, 0, 0⟩ (host_f [])).1 = 0 ∧
    ((local_remove ctx_passthrough "f" ⟨S_IFREG ||| 0o644, 0, 0, 0⟩ (host_f [])).2.fs
      "/export/f").isNone ∧
    (local_remove ctx_none "f" ⟨S_IFDIR ||| 0o755, 0, 0, 0⟩ (host_f [])).1 = -1 ∧
    (local_remove ctx_mapped "f" ⟨S_IFDIR ||| 0o755, 0, 0, 0⟩ (host_f [])).1 = -1 ∧
    (local_remove ctx_mapped_file "d/f" ⟨S_IFDIR ||| 0o755, 0, 0, 0⟩ (host_plain [])).1 = 0 ∧
    ((local_remove ctx_mapped_file "d/f" ⟨S_IFDIR ||| 0o755, 0, 0, 0⟩ (host_plain [])).2.fs
      "/export/d/f").isNone := by
  decide

/-- Outside mapped-file `local_remove` is its final choice on the entry content
of `stbuf`; under mapped-file a failed `lstat` ends the call with its result. -/
theorem local_remove_choice (ctx : FsContext) (path : String) (stbuf : Stat) (h : Host) :
    (ctx.export_flags &&& V9FS_SM_MAPPED_FILE = 0 →
      local_remove ctx path stbuf h = local_remove_final ctx path stbuf h) ∧
    (ctx.export_flags &&& V9FS_SM_MAPPED_FILE ≠ 0 →
      (host_lstat (rpath ctx path) stbuf h).1 ≠ 0 →
      local_remove ctx path stbuf h =
        ((host_lstat (rpath ctx path) stbuf h).1,
          (host_lstat (rpath ctx path) stbuf h).2.2)) := by
  refine ⟨?_, ?_⟩
  · intro hb
    simp [local_remove, hb]
  · intro hb hl
    simp [local_remove, hb, hl]

/-- C28 fails on the code: `d/f` exists with the content `data`; `local_open2`
with flags `O_RDWR | O_CREAT` (no `O_EXCL`) opens it, the tagging step fails
with `EPERM`, and the rollback removes the file: the call returns -1 and `d/f`
is gone.  This happens under mapped-xattr (`setxattr` fails), under mapped-file
(the creation of the metadata directory fails) and under passthrough (`lchown`
fails). -/
theorem open2_rollback_removes_existing :
    ((host_data []).fs "/export/d/f").isSome ∧
    (local_open2 ctx_mapped dir_d "f" (O_RDWR ||| O_CREAT) cred_644 ⟨-1, []⟩
      (host_data [none, some EPERM])).1 = -1 ∧
    (local_open2 ctx_mapped dir_d "f" (O_RDWR ||| O_CREAT) cred_644 ⟨-1, []⟩
      (host_data [none, some EPERM])).2.2.errno = EPERM ∧
    ((local_open2 ctx_mapped dir_d "f" (O_RDWR ||| O_CREAT) cred_644 ⟨-1, []⟩
      (host_data [none, some EPERM])).2.2.fs "/export/d/f").isNone ∧
    (local_open2 ctx_mapped_file dir_d "f" (O_RDWR ||| O_CREAT) cred_644 ⟨-1, []⟩
      (host_data [none, none, some EPERM])).1 = -1 ∧
    ((local_open2 ctx_mapped_file dir_d "f" (O_RDWR ||| O_CREAT) cred_644 ⟨-1, []⟩
      (host_data [none, none, some EPERM])).2.2.fs "/export/d/f").isNone ∧
    (local_open2 ctx_passthrough dir_d "f" (O_RDWR ||| O_CREAT) cred_644 ⟨-1, []⟩
      (host_data [none, some EPERM])).1 = -1 ∧
    ((local_open2 ctx_passthrough dir_d "f" (O_RDWR ||| O_CREAT) cred_644 ⟨-1, []⟩
      (host_data [none, some EPERM])).2.2.fs "/export/d/f").isNone := by
  decide

theorem host_lstat_fs (p : String) (st : Stat) (h : Host) :
    (host_lstat p st h).2.2.fs = h.fs := by
  unfold host_lstat
  rw [Host.next_eq]
  cases hj : h.plan.head?.join with
  | some e => rfl
  | none => cases hn : h.fs p <;> simp [hn]

theorem host_rmdir_spec (p : String) (h : Host) :
    ((host_rmdir p h).1 = 0 ∨ (host_rmdir p h).1 = -1) ∧
    ((host_rmdir p h).1 ≠ 0 → (host_rmdir p h).2.fs = h.fs) := by
  unfold host_rmdir
  rw [Host.next_eq]
  cases hj : h.plan.head?.join with
  | some e => simp [Host.fail]
  | none =>
    cases hn : h.fs p with
    | none => simp [Host.fail, hn]
    | some ino =>
      cases hd : ino.isDir <;> simp [Host.fail, hn, hd]

theorem create_attr_dir_other (ctx : FsContext) (path : String) (h : Host) (q : String)
    (hq : q ≠ DELIMITER_IN_PATH2 ctx.fs_root (dirname path) VIRTFS_META_DIR) :
    (local_create_mapped_attr_dir ctx path h).2.fs q = h.fs q := by
  obtain ⟨-, s2, s3, s4⟩ := host_mkdir_spec
    (DELIMITER_IN_PATH2 ctx.fs_root (dirname path) VIRTFS_META_DIR) 0o700 h
  have hm : (host_mkdir (DELIMITER_IN_PATH2 ctx.fs_root (dirname path) VIRTFS_META_DIR)
      0o700 h).2.fs q = h.fs q := by
    cases hj : h.plan.head?.join with
    | some e => rw [(s2 e hj).2.2]
    | none =>
      cases hn : h.fs (DELIMITER_IN_PATH2 ctx.fs_root (dirname path) VIRTFS_META_DIR) with
      | none => exact (s3 hj hn).2.2 q hq
      | some ino => rw [(s4 ino hj hn).2.2]
  unfold local_create_mapped_attr_dir
  simp only []
  split_ifs <;> exact hm

theorem local_remove_eq (ctx : FsContext) (path : String) (stbuf : Stat) (h : Host)
    (hm : sm_is ctx .mapped_file) :
    local_remove ctx path stbuf h =
      (if (host_lstat (rpath ctx path) stbuf h).1 ≠ 0 then
        ((host_lstat (rpath ctx path) stbuf h).1, (host_lstat (rpath ctx path) stbuf h).2.2)
       else if failed_not_enoent (remove_dir_step ctx path stbuf h)
       then remove_dir_step ctx path stbuf h
       else if failed_not_enoent (remove_shadow_step ctx path stbuf h)
       then remove_shadow_step ctx path stbuf h
       else local_remove_final ctx path (host_lstat (rpath ctx path) stbuf h).2.1
        (remove_shadow_step ctx path stbuf h).2) := by
  obtain ⟨h0, h1⟩ := mapped_file_bits hm
  unfold local_remove
  simp only [h1, ne_eq, not_false_eq_true, if_true, failed_not_enoent, remove_shadow_step,
    remove_dir_step]

/-- C29 fails on the code: under mapped-file a shadow step that succeeded is not
undone when a later step fails.  `local_rename` of `d/f` to `d/g` whose real
rename fails with `EACCES` returns -1 with the shadow file moved to the new
name, so `local_lstat` of `d/f` reports the real uid 1000 instead of 500;
`local_unlinkat` and `local_remove` of the directory `d/e` whose real removal
fails return -1 with the shadow file of `e` and the `.virtfs_metadata` of `e`
removed, while `d/e` still exists. -/
theorem failed_op_shadow_lost :
    (local_lstat ctx_mapped_file path_d_f stat_1000
      (host_shadow "virtfs.uid=500\n" [])).2.1.st_uid = 500 ∧
    (local_rename ctx_mapped_file "d/f" "d/g"
      (host_shadow "virtfs.uid=500\n" [none, none, some 13])).1 = -1 ∧
    ((local_rename ctx_mapped_file "d/f" "d/g"
      (host_shadow "virtfs.uid=500\n" [none, none, some 13])).2.fs
        "/export/d/.virtfs_metadata/f").isNone ∧
    ((local_rename ctx_mapped_file "d/f" "d/g"
      (host_shadow "virtfs.uid=500\n" [none, none, some 13])).2.fs
        "/export/d/.virtfs_metadata/g").isSome ∧
    (local_lstat ctx_mapped_file path_d_f stat_1000
      (local_rename ctx_mapped_file "d/f" "d/g"
        (host_shadow "virtfs.uid=500\n" [none, none, some 13])).2).1 = 0 ∧
    (local_lstat ctx_mapped_file path_d_f stat_1000
      (local_rename ctx_mapped_file "d/f" "d/g"
        (host_shadow "virtfs.uid=500\n" [none, none, some 13])).2).2.1.st_uid = 1000 ∧
    (local_unlinkat ctx_mapped_file dir_d "e" AT_REMOVEDIR
      (host_shadow_dir [none, none, some 13])).1 = -1 ∧
    ((local_unlinkat ctx_mapped_file dir_d "e" AT_REMOVEDIR
      (host_shadow_dir [none, none, some 13])).2.fs "/export/d/e").isSome ∧
    ((local_unlinkat ctx_mapped_file dir_d "e" AT_REMOVEDIR
      (host_shadow_dir [none, none, some 13])).2.fs "/export/d/.virtfs_metadata/e").isNone ∧
    ((local_unlinkat ctx_mapped_file dir_d "e" AT_REMOVEDIR
      (host_shadow_dir [none, none, some 13])).2.fs "/export/d/e/.virtfs_metadata").isNone ∧
    (local_remove ctx_mapped_file "d/e" stat_1000
      (host_shadow_dir [none, none, none, some 13])).1 = -1 ∧
    ((local_remove ctx_mapped_file "d/e" stat_1000
      (host_shadow_dir [none, none, none, some 13])).2.fs "/export/d/e").isSome ∧
    ((local_remove ctx_mapped_file "d/e" stat_1000
      (host_shadow_dir [none, none, none, some 13])).2.fs
        "/export/d/.virtfs_metadata/e").isNone := by
  decide

/-- C29 as amended: under mapped-file, when `local_rename`, `local_unlinkat` or
`local_remove` returns an error and none of its shadow steps had succeeded (the
shadow rename; the removal of the directory's `.virtfs_metadata` and of the
shadow file), the file system is as it was before the call, up to the metadata
directory of the new name that `local_rename` may have created: every shadow
entry is in place.  Nothing is promised after a shadow step that succeeded. -/
theorem failed_op_shadow_kept (ctx : FsContext) (oldpath newpath : String) (dir : V9fsPath)
    (name path : String) (flags : Nat) (stbuf : Stat) (h : Host)
    (hm : sm_is ctx .mapped_file) :
    ((local_rename ctx oldpath newpath h).1 ≠ 0 →
      ¬ (0 ≤ (rename_dir_step ctx newpath h).1 ∧
        (rename_shadow_step ctx oldpath newpath h).1 = 0) →
      (∀ q, q ≠ DELIMITER_IN_PATH2 ctx.fs_root (dirname newpath) VIRTFS_META_DIR →
        (local_rename ctx oldpath newpath h).2.fs q = h.fs q) ∧
      (∀ ino, h.fs (DELIMITER_IN_PATH2 ctx.fs_root (dirname newpath) VIRTFS_META_DIR)
          = some ino →
        (local_rename ctx oldpath newpath h).2.fs
          (DELIMITER_IN_PATH2 ctx.fs_root (dirname newpath) VIRTFS_META_DIR) = some ino)) ∧
    ((local_unlinkat ctx dir name flags h).1 ≠ 0 →
      (flags = AT_REMOVEDIR →
        (unlinkat_dir_step ctx (DELIMITER_IN_PATH dir.data name) flags h).1 ≠ 0) →
      (¬ failed_not_enoent (unlinkat_dir_step ctx (DELIMITER_IN_PATH dir.data name) flags h) →
        (unlinkat_shadow_step ctx (DELIMITER_IN_PATH dir.data name) flags h).1 ≠ 0) →
      (local_unlinkat ctx dir name flags h).2.fs = h.fs) ∧
    ((local_remove ctx path stbuf h).1 ≠ 0 →
      ((host_lstat (rpath ctx path) stbuf h).1 = 0 →
        S_ISDIR (host_lstat (rpath ctx path) stbuf h).2.1.st_mode = true →
        (remove_dir_step ctx path stbuf h).1 ≠ 0) →
      ((host_lstat (rpath ctx path) stbuf h).1 = 0 →
        ¬ failed_not_enoent (remove_dir_step ctx path stbuf h) →
        (remove_shadow_step ctx path stbuf h).1 ≠ 0) →
      (local_remove ctx path stbuf h).2.fs = h.fs) := by
  refine ⟨?_, ?_, ?_⟩
  · intro herr hns
    have he := local_rename_eq ctx oldpath newpath h hm
    have dk : (∀ q, q ≠ DELIMITER_IN_PATH2 ctx.fs_root (dirname newpath) VIRTFS_META_DIR →
        (rename_dir_step ctx newpath h).2.fs q = h.fs q) ∧
        (∀ ino, h.fs (DELIMITER_IN_PATH2 ctx.fs_root (dirname newpath) VIRTFS_META_DIR)
          = some ino → (rename_dir_step ctx newpath h).2.fs
          (DELIMITER_IN_PATH2 ctx.fs_root (dirname newpath) VIRTFS_META_DIR) = some ino) :=
      ⟨fun q hq => create_attr_dir_other ctx newpath h q hq,
       fun ino hi => create_attr_dir_keep ctx newpath h _ ino hi⟩
    obtain ⟨-, sf, -⟩ := host_rename_spec (local_mapped_attr_path ctx oldpath)
      (local_mapped_attr_path ctx newpath) (rename_dir_step ctx newpath h).2
    obtain ⟨-, rf, -⟩ := host_rename_spec (rpath ctx oldpath) (rpath ctx newpath)
      (rename_shadow_step ctx oldpath newpath h).2
    by_cases hd : (rename_dir_step ctx newpath h).1 < 0
    · rw [he, if_pos hd]; exact dk
    · have hsz : (rename_shadow_step ctx oldpath newpath h).1 ≠ 0 :=
        fun hz => hns ⟨not_lt.mp hd, hz⟩
      have hsfs : (rename_shadow_step ctx oldpath newpath h).2.fs
          = (rename_dir_step ctx newpath h).2.fs := sf hsz
      by_cases hf : failed_not_enoent (rename_shadow_step ctx oldpath newpath h)
      · rw [he, if_neg hd, if_pos hf, hsfs]; exact dk
      · rw [he, if_neg hd, if_neg hf] at herr ⊢
        rw [rf herr, hsfs]; exact dk
  · intro herr hA hB
    have he := local_unlinkat_eq ctx dir name flags h hm
    generalize DELIMITER_IN_PATH dir.data name = full at he hA hB ⊢
    have hdfs : (unlinkat_dir_step ctx full flags h).2.fs = h.fs := by
      unfold unlinkat_dir_step at hA ⊢
      by_cases hfl : flags = AT_REMOVEDIR
      · simp only [hfl, if_true] at hA ⊢
        exact (host_remove_spec _ h).2.2.2.2.2.1 (hA trivial)
      · simp only [hfl, if_false]
    by_cases f1 : failed_not_enoent (unlinkat_dir_step ctx full flags h)
    · rw [he, if_pos f1]; exact hdfs
    · have hsz := hB f1
      have hsfs : (unlinkat_shadow_step ctx full flags h).2.fs = h.fs := by
        unfold unlinkat_shadow_step at hsz ⊢
        rw [(host_remove_spec _ _).2.2.2.2.2.1 hsz]; exact hdfs
      by_cases f2 : failed_not_enoent (unlinkat_shadow_step ctx full flags h)
      · rw [he, if_neg f1, if_pos f2]; exact hsfs
      · rw [he, if_neg f1, if_neg f2] at herr ⊢
        rw [(host_remove_spec _ _).2.2.2.2.2.1 herr]; exact hsfs
  · intro herr hA hB
    have he := local_remove_eq ctx path stbuf h hm
    by_cases hl : (host_lstat (rpath ctx path) stbuf h).1 ≠ 0
    · rw [he, if_pos hl]
      exact host_lstat_fs _ _ _
    · have hl0 : (host_lstat (rpath ctx path) stbuf h).1 = 0 := not_not.mp hl
      have hdfs : (remove_dir_step ctx path stbuf h).2.fs = h.fs := by
        have hA' := hA hl0
        unfold remove_dir_step at hA' ⊢
        by_cases hdir : S_ISDIR (host_lstat (rpath ctx path) stbuf h).2.1.st_mode = true
        · simp only [hdir, if_true] at hA' ⊢
          rw [(host_remove_spec _ _).2.2.2.2.2.1 (hA' trivial)]
          exact host_lstat_fs _ _ _
        · simp only [hdir, if_false, Bool.false_eq_true]
          exact host_lstat_fs _ _ _
      by_cases f1 : failed_not_enoent (remove_dir_step ctx path stbuf h)
      · rw [he, if_neg hl, if_pos f1]; exact hdfs
      · have hsz := hB hl0 f1
        have hsfs : (remove_shadow_step ctx path stbuf h).2.fs = h.fs := by
          unfold remove_shadow_step at hsz ⊢
          rw [(host_remove_spec _ _).2.2.2.2.2.1 hsz]; exact hdfs
        by_cases f2 : failed_not_enoent (remove_shadow_step ctx path stbuf h)
        · rw [he, if_neg hl, if_neg f1, if_pos f2]; exact hsfs
        · rw [he, if_neg hl, if_neg f1, if_neg f2] at herr ⊢
          unfold local_remove_final at herr ⊢
          by_cases hdir : S_ISDIR (host_lstat (rpath ctx path) stbuf h).2.1.st_mode = true
          · simp only [hdir, if_true] at herr ⊢
            rw [(host_rmdir_spec _ _).2 herr]; exact hsfs
          · simp only [hdir, if_false, Bool.false_eq_true] at herr ⊢
            rw [(host_remove_spec _ _).2.2.2.2.2.1 herr]; exact hsfs

theorem failed_op_shadow_kept_witness :
    sm_is ctx_mapped_file .mapped_file ∧
    (local_unlinkat ctx_mapped_file dir_d "e" AT_REMOVEDIR (host_shadow_dir [some 13])).1 ≠ 0 ∧
    (local_unlinkat ctx_mapped_file dir_d "e" AT_REMOVEDIR (host_shadow_dir [some 13])).2.fs =
      (host_shadow_dir [some 13]).fs :=
  ⟨by decide, by decide,
   (failed_op_shadow_kept ctx_mapped_file "d/f" "d/g" dir_d "e" "d/e" AT_REMOVEDIR stat_1000
      (host_shadow_dir [some 13]) (by decide)).2.1 (by decide) (fun _ => by decide)
      (fun hn => absurd (by decide) hn)⟩

end P9
